import Mathlib

/-!
Verification development for a nonlinear structural finite-element toolkit
(element library, ECSW hyper-reduction, reduced mechanical systems).

The element-level computations of `element.py` are embedded over exact
arithmetic.  Floating point numbers are modelled by elements of `QS d`,
the commutative ring `ℚ[√d]` of numbers `a + b·√d` with rational `a`, `b`:
the Gauss-point abscissae of the quadrature rules are `1/√3`, `√(3/5)`,
`(5 ± c·√5)/20`, so every number appearing in an element computation lies
in `ℚ[√3]`, `ℚ[√5]` or `ℚ[√15]` once the nodal data does.  Division is
total with the Lean convention `x / 0 = 0` (junk value), matching the
usual shallow-embedding treatment; all theorems that depend on a division
carry the corresponding non-degeneracy hypothesis.
-/

attribute [local semireducible] Rat.add Rat.mul Rat.inv Rat.sub

namespace AMfe

/-- Numbers of the form `a + b·√d` with `a b : ℚ`; the scalar field used to
embed the floating-point element computations exactly. -/
@[ext]
structure QS (d : ℚ) where
  a : ℚ
  b : ℚ
deriving DecidableEq, Repr

namespace QS

variable {d : ℚ}

/-- Embedding of a rational constant. -/
def ofQ (q : ℚ) : QS d := ⟨q, 0⟩

/-- The adjoined square root `√d`. -/
def sqrtd : QS d := ⟨0, 1⟩

instance : Zero (QS d) := ⟨⟨0, 0⟩⟩

instance : One (QS d) := ⟨⟨1, 0⟩⟩

instance : Add (QS d) := ⟨fun x y => ⟨x.a + y.a, x.b + y.b⟩⟩

instance : Neg (QS d) := ⟨fun x => ⟨-x.a, -x.b⟩⟩

instance : Mul (QS d) := ⟨fun x y => ⟨x.a * y.a + d * (x.b * y.b), x.a * y.b + x.b * y.a⟩⟩

/-- Conjugate-based inverse `(a + b√d)⁻¹ = (a - b√d)/(a² - d·b²)`; junk when
the norm `a² - d·b²` vanishes (which for non-square `d` only happens at `0`). -/
instance : Inv (QS d) := ⟨fun x => ⟨x.a / (x.a ^ 2 - d * x.b ^ 2), -x.b / (x.a ^ 2 - d * x.b ^ 2)⟩⟩

instance : Div (QS d) := ⟨fun x y => x * y⁻¹⟩

@[simp] def zero_a : (0 : QS d).a = 0 := rfl

@[simp] def zero_b : (0 : QS d).b = 0 := rfl

@[simp] def one_a : (1 : QS d).a = 1 := rfl

@[simp] def one_b : (1 : QS d).b = 0 := rfl

@[simp] def add_a (x y : QS d) : (x + y).a = x.a + y.a := rfl

@[simp] def add_b (x y : QS d) : (x + y).b = x.b + y.b := rfl

@[simp] def neg_a (x : QS d) : (-x).a = -x.a := rfl

@[simp] def neg_b (x : QS d) : (-x).b = -x.b := rfl

@[simp] def mul_a (x y : QS d) : (x * y).a = x.a * y.a + d * (x.b * y.b) := rfl

@[simp] def mul_b (x y : QS d) : (x * y).b = x.a * y.b + x.b * y.a := rfl

instance : CommRing (QS d) where
  nsmul := nsmulRec
  zsmul := zsmulRec
  add_assoc x y z := by ext <;> simp <;> ring
  zero_add x := by ext <;> simp
  add_zero x := by ext <;> simp
  add_comm x y := by ext <;> simp <;> ring
  mul_assoc x y z := by ext <;> simp <;> ring
  one_mul x := by ext <;> simp
  mul_one x := by ext <;> simp
  left_distrib x y z := by ext <;> simp <;> ring
  right_distrib x y z := by ext <;> simp <;> ring
  zero_mul x := by ext <;> simp
  mul_zero x := by ext <;> simp
  mul_comm x y := by ext <;> simp <;> ring
  neg_add_cancel x := by ext <;> simp

end QS

open Matrix

section Kernels

variable {F : Type} [CommRing F] [Inv F] [Div F]

/-- Translation of `scatter_matrix(Mat, ndim)` from `element.py`: the
`(n·ndim)×(m·ndim)` matrix with `Mat_scattered[ndim*i+k, ndim*j+k] = Mat[i,j]`
for `k < ndim` and zeros elsewhere (`np.kron(Mat, eye(ndim))`). -/
def scatter_matrix {n m : ℕ} (Mat : Matrix (Fin n) (Fin m) F) (ndim : ℕ) :
    Matrix (Fin (n * ndim)) (Fin (m * ndim)) F :=
  Matrix.of fun r c =>
    if r.val % ndim = c.val % ndim then
      Mat ⟨r.val / ndim, Nat.div_lt_of_lt_mul (by simp [Nat.mul_comm, r.isLt])⟩
        ⟨c.val / ndim, Nat.div_lt_of_lt_mul (by simp [Nat.mul_comm, c.isLt])⟩
    else 0

/-- Translation of the 2D branch of `compute_B_matrix(B_tilde, F)` from
`element.py`: the 3×(2·nodes) strain-displacement operator with per-node
column block `[[F11*b0, F21*b0], [F12*b1, F22*b1], [F11*b1+F12*b0, F21*b1+F22*b0]]`. -/
def compute_B_matrix2 {n : ℕ} (B_tilde : Matrix (Fin n) (Fin 2) F)
    (Fg : Matrix (Fin 2) (Fin 2) F) : Matrix (Fin 3) (Fin (n * 2)) F :=
  Matrix.of fun i c =>
    let nd : Fin n := ⟨c.val / 2, Nat.div_lt_of_lt_mul (by simp [Nat.mul_comm, c.isLt])⟩
    let k : Fin 2 := ⟨c.val % 2, Nat.mod_lt _ (by omega)⟩
    match i with
    | 0 => Fg k 0 * B_tilde nd 0
    | 1 => Fg k 1 * B_tilde nd 1
    | 2 => Fg k 0 * B_tilde nd 1 + Fg k 1 * B_tilde nd 0

/-- Translation of the 3D branch of `compute_B_matrix(B_tilde, F)` from
`element.py`: the 6×(3·nodes) strain-displacement operator. -/
def compute_B_matrix3 {n : ℕ} (B_tilde : Matrix (Fin n) (Fin 3) F)
    (Fg : Matrix (Fin 3) (Fin 3) F) : Matrix (Fin 6) (Fin (n * 3)) F :=
  Matrix.of fun i c =>
    let nd : Fin n := ⟨c.val / 3, Nat.div_lt_of_lt_mul (by simp [Nat.mul_comm, c.isLt])⟩
    let k : Fin 3 := ⟨c.val % 3, Nat.mod_lt _ (by omega)⟩
    match i with
    | 0 => Fg k 0 * B_tilde nd 0
    | 1 => Fg k 1 * B_tilde nd 1
    | 2 => Fg k 2 * B_tilde nd 2
    | 3 => Fg k 1 * B_tilde nd 2 + Fg k 2 * B_tilde nd 1
    | 4 => Fg k 2 * B_tilde nd 0 + Fg k 0 * B_tilde nd 2
    | 5 => Fg k 0 * B_tilde nd 1 + Fg k 1 * B_tilde nd 0

/-- Material interface of a plane element: `S_Sv_and_C_2d` maps a 2×2
Green-Lagrange strain to the 2×2 second Piola-Kirchhoff stress, its
3-component Voigt form and the 3×3 tangent modulus; `thickness` and `rho`
are the scalar parameters read by the elements.  The material layer itself
is kept abstract: the claims quantify over its constitutive law. -/
structure Material2D (F : Type) where
  S_Sv_and_C_2d : Matrix (Fin 2) (Fin 2) F →
    Matrix (Fin 2) (Fin 2) F × (Fin 3 → F) × Matrix (Fin 3) (Fin 3) F
  thickness : F
  rho : F

/-- Material interface of a solid element (3D variant of `Material2D`). -/
structure Material3D (F : Type) where
  S_Sv_and_C : Matrix (Fin 3) (Fin 3) F →
    Matrix (Fin 3) (Fin 3) F × (Fin 6 → F) × Matrix (Fin 6) (Fin 6) F
  rho : F

/-- Result of one Gauss-point pass of a 2D element tensor computation:
stiffness and internal-force contribution (without the quadrature weight)
plus the deformation gradient and Green-Lagrange strain at the point. -/
structure GP2Out (n : ℕ) (F : Type) where
  Kc : Matrix (Fin (n * 2)) (Fin (n * 2)) F
  fc : Fin (n * 2) → F
  Fg : Matrix (Fin 2) (Fin 2) F
  Eg : Matrix (Fin 2) (Fin 2) F

/-- Result of one Gauss-point pass of a 3D element tensor computation. -/
structure GP3Out (n : ℕ) (F : Type) where
  Kc : Matrix (Fin (n * 3)) (Fin (n * 3)) F
  fc : Fin (n * 3) → F
  Fg : Matrix (Fin 3) (Fin 3) F
  Eg : Matrix (Fin 3) (Fin 3) F

/-- The per-Gauss-point "standard procedure for Total Lagrangian behavior"
shared verbatim by the `_compute_tensors` of Tri3/Tri6/Quad4/Quad8 in
`element.py`: `H = u.T @ B0_tilde`, `F = H + I`, `E = (H + H.T + H.T H)/2`,
material call, `B0 = compute_B_matrix`, geometric and material stiffness,
internal force.  `factor` is the element-specific measure
(`det/2*d` for triangles, `det*t` for quadrilaterals); the caller applies
the quadrature weight. -/
def tl_gauss_2d [DecidableEq F] {n : ℕ} (mat : Material2D F)
    (B0_tilde : Matrix (Fin n) (Fin 2) F) (u_mat : Matrix (Fin n) (Fin 2) F)
    (factor : F) : GP2Out n F :=
  let H := u_matᵀ * B0_tilde
  let Fg := H + 1
  let Eg := (1 / 2 : F) • (H + Hᵀ + Hᵀ * H)
  let SvC := mat.S_Sv_and_C_2d Eg
  let S := SvC.1
  let S_v := SvC.2.1
  let C_SE := SvC.2.2
  let B0 := compute_B_matrix2 B0_tilde Fg
  let K_geo := scatter_matrix (factor • (B0_tilde * S * B0_tildeᵀ)) 2
  let K_mat := factor • (B0ᵀ * C_SE * B0)
  { Kc := K_geo + K_mat
    fc := factor • Matrix.mulVec B0ᵀ S_v
    Fg := Fg
    Eg := Eg }

/-- 3D variant of `tl_gauss_2d`, shared by Tet4/Tet10/Hexa8/Hexa20. -/
def tl_gauss_3d [DecidableEq F] {n : ℕ} (mat : Material3D F)
    (B0_tilde : Matrix (Fin n) (Fin 3) F) (u_mat : Matrix (Fin n) (Fin 3) F)
    (factor : F) : GP3Out n F :=
  let H := u_matᵀ * B0_tilde
  let Fg := H + 1
  let Eg := (1 / 2 : F) • (H + Hᵀ + Hᵀ * H)
  let SvC := mat.S_Sv_and_C Eg
  let S := SvC.1
  let S_v := SvC.2.1
  let C_SE := SvC.2.2
  let B0 := compute_B_matrix3 B0_tilde Fg
  let K_geo := scatter_matrix (factor • (B0_tilde * S * B0_tildeᵀ)) 3
  let K_mat := factor • (B0ᵀ * C_SE * B0)
  { Kc := K_geo + K_mat
    fc := factor • Matrix.mulVec B0ᵀ S_v
    Fg := Fg
    Eg := Eg }

/-- Accumulated output of an element `_compute_tensors`: tangential stiffness
`K`, internal force `f`, and the deformation gradients and Green-Lagrange
strains at the Gauss points in loop order.  (The nodal extrapolation tables
`self.S`/`self.E` of the source are not part of this embedding; no claim
refers to them.) -/
structure TOut (sd dof : ℕ) (F : Type) where
  K : Matrix (Fin dof) (Fin dof) F
  f : Fin dof → F
  Fgs : List (Matrix (Fin sd) (Fin sd) F)
  Egs : List (Matrix (Fin sd) (Fin sd) F)

/-- Reshape of a Voigt displacement/coordinate vector to the `(n, dim)` nodal
matrix (`u.reshape((-1, dim))`). -/
def reshape2 {n : ℕ} (u : Fin (n * 2) → F) : Matrix (Fin n) (Fin 2) F :=
  Matrix.of fun i j => u ⟨2 * i.val + j.val, by omega⟩

/-- 3D variant of `reshape2`. -/
def reshape3 {n : ℕ} (u : Fin (n * 3) → F) : Matrix (Fin n) (Fin 3) F :=
  Matrix.of fun i j => u ⟨3 * i.val + j.val, by omega⟩

end Kernels

section PlaneElements

variable {F : Type} [CommRing F] [Inv F] [Div F] [DecidableEq F]

namespace Tri3

/-- Translation of `Tri3._compute_tensors` (closed-form constant-strain
triangle): `det = (X3-X2)(Y1-Y2) - (X1-X2)(Y3-Y2)`, constant `dN_dX`, one
pass of the Total-Lagrangian kernel with measure `det/2 * thickness`.
Layout of `X`, `u`: `(X1, Y1, X2, Y2, X3, Y3)`. -/
def compute_tensors (mat : Material2D F) (X u : Fin 6 → F) : TOut 2 6 F :=
  let det := (X 4 - X 2) * (X 1 - X 3) - (X 0 - X 2) * (X 5 - X 3)
  let dN_dX : Matrix (Fin 3) (Fin 2) F :=
    (1 / det) • Matrix.of ![![X 3 - X 5, X 4 - X 2], ![X 5 - X 1, X 0 - X 4], ![X 1 - X 3, X 2 - X 0]]
  let g := tl_gauss_2d mat dN_dX (reshape2 u) (det / 2 * mat.thickness)
  { K := g.Kc, f := g.fc, Fgs := [g.Fg], Egs := [g.Eg] }

end Tri3

namespace Tri6

/-- The three-point quadrature rule `gauss_points2` of `Tri6` (area
coordinates and weight). -/
def gauss_points : List (F × F × F × F) :=
  [(2/3, 1/6, 1/6, 1/3), (1/6, 2/3, 1/6, 1/3), (1/6, 1/6, 2/3, 1/3)]

/-- Shape-function derivatives `dN_dL` of `Tri6._compute_tensors`. -/
def dN_dL (L1 L2 L3 : F) : Matrix (Fin 6) (Fin 3) F :=
  Matrix.of ![![4*L1 - 1, 0, 0],
              ![0, 4*L2 - 1, 0],
              ![0, 0, 4*L3 - 1],
              ![4*L2, 4*L1, 0],
              ![0, 4*L3, 4*L2],
              ![4*L3, 0, 4*L1]]

/-- Jacobian data of one Gauss point of `Tri6._compute_tensors`: the
determinant and the matrix `B0_tilde = dN_dL @ dL_dX`.
Layout of `X`: `(X1, Y1, ..., X6, Y6)`. -/
def gp_data (X : Fin 12 → F) (gp : F × F × F × F) : F × Matrix (Fin 6) (Fin 2) F :=
  let L1 := gp.1
  let L2 := gp.2.1
  let L3 := gp.2.2.1
  let Jx1 := 4*L2*(X 6) + 4*L3*(X 10) + (X 0)*(4*L1 - 1)
  let Jx2 := 4*L1*(X 6) + 4*L3*(X 8) + (X 2)*(4*L2 - 1)
  let Jx3 := 4*L1*(X 10) + 4*L2*(X 8) + (X 4)*(4*L3 - 1)
  let Jy1 := 4*L2*(X 7) + 4*L3*(X 11) + (X 1)*(4*L1 - 1)
  let Jy2 := 4*L1*(X 7) + 4*L3*(X 9) + (X 3)*(4*L2 - 1)
  let Jy3 := 4*L1*(X 11) + 4*L2*(X 9) + (X 5)*(4*L3 - 1)
  let det := Jx1*Jy2 - Jx1*Jy3 - Jx2*Jy1 + Jx2*Jy3 + Jx3*Jy1 - Jx3*Jy2
  let dL_dX : Matrix (Fin 3) (Fin 2) F :=
    (1/det) • Matrix.of ![![Jy2 - Jy3, -Jx2 + Jx3], ![-Jy1 + Jy3, Jx1 - Jx3], ![Jy1 - Jy2, -Jx1 + Jx2]]
  (det, dN_dL L1 L2 L3 * dL_dX)

/-- One loop iteration of `Tri6._compute_tensors` (measure `det/2 * d`,
weighted accumulation). -/
def step (mat : Material2D F) (X u : Fin 12 → F) (acc : TOut 2 12 F)
    (gp : F × F × F × F) : TOut 2 12 F :=
  let dd := gp_data X gp
  let g := tl_gauss_2d mat dd.2 (reshape2 u) (dd.1 / 2 * mat.thickness)
  let w := gp.2.2.2
  { K := acc.K + w • g.Kc
    f := acc.f + w • g.fc
    Fgs := acc.Fgs ++ [g.Fg]
    Egs := acc.Egs ++ [g.Eg] }

/-- Translation of `Tri6._compute_tensors`: accumulation over the
three-point rule. -/
def compute_tensors (mat : Material2D F) (X u : Fin 12 → F) : TOut 2 12 F :=
  gauss_points.foldl (step mat X u) ⟨0, 0, [], []⟩

end Tri6

namespace Quad4

/-- The Gauss abscissa `g1 = 1/√3` of `Quad4.__init__`, in `ℚ[√3]`. -/
def g1 : QS 3 := 1 / QS.sqrtd

/-- The 2×2 Gauss rule of `Quad4` in source loop order. -/
def gauss_points : List (QS 3 × QS 3 × QS 3) :=
  [(-g1, -g1, 1), (g1, -g1, 1), (g1, g1, 1), (-g1, g1, 1)]

/-- Shape-function derivatives `dN_dxi` of `Quad4._compute_tensors`. -/
def dN_dxi (xi eta : QS 3) : Matrix (Fin 4) (Fin 2) (QS 3) :=
  Matrix.of ![![eta/4 - 1/4, xi/4 - 1/4],
              ![-eta/4 + 1/4, -xi/4 - 1/4],
              ![eta/4 + 1/4, xi/4 + 1/4],
              ![-eta/4 - 1/4, -xi/4 + 1/4]]

/-- Jacobian data of one Gauss point of `Quad4._compute_tensors`:
`dX_dxi = X_mat.T @ dN_dxi`, its determinant and explicit 2×2 inverse,
and `B0_tilde = dN_dxi @ dxi_dX`. -/
def gp_data (X : Fin 8 → QS 3) (gp : QS 3 × QS 3 × QS 3) :
    QS 3 × Matrix (Fin 4) (Fin 2) (QS 3) :=
  let dN := dN_dxi gp.1 gp.2.1
  let X_mat : Matrix (Fin 4) (Fin 2) (QS 3) := reshape2 X
  let dX_dxi := X_matᵀ * dN
  let det := dX_dxi 0 0 * dX_dxi 1 1 - dX_dxi 1 0 * dX_dxi 0 1
  let dxi_dX : Matrix (Fin 2) (Fin 2) (QS 3) :=
    (1/det) • Matrix.of ![![dX_dxi 1 1, -dX_dxi 0 1], ![-dX_dxi 1 0, dX_dxi 0 0]]
  (det, dN * dxi_dX)

/-- One loop iteration of `Quad4._compute_tensors` (measure `det * t`,
weighted accumulation). -/
def step (mat : Material2D (QS 3)) (X u : Fin 8 → QS 3) (acc : TOut 2 8 (QS 3))
    (gp : QS 3 × QS 3 × QS 3) : TOut 2 8 (QS 3) :=
  let dd := gp_data X gp
  let g := tl_gauss_2d mat dd.2 (reshape2 u) (dd.1 * mat.thickness)
  let w := gp.2.2
  { K := acc.K + w • g.Kc
    f := acc.f + w • g.fc
    Fgs := acc.Fgs ++ [g.Fg]
    Egs := acc.Egs ++ [g.Eg] }

/-- Translation of `Quad4._compute_tensors`: accumulation over the 2×2
Gauss rule. -/
def compute_tensors (mat : Material2D (QS 3)) (X u : Fin 8 → QS 3) : TOut 2 8 (QS 3) :=
  gauss_points.foldl (step mat X u) ⟨0, 0, [], []⟩

end Quad4

namespace Quad8

/-- The Gauss abscissa `g = √(3/5) = √15/5` of `Quad8.__init__`, in `ℚ[√15]`
(indeed `(√15/5)² = 15/25 = 3/5`). -/
def g : QS 15 := ⟨0, 1/5⟩

/-- Corner weight `5/9`. -/
def wc : QS 15 := 5/9

/-- Midside weight `8/9`. -/
def w0 : QS 15 := 8/9

/-- The 9-point Gauss rule of `Quad8` in source loop order. -/
def gauss_points : List (QS 15 × QS 15 × QS 15) :=
  [(-g, -g, wc*wc), (g, -g, wc*wc), (g, g, wc*wc),
   (-g, g, wc*wc), (0, -g, w0*wc), (g, 0, wc*w0),
   (0, g, w0*wc), (-g, 0, wc*w0), (0, 0, w0*w0)]

/-- Shape-function derivatives `dN_dxi` of `Quad8._compute_tensors`. -/
def dN_dxi (xi eta : QS 15) : Matrix (Fin 8) (Fin 2) (QS 15) :=
  Matrix.of ![![-(eta - 1)*(eta + 2*xi)/4, -(2*eta + xi)*(xi - 1)/4],
              ![(eta - 1)*(eta - 2*xi)/4, (2*eta - xi)*(xi + 1)/4],
              ![(eta + 1)*(eta + 2*xi)/4, (2*eta + xi)*(xi + 1)/4],
              ![-(eta + 1)*(eta - 2*xi)/4, -(2*eta - xi)*(xi - 1)/4],
              ![xi*(eta - 1), xi^2/2 - 1/2],
              ![-eta^2/2 + 1/2, -eta*(xi + 1)],
              ![-xi*(eta + 1), -xi^2/2 + 1/2],
              ![eta^2/2 - 1/2, eta*(xi - 1)]]

/-- Jacobian data of one Gauss point of `Quad8._compute_tensors` (same
structure as for `Quad4`). -/
def gp_data (X : Fin 16 → QS 15) (gp : QS 15 × QS 15 × QS 15) :
    QS 15 × Matrix (Fin 8) (Fin 2) (QS 15) :=
  let dN := dN_dxi gp.1 gp.2.1
  let X_mat : Matrix (Fin 8) (Fin 2) (QS 15) := reshape2 X
  let dX_dxi := X_matᵀ * dN
  let det := dX_dxi 0 0 * dX_dxi 1 1 - dX_dxi 1 0 * dX_dxi 0 1
  let dxi_dX : Matrix (Fin 2) (Fin 2) (QS 15) :=
    (1/det) • Matrix.of ![![dX_dxi 1 1, -dX_dxi 0 1], ![-dX_dxi 1 0, dX_dxi 0 0]]
  (det, dN * dxi_dX)

/-- One loop iteration of `Quad8._compute_tensors` (measure `det * t`,
weighted accumulation). -/
def step (mat : Material2D (QS 15)) (X u : Fin 16 → QS 15) (acc : TOut 2 16 (QS 15))
    (gp : QS 15 × QS 15 × QS 15) : TOut 2 16 (QS 15) :=
  let dd := gp_data X gp
  let g := tl_gauss_2d mat dd.2 (reshape2 u) (dd.1 * mat.thickness)
  let w := gp.2.2
  { K := acc.K + w • g.Kc
    f := acc.f + w • g.fc
    Fgs := acc.Fgs ++ [g.Fg]
    Egs := acc.Egs ++ [g.Eg] }

/-- Translation of `Quad8._compute_tensors`: accumulation over the 9-point
Gauss rule. -/
def compute_tensors (mat : Material2D (QS 15)) (X u : Fin 16 → QS 15) : TOut 2 16 (QS 15) :=
  gauss_points.foldl (step mat X u) ⟨0, 0, [], []⟩

end Quad8

end PlaneElements

section SolidElements

variable {F : Type} [CommRing F] [Inv F] [Div F] [DecidableEq F]

/-- Explicit 3×3 determinant (the value computed by `np.linalg.det` on a
3×3 array, exactly). -/
def det3 (A : Matrix (Fin 3) (Fin 3) F) : F :=
  A 0 0 * (A 1 1 * A 2 2 - A 1 2 * A 2 1)
    - A 0 1 * (A 1 0 * A 2 2 - A 1 2 * A 2 0)
    + A 0 2 * (A 1 0 * A 2 1 - A 1 1 * A 2 0)

/-- Explicit 3×3 inverse by adjugate over determinant (the value computed
by `np.linalg.inv` on a nonsingular 3×3 array, exactly; junk when the
determinant vanishes). -/
def inv3 (A : Matrix (Fin 3) (Fin 3) F) : Matrix (Fin 3) (Fin 3) F :=
  (1 / det3 A) •
    Matrix.of ![![A 1 1 * A 2 2 - A 1 2 * A 2 1, A 0 2 * A 2 1 - A 0 1 * A 2 2, A 0 1 * A 1 2 - A 0 2 * A 1 1],
                ![A 1 2 * A 2 0 - A 1 0 * A 2 2, A 0 0 * A 2 2 - A 0 2 * A 2 0, A 0 2 * A 1 0 - A 0 0 * A 1 2],
                ![A 1 0 * A 2 1 - A 1 1 * A 2 0, A 0 1 * A 2 0 - A 0 0 * A 2 1, A 0 0 * A 1 1 - A 0 1 * A 1 0]]

namespace Tet4

/-- The signed 6-volume `det` of `Tet4._compute_tensors`.
Layout of `X`: `(X1, Y1, Z1, ..., X4, Y4, Z4)`. -/
def detX (X : Fin 12 → F) : F :=
  let X1 := X 0
  let Y1 := X 1
  let Z1 := X 2
  let X2 := X 3
  let Y2 := X 4
  let Z2 := X 5
  let X3 := X 6
  let Y3 := X 7
  let Z3 := X 8
  let X4 := X 9
  let Y4 := X 10
  let Z4 := X 11;
  -X1*Y2*Z3 + X1*Y2*Z4 + X1*Y3*Z2 - X1*Y3*Z4 - X1*Y4*Z2 + X1*Y4*Z3
    + X2*Y1*Z3 - X2*Y1*Z4 - X2*Y3*Z1 + X2*Y3*Z4 + X2*Y4*Z1 - X2*Y4*Z3
    - X3*Y1*Z2 + X3*Y1*Z4 + X3*Y2*Z1 - X3*Y2*Z4 - X3*Y4*Z1 + X3*Y4*Z2
    + X4*Y1*Z2 - X4*Y1*Z3 - X4*Y2*Z1 + X4*Y2*Z3 + X4*Y3*Z1 - X4*Y3*Z2

/-- The constant matrix `B0_tilde` of `Tet4._compute_tensors` (cofactor
rows over `det`). -/
def B0_tilde (X : Fin 12 → F) : Matrix (Fin 4) (Fin 3) F :=
  let X1 := X 0
  let Y1 := X 1
  let Z1 := X 2
  let X2 := X 3
  let Y2 := X 4
  let Z2 := X 5
  let X3 := X 6
  let Y3 := X 7
  let Z3 := X 8
  let X4 := X 9
  let Y4 := X 10
  let Z4 := X 11;
  (1 / detX X) •
    Matrix.of ![![-Y2*Z3 + Y2*Z4 + Y3*Z2 - Y3*Z4 - Y4*Z2 + Y4*Z3,
                  X2*Z3 - X2*Z4 - X3*Z2 + X3*Z4 + X4*Z2 - X4*Z3,
                  -X2*Y3 + X2*Y4 + X3*Y2 - X3*Y4 - X4*Y2 + X4*Y3],
                ![Y1*Z3 - Y1*Z4 - Y3*Z1 + Y3*Z4 + Y4*Z1 - Y4*Z3,
                  -X1*Z3 + X1*Z4 + X3*Z1 - X3*Z4 - X4*Z1 + X4*Z3,
                  X1*Y3 - X1*Y4 - X3*Y1 + X3*Y4 + X4*Y1 - X4*Y3],
                ![-Y1*Z2 + Y1*Z4 + Y2*Z1 - Y2*Z4 - Y4*Z1 + Y4*Z2,
                  X1*Z2 - X1*Z4 - X2*Z1 + X2*Z4 + X4*Z1 - X4*Z2,
                  -X1*Y2 + X1*Y4 + X2*Y1 - X2*Y4 - X4*Y1 + X4*Y2],
                ![Y1*Z2 - Y1*Z3 - Y2*Z1 + Y2*Z3 + Y3*Z1 - Y3*Z2,
                  -X1*Z2 + X1*Z3 + X2*Z1 - X2*Z3 - X3*Z1 + X3*Z2,
                  X1*Y2 - X1*Y3 - X2*Y1 + X2*Y3 + X3*Y1 - X3*Y2]]

/-- Translation of `Tet4._compute_tensors` (closed-form constant-strain
tetrahedron): one pass of the Total-Lagrangian kernel with measure `det/6`. -/
def compute_tensors (mat : Material3D F) (X u : Fin 12 → F) : TOut 3 12 F :=
  let g := tl_gauss_3d mat (B0_tilde X) (reshape3 u) (detX X / 6)
  { K := g.Kc, f := g.fc, Fgs := [g.Fg], Egs := [g.Eg] }

end Tet4

namespace Tet10

/-- Barycentric Gauss abscissa `a = (5 - √5)/20` of `Tet10.__init__`, in `ℚ[√5]`. -/
def ga : QS 5 := ⟨1/4, -(1/20)⟩

/-- Barycentric Gauss abscissa `b = (5 + 3√5)/20` of `Tet10.__init__`. -/
def gb : QS 5 := ⟨1/4, 3/20⟩

/-- The four-point Gauss rule of `Tet10` in source loop order. -/
def gauss_points : List (QS 5 × QS 5 × QS 5 × QS 5 × QS 5) :=
  [(gb, ga, ga, ga, 1/4), (ga, gb, ga, ga, 1/4), (ga, ga, gb, ga, 1/4), (ga, ga, ga, gb, 1/4)]

/-- Jacobian data of one Gauss point of `Tet10._compute_tensors`: the
determinant and the matrix `B0_tilde` (cofactor-weighted quadratic
derivatives over `det`).  Layout of `X`: `(X1, Y1, Z1, ..., X10, Y10, Z10)`. -/
def gp_data (X : Fin 30 → QS 5) (gp : QS 5 × QS 5 × QS 5 × QS 5 × QS 5) :
    QS 5 × Matrix (Fin 10) (Fin 3) (QS 5) :=
  let L1 := gp.1
  let L2 := gp.2.1
  let L3 := gp.2.2.1
  let L4 := gp.2.2.2.1
  let X1 := X 0
  let Y1 := X 1
  let Z1 := X 2
  let X2 := X 3
  let Y2 := X 4
  let Z2 := X 5
  let X3 := X 6
  let Y3 := X 7
  let Z3 := X 8
  let X4 := X 9
  let Y4 := X 10
  let Z4 := X 11;
  let X5 := X 12
  let Y5 := X 13
  let Z5 := X 14
  let X6 := X 15
  let Y6 := X 16
  let Z6 := X 17
  let X7 := X 18
  let Y7 := X 19
  let Z7 := X 20
  let X8 := X 21
  let Y8 := X 22
  let Z8 := X 23
  let X9 := X 24
  let Y9 := X 25
  let Z9 := X 26
  let X10 := X 27
  let Y10 := X 28
  let Z10 := X 29
  let Jx1 := 4*L2*X5 + 4*L3*X7 + 4*L4*X8 + X1*(4*L1 - 1)
  let Jx2 := 4*L1*X5 + 4*L3*X6 + 4*L4*X9 + X2*(4*L2 - 1)
  let Jx3 := 4*L1*X7 + 4*L2*X6 + 4*L4*X10 + X3*(4*L3 - 1)
  let Jx4 := 4*L1*X8 + 4*L2*X9 + 4*L3*X10 + X4*(4*L4 - 1)
  let Jy1 := 4*L2*Y5 + 4*L3*Y7 + 4*L4*Y8 + Y1*(4*L1 - 1)
  let Jy2 := 4*L1*Y5 + 4*L3*Y6 + 4*L4*Y9 + Y2*(4*L2 - 1)
  let Jy3 := 4*L1*Y7 + 4*L2*Y6 + 4*L4*Y10 + Y3*(4*L3 - 1)
  let Jy4 := 4*L1*Y8 + 4*L2*Y9 + 4*L3*Y10 + Y4*(4*L4 - 1)
  let Jz1 := 4*L2*Z5 + 4*L3*Z7 + 4*L4*Z8 + Z1*(4*L1 - 1)
  let Jz2 := 4*L1*Z5 + 4*L3*Z6 + 4*L4*Z9 + Z2*(4*L2 - 1)
  let Jz3 := 4*L1*Z7 + 4*L2*Z6 + 4*L4*Z10 + Z3*(4*L3 - 1)
  let Jz4 := 4*L1*Z8 + 4*L2*Z9 + 4*L3*Z10 + Z4*(4*L4 - 1)
  let det := -Jx1*Jy2*Jz3 + Jx1*Jy2*Jz4 + Jx1*Jy3*Jz2 - Jx1*Jy3*Jz4
    - Jx1*Jy4*Jz2 + Jx1*Jy4*Jz3 + Jx2*Jy1*Jz3 - Jx2*Jy1*Jz4
    - Jx2*Jy3*Jz1 + Jx2*Jy3*Jz4 + Jx2*Jy4*Jz1 - Jx2*Jy4*Jz3
    - Jx3*Jy1*Jz2 + Jx3*Jy1*Jz4 + Jx3*Jy2*Jz1 - Jx3*Jy2*Jz4
    - Jx3*Jy4*Jz1 + Jx3*Jy4*Jz2 + Jx4*Jy1*Jz2 - Jx4*Jy1*Jz3
    - Jx4*Jy2*Jz1 + Jx4*Jy2*Jz3 + Jx4*Jy3*Jz1 - Jx4*Jy3*Jz2
  let a1 := -Jy2*Jz3 + Jy2*Jz4 + Jy3*Jz2 - Jy3*Jz4 - Jy4*Jz2 + Jy4*Jz3
  let a2 := Jy1*Jz3 - Jy1*Jz4 - Jy3*Jz1 + Jy3*Jz4 + Jy4*Jz1 - Jy4*Jz3
  let a3 := -Jy1*Jz2 + Jy1*Jz4 + Jy2*Jz1 - Jy2*Jz4 - Jy4*Jz1 + Jy4*Jz2
  let a4 := Jy1*Jz2 - Jy1*Jz3 - Jy2*Jz1 + Jy2*Jz3 + Jy3*Jz1 - Jy3*Jz2
  let b1 := Jx2*Jz3 - Jx2*Jz4 - Jx3*Jz2 + Jx3*Jz4 + Jx4*Jz2 - Jx4*Jz3
  let b2 := -Jx1*Jz3 + Jx1*Jz4 + Jx3*Jz1 - Jx3*Jz4 - Jx4*Jz1 + Jx4*Jz3
  let b3 := Jx1*Jz2 - Jx1*Jz4 - Jx2*Jz1 + Jx2*Jz4 + Jx4*Jz1 - Jx4*Jz2
  let b4 := -Jx1*Jz2 + Jx1*Jz3 + Jx2*Jz1 - Jx2*Jz3 - Jx3*Jz1 + Jx3*Jz2
  let c1 := -Jx2*Jy3 + Jx2*Jy4 + Jx3*Jy2 - Jx3*Jy4 - Jx4*Jy2 + Jx4*Jy3
  let c2 := Jx1*Jy3 - Jx1*Jy4 - Jx3*Jy1 + Jx3*Jy4 + Jx4*Jy1 - Jx4*Jy3
  let c3 := -Jx1*Jy2 + Jx1*Jy4 + Jx2*Jy1 - Jx2*Jy4 - Jx4*Jy1 + Jx4*Jy2
  let c4 := Jx1*Jy2 - Jx1*Jy3 - Jx2*Jy1 + Jx2*Jy3 + Jx3*Jy1 - Jx3*Jy2
  let B0_tilde : Matrix (Fin 10) (Fin 3) (QS 5) :=
    (1/det) •
      Matrix.of ![![a1*(4*L1 - 1), b1*(4*L1 - 1), c1*(4*L1 - 1)],
                  ![a2*(4*L2 - 1), b2*(4*L2 - 1), c2*(4*L2 - 1)],
                  ![a3*(4*L3 - 1), b3*(4*L3 - 1), c3*(4*L3 - 1)],
                  ![a4*(4*L4 - 1), b4*(4*L4 - 1), c4*(4*L4 - 1)],
                  ![4*L1*a2 + 4*L2*a1, 4*L1*b2 + 4*L2*b1, 4*L1*c2 + 4*L2*c1],
                  ![4*L2*a3 + 4*L3*a2, 4*L2*b3 + 4*L3*b2, 4*L2*c3 + 4*L3*c2],
                  ![4*L1*a3 + 4*L3*a1, 4*L1*b3 + 4*L3*b1, 4*L1*c3 + 4*L3*c1],
                  ![4*L1*a4 + 4*L4*a1, 4*L1*b4 + 4*L4*b1, 4*L1*c4 + 4*L4*c1],
                  ![4*L2*a4 + 4*L4*a2, 4*L2*b4 + 4*L4*b2, 4*L2*c4 + 4*L4*c2],
                  ![4*L3*a4 + 4*L4*a3, 4*L3*b4 + 4*L4*b3, 4*L3*c4 + 4*L4*c3]]
  (det, B0_tilde)

/-- One loop iteration of `Tet10._compute_tensors` (measure `det/6`,
weighted accumulation). -/
def step (mat : Material3D (QS 5)) (X u : Fin 30 → QS 5) (acc : TOut 3 30 (QS 5))
    (gp : QS 5 × QS 5 × QS 5 × QS 5 × QS 5) : TOut 3 30 (QS 5) :=
  let dd := gp_data X gp
  let g := tl_gauss_3d mat dd.2 (reshape3 u) (dd.1 / 6)
  let w := gp.2.2.2.2
  { K := acc.K + w • g.Kc
    f := acc.f + w • g.fc
    Fgs := acc.Fgs ++ [g.Fg]
    Egs := acc.Egs ++ [g.Eg] }

/-- Translation of `Tet10._compute_tensors`: accumulation over the
four-point rule. -/
def compute_tensors (mat : Material3D (QS 5)) (X u : Fin 30 → QS 5) : TOut 3 30 (QS 5) :=
  gauss_points.foldl (step mat X u) ⟨0, 0, [], []⟩

end Tet10

namespace Hexa8

/-- The Gauss abscissa `a = √(1/3) = √3/3` of `Hexa8.__init__`, in `ℚ[√3]`
(indeed `(√3/3)² = 3/9 = 1/3`). -/
def ga : QS 3 := ⟨0, 1/3⟩

/-- The 2×2×2 Gauss rule of `Hexa8` in source loop order. -/
def gauss_points : List (QS 3 × QS 3 × QS 3 × QS 3) :=
  [(-ga, ga, ga, 1), (ga, ga, ga, 1), (-ga, -ga, ga, 1), (ga, -ga, ga, 1),
   (-ga, ga, -ga, 1), (ga, ga, -ga, 1), (-ga, -ga, -ga, 1), (ga, -ga, -ga, 1)]

/-- Shape-function derivatives `dN_dxi` of `Hexa8._compute_tensors`
(including the leading `1/8`). -/
def dN_dxi (xi eta zeta : QS 3) : Matrix (Fin 8) (Fin 3) (QS 3) :=
  (1/8 : QS 3) •
    Matrix.of ![![-(-eta+1)*(-zeta+1), -(-xi+1)*(-zeta+1), -(-eta+1)*(-xi+1)],
                ![(-eta+1)*(-zeta+1), -(xi+1)*(-zeta+1), -(-eta+1)*(xi+1)],
                ![(eta+1)*(-zeta+1), (xi+1)*(-zeta+1), -(eta+1)*(xi+1)],
                ![-(eta+1)*(-zeta+1), (-xi+1)*(-zeta+1), -(eta+1)*(-xi+1)],
                ![-(-eta+1)*(zeta+1), -(-xi+1)*(zeta+1), (-eta+1)*(-xi+1)],
                ![(-eta+1)*(zeta+1), -(xi+1)*(zeta+1), (-eta+1)*(xi+1)],
                ![(eta+1)*(zeta+1), (xi+1)*(zeta+1), (eta+1)*(xi+1)],
                ![-(eta+1)*(zeta+1), (-xi+1)*(zeta+1), (eta+1)*(-xi+1)]]

/-- Jacobian data of one Gauss point of `Hexa8._compute_tensors`:
`dX_dxi = X_mat.T @ dN_dxi`, its `np.linalg` determinant and inverse, and
`B0_tilde = dN_dxi @ dxi_dX`. -/
def gp_data (X : Fin 24 → QS 3) (gp : QS 3 × QS 3 × QS 3 × QS 3) :
    QS 3 × Matrix (Fin 8) (Fin 3) (QS 3) :=
  let dN := dN_dxi gp.1 gp.2.1 gp.2.2.1
  let X_mat : Matrix (Fin 8) (Fin 3) (QS 3) := reshape3 X
  let dX_dxi := X_matᵀ * dN
  (det3 dX_dxi, dN * inv3 dX_dxi)

/-- One loop iteration of `Hexa8._compute_tensors` (measure `det`,
weighted accumulation). -/
def step (mat : Material3D (QS 3)) (X u : Fin 24 → QS 3) (acc : TOut 3 24 (QS 3))
    (gp : QS 3 × QS 3 × QS 3 × QS 3) : TOut 3 24 (QS 3) :=
  let dd := gp_data X gp
  let g := tl_gauss_3d mat dd.2 (reshape3 u) dd.1
  let w := gp.2.2.2
  { K := acc.K + w • g.Kc
    f := acc.f + w • g.fc
    Fgs := acc.Fgs ++ [g.Fg]
    Egs := acc.Egs ++ [g.Eg] }

/-- Translation of `Hexa8._compute_tensors`: accumulation over the 2×2×2
Gauss rule. -/
def compute_tensors (mat : Material3D (QS 3)) (X u : Fin 24 → QS 3) : TOut 3 24 (QS 3) :=
  gauss_points.foldl (step mat X u) ⟨0, 0, [], []⟩

end Hexa8

namespace Hexa20

/-- The Gauss abscissa `a = √(3/5) = √15/5` of `Hexa20.__init__`, in `ℚ[√15]`. -/
def ga : QS 15 := ⟨0, 1/5⟩

/-- Gauss weight `5/9`. -/
def wa : QS 15 := 5/9

/-- Gauss weight `8/9`. -/
def w0 : QS 15 := 8/9

/-- The 27-point Gauss rule of `Hexa20` in source loop order. -/
def gauss_points : List (QS 15 × QS 15 × QS 15 × QS 15) :=
  [(-ga, -ga, -ga, wa*wa*wa), (0, -ga, -ga, w0*wa*wa), (ga, -ga, -ga, wa*wa*wa),
   (-ga, 0, -ga, wa*w0*wa), (0, 0, -ga, w0*w0*wa), (ga, 0, -ga, wa*w0*wa),
   (-ga, ga, -ga, wa*wa*wa), (0, ga, -ga, w0*wa*wa), (ga, ga, -ga, wa*wa*wa),
   (-ga, -ga, 0, wa*wa*w0), (0, -ga, 0, w0*wa*w0), (ga, -ga, 0, wa*wa*w0),
   (-ga, 0, 0, wa*w0*w0), (0, 0, 0, w0*w0*w0), (ga, 0, 0, wa*w0*w0),
   (-ga, ga, 0, wa*wa*w0), (0, ga, 0, w0*wa*w0), (ga, ga, 0, wa*wa*w0),
   (-ga, -ga, ga, wa*wa*wa), (0, -ga, ga, w0*wa*wa), (ga, -ga, ga, wa*wa*wa),
   (-ga, 0, ga, wa*w0*wa), (0, 0, ga, w0*w0*wa), (ga, 0, ga, wa*w0*wa),
   (-ga, ga, ga, wa*wa*wa), (0, ga, ga, w0*wa*wa), (ga, ga, ga, wa*wa*wa)]

/-- Shape-function derivatives `dN_dxi` of `Hexa20._compute_tensors`
(including the leading `1/8`). -/
def dN_dxi (xi eta zeta : QS 15) : Matrix (Fin 20) (Fin 3) (QS 15) :=
  (1/8 : QS 15) •
    Matrix.of ![![(eta-1)*(zeta-1)*(eta+2*xi+zeta+1),
                  (xi-1)*(zeta-1)*(2*eta+xi+zeta+1),
                  (eta-1)*(xi-1)*(eta+xi+2*zeta+1)],
                ![(eta-1)*(zeta-1)*(-eta+2*xi-zeta-1),
                  (xi+1)*(zeta-1)*(-2*eta+xi-zeta-1),
                  (eta-1)*(xi+1)*(-eta+xi-2*zeta-1)],
                ![(eta+1)*(zeta-1)*(-eta-2*xi+zeta+1),
                  (xi+1)*(zeta-1)*(-2*eta-xi+zeta+1),
                  (eta+1)*(xi+1)*(-eta-xi+2*zeta+1)],
                ![(eta+1)*(zeta-1)*(eta-2*xi-zeta-1),
                  (xi-1)*(zeta-1)*(2*eta-xi-zeta-1),
                  (eta+1)*(xi-1)*(eta-xi-2*zeta-1)],
                ![(eta-1)*(zeta+1)*(-eta-2*xi+zeta-1),
                  (xi-1)*(zeta+1)*(-2*eta-xi+zeta-1),
                  (eta-1)*(xi-1)*(-eta-xi+2*zeta-1)],
                ![(eta-1)*(zeta+1)*(eta-2*xi-zeta+1),
                  (xi+1)*(zeta+1)*(2*eta-xi-zeta+1),
                  (eta-1)*(xi+1)*(eta-xi-2*zeta+1)],
                ![(eta+1)*(zeta+1)*(eta+2*xi+zeta-1),
                  (xi+1)*(zeta+1)*(2*eta+xi+zeta-1),
                  (eta+1)*(xi+1)*(eta+xi+2*zeta-1)],
                ![(eta+1)*(zeta+1)*(-eta+2*xi-zeta+1),
                  (xi-1)*(zeta+1)*(-2*eta+xi-zeta+1),
                  (eta+1)*(xi-1)*(-eta+xi-2*zeta+1)],
                ![-4*xi*(eta-1)*(zeta-1), -2*(xi^2-1)*(zeta-1), -2*(eta-1)*(xi^2-1)],
                ![2*(eta^2-1)*(zeta-1), 4*eta*(xi+1)*(zeta-1), 2*(eta^2-1)*(xi+1)],
                ![4*xi*(eta+1)*(zeta-1), 2*(xi^2-1)*(zeta-1), 2*(eta+1)*(xi^2-1)],
                ![-2*(eta^2-1)*(zeta-1), -4*eta*(xi-1)*(zeta-1), -2*(eta^2-1)*(xi-1)],
                ![4*xi*(eta-1)*(zeta+1), 2*(xi^2-1)*(zeta+1), 2*(eta-1)*(xi^2-1)],
                ![-2*(eta^2-1)*(zeta+1), -4*eta*(xi+1)*(zeta+1), -2*(eta^2-1)*(xi+1)],
                ![-4*xi*(eta+1)*(zeta+1), -2*(xi^2-1)*(zeta+1), -2*(eta+1)*(xi^2-1)],
                ![2*(eta^2-1)*(zeta+1), 4*eta*(xi-1)*(zeta+1), 2*(eta^2-1)*(xi-1)],
                ![-2*(eta-1)*(zeta^2-1), -2*(xi-1)*(zeta^2-1), -4*zeta*(eta-1)*(xi-1)],
                ![2*(eta-1)*(zeta^2-1), 2*(xi+1)*(zeta^2-1), 4*zeta*(eta-1)*(xi+1)],
                ![-2*(eta+1)*(zeta^2-1), -2*(xi+1)*(zeta^2-1), -4*zeta*(eta+1)*(xi+1)],
                ![2*(eta+1)*(zeta^2-1), 2*(xi-1)*(zeta^2-1), 4*zeta*(eta+1)*(xi-1)]]

/-- Jacobian data of one Gauss point of `Hexa20._compute_tensors` (same
structure as for `Hexa8`). -/
def gp_data (X : Fin 60 → QS 15) (gp : QS 15 × QS 15 × QS 15 × QS 15) :
    QS 15 × Matrix (Fin 20) (Fin 3) (QS 15) :=
  let dN := dN_dxi gp.1 gp.2.1 gp.2.2.1
  let X_mat : Matrix (Fin 20) (Fin 3) (QS 15) := reshape3 X
  let dX_dxi := X_matᵀ * dN
  (det3 dX_dxi, dN * inv3 dX_dxi)

/-- One loop iteration of `Hexa20._compute_tensors` (measure `det`,
weighted accumulation). -/
def step (mat : Material3D (QS 15)) (X u : Fin 60 → QS 15) (acc : TOut 3 60 (QS 15))
    (gp : QS 15 × QS 15 × QS 15 × QS 15) : TOut 3 60 (QS 15) :=
  let dd := gp_data X gp
  let g := tl_gauss_3d mat dd.2 (reshape3 u) dd.1
  let w := gp.2.2.2
  { K := acc.K + w • g.Kc
    f := acc.f + w • g.fc
    Fgs := acc.Fgs ++ [g.Fg]
    Egs := acc.Egs ++ [g.Eg] }

/-- Translation of `Hexa20._compute_tensors`: accumulation over the
27-point Gauss rule. -/
def compute_tensors (mat : Material3D (QS 15)) (X u : Fin 60 → QS 15) : TOut 3 60 (QS 15) :=
  gauss_points.foldl (step mat X u) ⟨0, 0, [], []⟩

end Hexa20

end SolidElements

section ElementHelpers

variable {F : Type} [CommRing F] [Inv F] [Div F] [DecidableEq F]

/-- Standalone copy of the Jacobian determinant of `Tri3._compute_tensors`,
used to state non-degeneracy hypotheses. -/
def Tri3.detX (X : Fin 6 → F) : F :=
  (X 4 - X 2) * (X 1 - X 3) - (X 0 - X 2) * (X 5 - X 3)

/-- Jacobian determinants of `Tri6._compute_tensors` at its Gauss points. -/
def Tri6.dets (X : Fin 12 → F) : List F :=
  Tri6.gauss_points.map fun gp => (Tri6.gp_data X gp).1

/-- Jacobian determinants of `Quad4._compute_tensors` at its Gauss points. -/
def Quad4.dets (X : Fin 8 → QS 3) : List (QS 3) :=
  Quad4.gauss_points.map fun gp => (Quad4.gp_data X gp).1

/-- Jacobian determinants of `Quad8._compute_tensors` at its Gauss points. -/
def Quad8.dets (X : Fin 16 → QS 15) : List (QS 15) :=
  Quad8.gauss_points.map fun gp => (Quad8.gp_data X gp).1

/-- Jacobian determinants of `Tet10._compute_tensors` at its Gauss points. -/
def Tet10.dets (X : Fin 30 → QS 5) : List (QS 5) :=
  Tet10.gauss_points.map fun gp => (Tet10.gp_data X gp).1

/-- Jacobian determinants of `Hexa8._compute_tensors` at its Gauss points. -/
def Hexa8.dets (X : Fin 24 → QS 3) : List (QS 3) :=
  Hexa8.gauss_points.map fun gp => (Hexa8.gp_data X gp).1

/-- Jacobian determinants of `Hexa20._compute_tensors` at its Gauss points. -/
def Hexa20.dets (X : Fin 60 → QS 15) : List (QS 15) :=
  Hexa20.gauss_points.map fun gp => (Hexa20.gp_data X gp).1

/-- Rigid-body translation of a flattened 2D displacement vector: the
translation `c` is added to every node (`u[2i] += c 0`, `u[2i+1] += c 1`). -/
def translate2 {n : ℕ} (u : Fin (n * 2) → F) (c : Fin 2 → F) : Fin (n * 2) → F :=
  fun i => u i + c ⟨i.val % 2, Nat.mod_lt _ (by omega)⟩

/-- 3D variant of `translate2`. -/
def translate3 {n : ℕ} (u : Fin (n * 3) → F) (c : Fin 3 → F) : Fin (n * 3) → F :=
  fun i => u i + c ⟨i.val % 3, Nat.mod_lt _ (by omega)⟩

/-- The nodal matrix of a rigid-body translation: every row is `c`. -/
def constRows {F : Type} {n m : ℕ} (c : Fin m → F) : Matrix (Fin n) (Fin m) F :=
  Matrix.of fun _ j => c j

end ElementHelpers

section ReferenceConfigurations

/-- Unit-triangle reference coordinates for Tri3. -/
def Xref_tri3 : Fin 6 → ℚ := ![0, 0, 1, 0, 0, 1]

/-- Unit-triangle reference coordinates with midside nodes for Tri6. -/
def Xref_tri6 : Fin 12 → ℚ := ![0, 0, 1, 0, 0, 1, 1/2, 0, 1/2, 1/2, 0, 1/2]

/-- Reference-square coordinates for Quad4. -/
def Xref_quad4 : Fin 8 → QS 3 := ![-1, -1, 1, -1, 1, 1, -1, 1]

/-- Reference-square coordinates with midside nodes for Quad8. -/
def Xref_quad8 : Fin 16 → QS 15 := ![-1, -1, 1, -1, 1, 1, -1, 1, 0, -1, 1, 0, 0, 1, -1, 0]

/-- Unit-tetrahedron reference coordinates for Tet4. -/
def Xref_tet4 : Fin 12 → ℚ := ![0, 0, 0, 1, 0, 0, 0, 1, 0, 0, 0, 1]

/-- Unit-tetrahedron reference coordinates with midside nodes for Tet10. -/
def Xref_tet10 : Fin 30 → QS 5 :=
  ![0, 0, 0, 1, 0, 0, 0, 1, 0, 0, 0, 1, 1/2, 0, 0, 1/2, 1/2, 0,
    0, 1/2, 0, 0, 0, 1/2, 1/2, 0, 1/2, 0, 1/2, 1/2]

/-- Reference-cube coordinates for Hexa8. -/
def Xref_hexa8 : Fin 24 → QS 3 :=
  ![-1, -1, -1, 1, -1, -1, 1, 1, -1, -1, 1, -1,
    -1, -1, 1, 1, -1, 1, 1, 1, 1, -1, 1, 1]

/-- Reference-cube coordinates with midside nodes for Hexa20 (edge-node
order matching the serendipity shape functions of the source). -/
def Xref_hexa20 : Fin 60 → QS 15 :=
  ![-1, -1, -1, 1, -1, -1, 1, 1, -1, -1, 1, -1,
    -1, -1, 1, 1, -1, 1, 1, 1, 1, -1, 1, 1,
    0, -1, -1, 1, 0, -1, 0, 1, -1, -1, 0, -1,
    0, -1, 1, 1, 0, 1, 0, 1, 1, -1, 0, 1,
    -1, -1, 0, 1, -1, 0, 1, 1, 0, -1, 1, 0]

/-- The zero 2D material over `F`: maps every strain to zero stress, zero
Voigt stress and zero modulus; unit thickness and density. -/
def zmat2 (F : Type) [CommRing F] : Material2D F := ⟨fun _ => (0, 0, 0), 1, 1⟩

/-- The zero 3D material over `F`. -/
def zmat3 (F : Type) [CommRing F] : Material3D F := ⟨fun _ => (0, 0, 0), 1⟩

end ReferenceConfigurations

section Bar

/-- Exact rational square root: the true square root on perfect squares of
non-negative rationals, `0` otherwise.  It embeds the `np.linalg.norm` call
of the bar element; every bar theorem is independent of the junk branch. -/
def ratSqrt (q : ℚ) : ℚ :=
  if 0 ≤ q ∧ Nat.sqrt q.num.natAbs ^ 2 = q.num.natAbs ∧ Nat.sqrt q.den ^ 2 = q.den then
    (Nat.sqrt q.num.natAbs : ℚ) / (Nat.sqrt q.den : ℚ)
  else 0

/-- The material parameters read by `Bar2Dlumped.foo` (`material.E`,
`material.crossec`, `material.rho`). -/
structure BarMaterial where
  E : ℚ
  crossec : ℚ
  rho : ℚ
deriving DecidableEq, Repr

/-- State of a `Bar2Dlumped` element: the buffers `K`, `M`, `f` initialised
to zero in `__init__`, plus the parameters `e_modul`, `crosssec`, `rho`,
which do not exist until `foo` assigns them (modelled by `Option`, `none`
meaning "attribute not set", so that reading it raises `AttributeError`). -/
structure Bar2Dlumped where
  material : BarMaterial
  K : Matrix (Fin 4) (Fin 4) ℚ
  M : Matrix (Fin 4) (Fin 4) ℚ
  f : Fin 4 → ℚ
  e_modul : Option ℚ
  crosssec : Option ℚ
  rho : Option ℚ

namespace Bar2Dlumped

/-- Translation of `Bar2Dlumped.__init__`: zero buffers, parameters unset. -/
def init (material : BarMaterial) : Bar2Dlumped :=
  ⟨material, 0, 0, 0, none, none, none⟩

/-- Translation of `Bar2Dlumped.foo`: copies `E`, `crossec`, `rho` from the
material into the element's parameter attributes. -/
def foo (b : Bar2Dlumped) : Bar2Dlumped :=
  { b with
    e_modul := some b.material.E
    crosssec := some b.material.crossec
    rho := some b.material.rho }

/-- Translation of `Bar2Dlumped._k_and_m_int`: reads `e_modul`, `crosssec`
and `rho` (raising `AttributeError` when unset), builds the rotated axial
stiffness and the lumped mass matrix, and symmetrises both by
`0.5·(A + Aᵀ)`.  Returns the updated element together with `(K, M)`. -/
def k_and_m_int (b : Bar2Dlumped) (X : Fin 4 → ℚ) (_u : Fin 4 → ℚ) (_t : ℚ) :
    Except String (Bar2Dlumped × Matrix (Fin 4) (Fin 4) ℚ × Matrix (Fin 4) (Fin 4) ℚ) :=
  match b.e_modul with
  | none => .error "AttributeError: e_modul"
  | some e_modul =>
    match b.crosssec with
    | none => .error "AttributeError: crosssec"
    | some crosssec =>
      match b.rho with
      | none => .error "AttributeError: rho"
      | some rho =>
        let X_mat : Matrix (Fin 2) (Fin 2) ℚ := reshape2 X
        let l := ratSqrt ((X_mat 1 0 - X_mat 0 0) ^ 2 + (X_mat 1 1 - X_mat 0 1) ^ 2)
        let k_el_loc : Matrix (Fin 2) (Fin 2) ℚ :=
          (e_modul * crosssec / l) • Matrix.of ![![1, -1], ![-1, 1]]
        let temp0 := (X_mat 1 0 - X_mat 0 0) / l
        let temp1 := (X_mat 1 1 - X_mat 0 1) / l
        let A : Matrix (Fin 2) (Fin 4) ℚ :=
          Matrix.of ![![temp0, temp1, 0, 0], ![0, 0, temp0, temp1]]
        let k_el := Aᵀ * k_el_loc * A
        let m_el : Matrix (Fin 4) (Fin 4) ℚ :=
          (rho * crosssec * l / 6) •
            Matrix.of ![![3, 0, 0, 0], ![0, 3, 0, 0], ![0, 0, 3, 0], ![0, 0, 0, 3]]
        let Knew := (1 / 2 : ℚ) • (k_el + k_elᵀ)
        let Mnew := (1 / 2 : ℚ) • (m_el + m_elᵀ)
        .ok ({ b with K := Knew, M := Mnew }, Knew, Mnew)

/-- Translation of `Bar2Dlumped._compute_tensors` (delegates to
`_k_and_m_int`, keeping the updated buffers). -/
def compute_tensors (b : Bar2Dlumped) (X u : Fin 4 → ℚ) (t : ℚ) :
    Except String Bar2Dlumped :=
  (k_and_m_int b X u t).map (·.1)

/-- Translation of the inherited `Element.k_and_f_int` for the bar:
`_compute_tensors` then `(self.K, self.f)`. -/
def k_and_f_int (b : Bar2Dlumped) (X u : Fin 4 → ℚ) (t : ℚ) :
    Except String (Matrix (Fin 4) (Fin 4) ℚ × (Fin 4 → ℚ)) :=
  (compute_tensors b X u t).map fun b2 => (b2.K, b2.f)

/-- Translation of the inherited `Element.k_int` for the bar. -/
def k_int (b : Bar2Dlumped) (X u : Fin 4 → ℚ) (t : ℚ) :
    Except String (Matrix (Fin 4) (Fin 4) ℚ) :=
  (compute_tensors b X u t).map fun b2 => b2.K

/-- Translation of the inherited `Element.f_int` for the bar. -/
def f_int (b : Bar2Dlumped) (X u : Fin 4 → ℚ) (t : ℚ) :
    Except String (Fin 4 → ℚ) :=
  (compute_tensors b X u t).map fun b2 => b2.f

/-- Translation of `Element.m_int` specialised by `Bar2Dlumped._m_int`
(delegates to `_k_and_m_int` and returns the mass matrix). -/
def m_int (b : Bar2Dlumped) (X u : Fin 4 → ℚ) (t : ℚ) :
    Except String (Matrix (Fin 4) (Fin 4) ℚ) :=
  (k_and_m_int b X u t).map fun r => r.2.2

end Bar2Dlumped

end Bar

section NNLS

/-- Dot product of two rational vectors (`numpy` `@` on 1-d arrays). -/
def dotL (x y : List ℚ) : ℚ := (List.zipWith (· * ·) x y).sum

/-- Squared Euclidean norm; `np.linalg.norm(x)` is its real square root, so
every comparison `‖x‖ > c·‖y‖` with `c ≥ 0` is embedded as
`normSq x > c²·normSq y`. -/
def normSq (x : List ℚ) : ℚ := dotL x x

/-- Componentwise difference of vectors. -/
def vsub (x y : List ℚ) : List ℚ := List.zipWith (fun a b => a - b) x y

/-- First index of the maximal entry (`np.argmax`); `none` on the empty list
(where `numpy` raises). -/
def argmaxAux : List ℚ → ℕ → ℕ → ℚ → ℕ
  | [], _, bi, _ => bi
  | x :: xs, i, bi, bv => if bv < x then argmaxAux xs (i + 1) i x else argmaxAux xs (i + 1) bi bv

/-- See `argmaxAux`. -/
def argmax : List ℚ → Option ℕ
  | [] => none
  | x :: xs => some (argmaxAux xs 1 0 x)

/-- First index of the minimal entry (`np.argmin`); `none` on the empty list. -/
def argminAux : List ℚ → ℕ → ℕ → ℚ → ℕ
  | [], _, bi, _ => bi
  | x :: xs, i, bi, bv => if x < bv then argminAux xs (i + 1) i x else argminAux xs (i + 1) bi bv

/-- See `argminAux`. -/
def argminL : List ℚ → Option ℕ
  | [] => none
  | x :: xs => some (argminAux xs 1 0 x)

/-- Minimum entry of a vector (`np.min`); `none` on the empty list (where
`numpy` raises). -/
def minQ : List ℚ → Option ℚ
  | [] => none
  | x :: xs => some (xs.foldl min x)

/-- Columns of `G` selected by the boolean mask (`G[:, active]`). -/
def selectCols (G : List (List ℚ)) (active : List Bool) : List (List ℚ) :=
  ((List.zip G active).filter fun p => p.2).map fun p => p.1

/-- Entries of `xs` selected by the boolean mask (`xs[active]`). -/
def maskSelect (active : List Bool) (xs : List ℚ) : List ℚ :=
  ((List.zip active xs).filter fun p => p.1).map fun p => p.2

/-- Scatter of the solve result back into the trial vector:
`zeta[~active] = 0; zeta[active] = vals` in index order. -/
def scatterActive : List Bool → List ℚ → List ℚ
  | [], _ => []
  | true :: rest, v :: vs => v :: scatterActive rest vs
  | true :: rest, [] => 0 :: scatterActive rest []
  | false :: rest, vs => 0 :: scatterActive rest vs

/-- Linear combination `Σ coeffs_k · cols_k` of columns, as a vector of
length `m` (`G[:, active] @ xi[active]`). -/
def gmulCols (cols : List (List ℚ)) (coeffs : List ℚ) (m : ℕ) : List ℚ :=
  (List.zip cols coeffs).foldl
    (fun acc p => List.zipWith (· + ·) acc (p.1.map (p.2 * ·)))
    (List.replicate m 0)

/-- Indices (from `s` upward) of the non-zero entries (`np.where(xi)[0]`,
shifted). -/
def nonzeroIdxFrom : ℕ → List ℚ → List ℕ
  | _, [] => []
  | s, x :: xs => if x ≠ 0 then s :: nonzeroIdxFrom (s + 1) xs else nonzeroIdxFrom (s + 1) xs

/-- Indices of the non-zero entries (`np.where(xi)[0]`). -/
def nonzeroIndices (xs : List ℚ) : List ℕ := nonzeroIdxFrom 0 xs

/-- Indices (from `s` upward) at which the boolean mask holds
(`np.where(mask)[0]`, shifted). -/
def maskIdxFrom : ℕ → List Bool → List ℕ
  | _, [] => []
  | s, bb :: bs => if bb then s :: maskIdxFrom (s + 1) bs else maskIdxFrom (s + 1) bs

/-- Indices at which the boolean mask holds (`np.where(mask)[0]`). -/
def maskIdx (mask : List Bool) : List ℕ := maskIdxFrom 0 mask

/-- One elimination step of Gaussian elimination on an augmented row. -/
def elimRow (piv r : List ℚ) : List ℚ :=
  (List.zipWith (fun a b => a - r.headD 0 / piv.headD 0 * b) r piv).tail

/-- Gaussian elimination with pivot search on augmented rows
(`coefficients ++ [rhs]`); returns the unique solution of a nonsingular
square system — the value `scipy.linalg.solve` computes — and `none` when
no nonzero pivot exists (where `scipy` raises `LinAlgError`). -/
def gaussSolve : ℕ → List (List ℚ) → Option (List ℚ)
  | _, [] => some []
  | 0, _ => none
  | fuel + 1, rows =>
    match maskIdx (rows.map fun r => r.headD 0 ≠ 0) with
    | [] => none
    | i :: _ =>
      let piv := rows.getD i []
      let rest := rows.eraseIdx i
      match gaussSolve fuel (rest.map (elimRow piv)) with
      | none => none
      | some sol =>
        let x0 := (piv.tail.getLastD 0 - dotL piv.tail.dropLast sol) / piv.headD 0
        some (x0 :: sol)

/-- The linear solve `sp.linalg.solve(G_red.T @ G_red, G_red.T @ b)` of the
NNLS inner loop, on the columns selected by the active set. -/
def solveNormal (Gred : List (List ℚ)) (b : List ℚ) : Option (List ℚ) :=
  let rows := Gred.map fun ci => Gred.map (dotL ci) ++ [dotL ci b]
  gaussSolve rows.length rows

/-- The inner active-set loop of `sparse_nnls` (`while True:` in the
source): solve the unconstrained problem on the active set; if the
solution is componentwise non-negative accept it into `xi` and stop,
otherwise blend `xi` towards it by the largest step keeping feasibility
and drop the first most-blocking constraint.  Runs on explicit fuel;
`none` models non-termination or a raised error (singular solve, empty
active set in `np.min`, empty mask in `np.argmin`). -/
def inner_loop (G : List (List ℚ)) (b : List ℚ) :
    ℕ → List Bool → List ℚ → Option (List Bool × List ℚ)
  | 0, _, _ => none
  | fuel + 1, active, xi =>
    match solveNormal (selectCols G active) b with
    | none => none
    | some sol =>
      let zeta := scatterActive active sol
      match minQ (maskSelect active zeta) with
      | none => none
      | some mn =>
        if 0 ≤ mn then
          some (active, zeta)
        else
          let mask := List.zipWith (fun z a => decide (z ≤ 0) && a) zeta active
          let mvals := (maskIdx mask).map fun i => xi.getD i 0 / (xi.getD i 0 - zeta.getD i 0)
          match argminL mvals with
          | none => none
          | some pos =>
            let const_idx := (maskIdx mask).getD pos 0
            let alpha := mvals.getD pos 0
            let xi2 := List.zipWith (fun x z => x + alpha * (z - x)) xi zeta
            inner_loop G b fuel (active.set const_idx false) xi2

/-- The outer loop of `sparse_nnls` (`while ‖r‖ > τ·‖b‖`), with the guard
embedded on squared norms (equivalent for `τ ≥ 0`): add the column most
correlated with the residual to the active set, run the inner loop,
recompute the residual, optionally record `(support size, ‖r‖²)`. -/
def outer_loop (G : List (List ℚ)) (b : List ℚ) (tau : ℚ) (conv_stats : Bool) :
    ℕ → ℕ → List ℚ → List Bool → List ℚ → List (ℕ × ℚ) →
    Option (List Bool × List ℚ × List (ℕ × ℚ) × List ℚ)
  | 0, _, _, _, _, _ => none
  | fuelO + 1, fuelI, r, active, xi, stats =>
    if normSq r ≤ tau ^ 2 * normSq b then
      some (active, xi, stats, r)
    else
      match argmax (G.map (dotL r)) with
      | none => none
      | some idx =>
        match inner_loop G b fuelI (active.set idx true) xi with
        | none => none
        | some (active2, xi2) =>
          let r2 := vsub b (gmulCols (selectCols G active2) (maskSelect active2 xi2) b.length)
          let stats2 :=
            if conv_stats then stats ++ [((nonzeroIndices xi2).length, normSq r2)] else stats
          outer_loop G b tau conv_stats fuelO fuelI r2 active2 xi2 stats2

/-- Translation of `sparse_nnls(G, b, tau, conv_stats)` from `ecsw.py` over
exact arithmetic.  `G` is the list of columns (each of length `len b`).
Differences forced by the embedding: the two `while` loops run on explicit
fuel (`none` = no return), norms are compared squared (equivalent to the
source comparison for `tau ≥ 0`), and the second component of each `stats`
record is the squared residual norm. Returns
`(indices of nonzero entries of xi, xi[active_set], stats)`. -/
def sparse_nnls (fuelO fuelI : ℕ) (G : List (List ℚ)) (b : List ℚ) (tau : ℚ)
    (conv_stats : Bool) : Option (List ℕ × List ℚ × List (ℕ × ℚ)) :=
  let n := G.length
  match outer_loop G b tau conv_stats fuelO fuelI b (List.replicate n false)
      (List.replicate n 0) [] with
  | none => none
  | some (active, xi, stats, _r) =>
    some (nonzeroIndices xi, maskSelect active xi, stats)

end NNLS

section ECSW

/-- The dispatch state of an `ECSWSystem` read by the operator accessors
`K_and_f`/`K`/`f_int`: the reduced basis size `V.shape[1]`, the
unconstrained basis, the stored ECSW weights and indices (unset before
`reduce_mesh`), and the configured `assembly_type` string. -/
structure ECSWSystem where
  V_cols : ℕ
  V_unconstr : List (List ℚ)
  weight_idx : Option (List ℕ)
  weights : Option (List ℚ)
  assembly_type : String

namespace ECSWSystem

/-- Translation of `ECSWSystem.K_and_f`: default `u` to the zero vector of
size `V.shape[1]`, then dispatch on `assembly_type` to the direct or
indirect hyper-reduced assembly (abstract function parameters), raising
`ValueError` otherwise. -/
def K_and_f {κ φ : Type}
    (hyper : List (List ℚ) → Option (List ℕ) → Option (List ℚ) → List ℚ → ℚ → κ × φ)
    (hyper_no_inplace : List (List ℚ) → Option (List ℕ) → Option (List ℚ) → List ℚ → ℚ → κ × φ)
    (sys : ECSWSystem) (u : Option (List ℚ)) (t : ℚ) : Except String (κ × φ) :=
  let u := match u with
    | none => List.replicate sys.V_cols 0
    | some u => u
  if sys.assembly_type = "direct" then
    .ok (hyper sys.V_unconstr sys.weight_idx sys.weights u t)
  else if sys.assembly_type = "indirect" then
    .ok (hyper_no_inplace sys.V_unconstr sys.weight_idx sys.weights u t)
  else
    .error "The given assembly type for a reduced system is not valid."

/-- Translation of `ECSWSystem.K` (same dispatch, returns the stiffness
component). -/
def K {κ φ : Type}
    (hyper : List (List ℚ) → Option (List ℕ) → Option (List ℚ) → List ℚ → ℚ → κ × φ)
    (hyper_no_inplace : List (List ℚ) → Option (List ℕ) → Option (List ℚ) → List ℚ → ℚ → κ × φ)
    (sys : ECSWSystem) (u : Option (List ℚ)) (t : ℚ) : Except String κ :=
  let u := match u with
    | none => List.replicate sys.V_cols 0
    | some u => u
  if sys.assembly_type = "direct" then
    .ok (hyper sys.V_unconstr sys.weight_idx sys.weights u t).1
  else if sys.assembly_type = "indirect" then
    .ok (hyper_no_inplace sys.V_unconstr sys.weight_idx sys.weights u t).1
  else
    .error "The given assembly type for a reduced system is not valid."

/-- Translation of `ECSWSystem.f_int` (same dispatch, returns the force
component). -/
def f_int {κ φ : Type}
    (hyper : List (List ℚ) → Option (List ℕ) → Option (List ℚ) → List ℚ → ℚ → κ × φ)
    (hyper_no_inplace : List (List ℚ) → Option (List ℕ) → Option (List ℚ) → List ℚ → ℚ → κ × φ)
    (sys : ECSWSystem) (u : Option (List ℚ)) (t : ℚ) : Except String φ :=
  let u := match u with
    | none => List.replicate sys.V_cols 0
    | some u => u
  if sys.assembly_type = "direct" then
    .ok (hyper sys.V_unconstr sys.weight_idx sys.weights u t).2
  else if sys.assembly_type = "indirect" then
    .ok (hyper_no_inplace sys.V_unconstr sys.weight_idx sys.weights u t).2
  else
    .error "The given assembly type for a reduced system is not valid."

end ECSWSystem

/-- Transpose of a row-major rational matrix given as nested lists. -/
def lMatT (m : List (List ℚ)) : List (List ℚ) :=
  (List.range (m.headD []).length).map fun j => m.map fun row => row.getD j 0

/-- Row-major matrix product on nested lists. -/
def lMatMul (A B : List (List ℚ)) : List (List ℚ) :=
  A.map fun row => (lMatT B).map (dotL row)

/-- Runtime class tag of a mechanical-system object (Python `__class__`). -/
inductive SysClass
  | MechanicalSystem
  | ReducedSystem
  | ECSWClass
deriving DecidableEq, Repr

/-- The fields of a mechanical-system object touched by
`reduce_mechanical_system_ecsw`: the class tag, reduction basis `V` and its
unconstrained expansion, ECSW weights/indices, output cache, cached
constrained mass matrix, Rayleigh damping matrix, assembly strategy, and
the Dirichlet unconstrain map `dirichlet_class.unconstrain_vec` (kept
abstract as a function field). -/
structure MSys where
  cls : SysClass
  V : List (List ℚ)
  V_unconstr : List (List ℚ)
  weights : Option (List ℚ)
  weight_idx : Option (List ℕ)
  u_red_output : List (List ℚ)
  M_constr : Option (List (List ℚ))
  D_constr : Option (List (List ℚ))
  assembly_type : String
  unconstrain_vec : List (List ℚ) → List (List ℚ)

instance : Inhabited MSys :=
  ⟨⟨SysClass.MechanicalSystem, [], [], none, none, [], none, none, "", id⟩⟩

/-- Translation of `reduce_mechanical_system_ecsw(mechanical_system, V,
overwrite, assembly)` over an explicit object store (`store` is the heap of
mechanical-system objects, `mref` the argument reference): with
`overwrite=True` the argument object itself is transformed, otherwise a
deep copy is appended to the store and transformed.  Returns the new store
and the reference of the returned (hyper-reduced) system. -/
def reduce_mechanical_system_ecsw (store : List MSys) (mref : ℕ)
    (V : List (List ℚ)) (overwrite : Bool) (assembly : String) :
    List MSys × ℕ :=
  let store1 := if overwrite then store else store ++ [store.getD mref default]
  let rref := if overwrite then mref else store.length
  let sys := store1.getD rref default
  let sys2 :=
    { sys with
      cls := SysClass.ECSWClass
      V := V
      V_unconstr := sys.unconstrain_vec V
      weights := none
      weight_idx := none
      u_red_output := []
      M_constr := none
      D_constr := sys.D_constr.map fun D => lMatMul (lMatMul (lMatT V) D) V
      assembly_type := assembly }
  (store1.set rref sys2, rref)

/-- The attribute dictionary attached to the exported ECSW weight field in
`ECSWSystem.export_paraview`. -/
structure H5Attr where
  ParaView : Bool
  AttributeType : String
  Center : String
  Name : String
  NoOfComponents : ℕ
deriving DecidableEq, Repr

/-- An exported field: the per-element data vector with its attribute
dictionary. -/
abbrev ExportField : Type := List ℚ × H5Attr

/-- Fancy assignment `xi[idx] = w` on a rational vector (later positions
overwrite earlier ones, out-of-range indices are dropped — `numpy` would
raise on those; the claims assume valid indices). -/
def assignAt : List ℕ → List ℚ → List ℚ → List ℚ
  | [], _, xs => xs
  | _ :: _, [], xs => xs
  | i :: is, w :: ws, xs => assignAt is ws (xs.set i w)

/-- The weight vector written by `ECSWSystem.export_paraview`:
`xi = np.zeros(no_of_elements); xi[weight_idx] = weights`. -/
def xiFull (no_of_elements : ℕ) (weight_idx : List ℕ) (weights : List ℚ) : List ℚ :=
  assignAt weight_idx weights (List.replicate no_of_elements 0)

/-- Translation of `ECSWSystem.export_paraview` over an explicit store of
caller field lists (`fstore` is the heap of lists, `fref` the optional
argument reference, `none` being `field_list=None`): the caller's list is
copied (`field_list.copy()`), the weight field with its `h5` dictionary is
appended to the copy, and the result is handed to the inherited
`ReducedSystem.export_paraview`.  Returns the (unchanged) store and the
list passed on. -/
def export_paraview (no_of_elements : ℕ) (weight_idx : List ℕ) (weights : List ℚ)
    (fstore : List (List ExportField)) (fref : Option ℕ) :
    List (List ExportField) × List ExportField :=
  let new_field_list :=
    match fref with
    | none => []
    | some r => fstore.getD r []
  let h5_xi_dict : H5Attr :=
    { ParaView := true
      AttributeType := "Scalar"
      Center := "Cell"
      Name := "weights_hyper_red"
      NoOfComponents := 1 }
  let xi := xiFull no_of_elements weight_idx weights
  (fstore, new_field_list ++ [(xi, h5_xi_dict)])

end ECSW

end AMfe

namespace AMfe

open Matrix

set_option linter.unusedSectionVars false

set_option maxRecDepth 100000

set_option maxHeartbeats 4000000

section FoldHelpers

/-- A predicate preserved by every step of a fold holds for the fold. -/
theorem foldl_keeps {α β : Type} (P : β → Prop) (f : β → α → β) (l : List α) (init : β)
    (h0 : P init) (hstep : ∀ acc a, a ∈ l → P acc → P (f acc a)) : P (l.foldl f init) := by
  induction l generalizing init with
  | nil => exact h0
  | cons a as ih =>
    exact ih (f init a) (hstep init a (by simp) h0) fun acc b hb => hstep acc b (by simp [hb])

/-- Folds of functions that agree on the list members agree. -/
theorem foldl_congr_mem {α β : Type} (f g : β → α → β) (l : List α) (init : β)
    (h : ∀ acc a, a ∈ l → f acc a = g acc a) : l.foldl f init = l.foldl g init := by
  induction l generalizing init with
  | nil => rfl
  | cons a as ih =>
    rw [List.foldl_cons, List.foldl_cons, h init a (by simp)]
    exact ih _ fun acc b hb => h acc b (by simp [hb])

end FoldHelpers

section KernelLemmas

variable {F : Type} [CommRing F] [Inv F] [Div F] [DecidableEq F]

/-- Transposition commutes with dof scattering. -/
theorem scatter_matrix_transpose {n m : ℕ} (M : Matrix (Fin n) (Fin m) F) (nd : ℕ) :
    (scatter_matrix M nd)ᵀ = scatter_matrix Mᵀ nd := by
  ext r c
  simp only [scatter_matrix, Matrix.transpose_apply, Matrix.of_apply]
  by_cases h : c.val % nd = r.val % nd
  · rw [if_pos h, if_pos h.symm]
  · rw [if_neg h, if_neg fun hh => h hh.symm]

/-- The zero nodal displacement matrix. -/
theorem reshape2_zero {n : ℕ} : reshape2 (n := n) (0 : Fin (n * 2) → F) = 0 := by
  ext i j
  simp [reshape2]

/-- The zero nodal displacement matrix, 3D. -/
theorem reshape3_zero {n : ℕ} : reshape3 (n := n) (0 : Fin (n * 3) → F) = 0 := by
  ext i j
  simp [reshape3]

/-- Reshaping a translated displacement adds a constant-row matrix. -/
theorem reshape2_translate {n : ℕ} (u : Fin (n * 2) → F) (c : Fin 2 → F) :
    reshape2 (n := n) (translate2 u c) = reshape2 u + constRows c := by
  ext i j
  have hj : (2 * i.val + j.val) % 2 = j.val := by omega
  simp only [reshape2, translate2, constRows, Matrix.of_apply, Matrix.add_apply]
  congr 1
  exact congrArg c (Fin.ext hj)

/-- Reshaping a translated displacement adds a constant-row matrix, 3D. -/
theorem reshape3_translate {n : ℕ} (u : Fin (n * 3) → F) (c : Fin 3 → F) :
    reshape3 (n := n) (translate3 u c) = reshape3 u + constRows c := by
  ext i j
  have hj : (3 * i.val + j.val) % 3 = j.val := by omega
  simp only [reshape3, translate3, constRows, Matrix.of_apply, Matrix.add_apply]
  congr 1
  exact congrArg c (Fin.ext hj)

/-- A constant-row matrix annihilates any matrix with vanishing column sums. -/
theorem constRows_transpose_mul {n m p : ℕ} (c : Fin m → F) (Bt : Matrix (Fin n) (Fin p) F)
    (hcol : ∀ j, ∑ i, Bt i j = 0) : (constRows (n := n) c)ᵀ * Bt = 0 := by
  ext k j
  simp only [constRows, Matrix.mul_apply, Matrix.transpose_apply, Matrix.of_apply,
    Matrix.zero_apply]
  rw [← Finset.mul_sum, hcol, mul_zero]

/-- Column sums of a product vanish when those of the left factor do. -/
theorem colsum_prod {n k m : ℕ} (A : Matrix (Fin n) (Fin k) F) (B : Matrix (Fin k) (Fin m) F)
    (h : ∀ t, ∑ i, A i t = 0) (j : Fin m) : ∑ i, (A * B) i j = 0 := by
  simp only [Matrix.mul_apply]
  rw [Finset.sum_comm]
  refine Finset.sum_eq_zero fun t _ => ?_
  rw [← Finset.sum_mul, h, zero_mul]

/-- Kinematics of the 2D kernel at `u = 0`: identity deformation gradient,
zero Green-Lagrange strain, zero internal force (the latter from the
material sending zero strain to the zero Voigt stress). -/
theorem tl_gauss_2d_zero_u {n : ℕ} (mat : Material2D F)
    (Bt : Matrix (Fin n) (Fin 2) F) (factor : F)
    (h0v : (mat.S_Sv_and_C_2d 0).2.1 = 0) :
    (tl_gauss_2d mat Bt 0 factor).Fg = 1 ∧ (tl_gauss_2d mat Bt 0 factor).Eg = 0 ∧
      (tl_gauss_2d mat Bt 0 factor).fc = 0 := by
  refine ⟨?_, ?_, ?_⟩ <;>
    simp [tl_gauss_2d, Matrix.transpose_zero, Matrix.zero_mul, Matrix.mul_zero, h0v,
      Matrix.mulVec_zero]

/-- Kinematics of the 3D kernel at `u = 0`. -/
theorem tl_gauss_3d_zero_u {n : ℕ} (mat : Material3D F)
    (Bt : Matrix (Fin n) (Fin 3) F) (factor : F)
    (h0v : (mat.S_Sv_and_C 0).2.1 = 0) :
    (tl_gauss_3d mat Bt 0 factor).Fg = 1 ∧ (tl_gauss_3d mat Bt 0 factor).Eg = 0 ∧
      (tl_gauss_3d mat Bt 0 factor).fc = 0 := by
  refine ⟨?_, ?_, ?_⟩ <;>
    simp [tl_gauss_3d, Matrix.transpose_zero, Matrix.zero_mul, Matrix.mul_zero, h0v,
      Matrix.mulVec_zero]

/-- Symmetry of the 2D kernel stiffness contribution for a material with
symmetric stress and symmetric tangent modulus. -/
theorem tl_gauss_2d_Kc_symm {n : ℕ} (mat : Material2D F)
    (Bt umat : Matrix (Fin n) (Fin 2) F) (factor : F)
    (hS : ∀ E, ((mat.S_Sv_and_C_2d E).1)ᵀ = (mat.S_Sv_and_C_2d E).1)
    (hC : ∀ E, ((mat.S_Sv_and_C_2d E).2.2)ᵀ = (mat.S_Sv_and_C_2d E).2.2) :
    ((tl_gauss_2d mat Bt umat factor).Kc)ᵀ = (tl_gauss_2d mat Bt umat factor).Kc := by
  simp [tl_gauss_2d, Matrix.transpose_add, Matrix.transpose_smul, scatter_matrix_transpose,
    Matrix.transpose_mul, Matrix.transpose_transpose, hS, hC, Matrix.mul_assoc]

/-- Symmetry of the 3D kernel stiffness contribution. -/
theorem tl_gauss_3d_Kc_symm {n : ℕ} (mat : Material3D F)
    (Bt umat : Matrix (Fin n) (Fin 3) F) (factor : F)
    (hS : ∀ E, ((mat.S_Sv_and_C E).1)ᵀ = (mat.S_Sv_and_C E).1)
    (hC : ∀ E, ((mat.S_Sv_and_C E).2.2)ᵀ = (mat.S_Sv_and_C E).2.2) :
    ((tl_gauss_3d mat Bt umat factor).Kc)ᵀ = (tl_gauss_3d mat Bt umat factor).Kc := by
  simp [tl_gauss_3d, Matrix.transpose_add, Matrix.transpose_smul, scatter_matrix_transpose,
    Matrix.transpose_mul, Matrix.transpose_transpose, hS, hC, Matrix.mul_assoc]

/-- The 2D kernel is invariant under adding a constant-row matrix to the
nodal displacements when the column sums of `B0_tilde` vanish (partition of
unity of the shape functions). -/
theorem tl_gauss_2d_translate {n : ℕ} (mat : Material2D F)
    (Bt umat : Matrix (Fin n) (Fin 2) F) (factor : F) (c : Fin 2 → F)
    (hcol : ∀ j, ∑ i, Bt i j = 0) :
    tl_gauss_2d mat Bt (umat + constRows c) factor = tl_gauss_2d mat Bt umat factor := by
  have hH : (umat + constRows c)ᵀ * Bt = umatᵀ * Bt := by
    rw [Matrix.transpose_add, Matrix.add_mul, constRows_transpose_mul c Bt hcol, add_zero]
  simp only [tl_gauss_2d, hH]

/-- The 3D kernel is invariant under adding a constant-row matrix to the
nodal displacements when the column sums of `B0_tilde` vanish. -/
theorem tl_gauss_3d_translate {n : ℕ} (mat : Material3D F)
    (Bt umat : Matrix (Fin n) (Fin 3) F) (factor : F) (c : Fin 3 → F)
    (hcol : ∀ j, ∑ i, Bt i j = 0) :
    tl_gauss_3d mat Bt (umat + constRows c) factor = tl_gauss_3d mat Bt umat factor := by
  have hH : (umat + constRows c)ᵀ * Bt = umatᵀ * Bt := by
    rw [Matrix.transpose_add, Matrix.add_mul, constRows_transpose_mul c Bt hcol, add_zero]
  simp only [tl_gauss_3d, hH]

end KernelLemmas


section RefJacobianLemmas

/-- Division on `QS d` is multiplication by the (conjugate-based) inverse,
definitionally. -/
theorem QS_div_eq {d : ℚ} (x y : QS d) : x / y = x * y⁻¹ := rfl

/-- The columns of `Quad4.dN_dxi` sum to zero at every evaluation point
(partition of unity, differentiated). -/
theorem quad4_dN_colsum (xi eta : QS 3) (t : Fin 2) :
    ∑ i, Quad4.dN_dxi xi eta i t = 0 := by
  fin_cases t <;>
    · simp only [Quad4.dN_dxi, Fin.sum_univ_succ, Fin.sum_univ_zero, Matrix.of_apply,
        Matrix.cons_val', Matrix.cons_val_zero, Matrix.cons_val_one, Matrix.cons_val_succ,
        Matrix.head_cons, Matrix.head_fin_const, Matrix.empty_val', Matrix.cons_val_fin_one,
        QS_div_eq, Fin.zero_eta, Fin.mk_one, Fin.reduceFinMk, Fin.isValue,
        Matrix.cons_val_two, Matrix.tail_cons]
      ring

/-- On the reference square the Quad4 Jacobian is the identity at every
evaluation point (the bilinear shape functions reproduce linear maps). -/
theorem quad4_ref_J (xi eta : QS 3) :
    (reshape2 Xref_quad4)ᵀ * Quad4.dN_dxi xi eta =
      (Matrix.of ![![1, 0], ![0, 1]] : Matrix (Fin 2) (Fin 2) (QS 3)) := by
  have hX : (reshape2 Xref_quad4)ᵀ =
      (Matrix.of ![![-1, 1, 1, -1], ![-1, -1, 1, 1]] : Matrix (Fin 2) (Fin 4) (QS 3)) := by
    decide
  rw [hX]
  apply Matrix.ext
  intro r t
  rw [Matrix.mul_apply]
  fin_cases r <;> fin_cases t <;>
    · simp only [Quad4.dN_dxi, Fin.sum_univ_succ, Fin.sum_univ_zero, Matrix.of_apply,
        Matrix.cons_val', Matrix.cons_val_zero, Matrix.cons_val_one, Matrix.cons_val_succ,
        Matrix.head_cons, Matrix.head_fin_const, Matrix.empty_val', Matrix.cons_val_fin_one,
        QS_div_eq, Fin.zero_eta, Fin.mk_one, Fin.reduceFinMk, Fin.isValue,
        Matrix.cons_val_two, Matrix.tail_cons]
      try (conv_rhs => rw [show (1 : QS 3) = (4 : QS 3)⁻¹ * 4 from by decide])
      ring

/-- The columns of `Quad8.dN_dxi` sum to zero at every evaluation point. -/
theorem quad8_dN_colsum (xi eta : QS 15) (t : Fin 2) :
    ∑ i, Quad8.dN_dxi xi eta i t = 0 := by
  have h4 : (4 : QS 15) * (4 : QS 15)⁻¹ = 1 := by decide
  fin_cases t <;>
    simp only [Quad8.dN_dxi, Fin.sum_univ_succ, Fin.sum_univ_zero, Matrix.of_apply,
      Matrix.cons_val', Matrix.cons_val_zero, Matrix.cons_val_one, Matrix.cons_val_succ,
      Matrix.head_cons, Matrix.head_fin_const, Matrix.empty_val', Matrix.cons_val_fin_one,
      QS_div_eq, Fin.zero_eta, Fin.mk_one, Fin.reduceFinMk, Fin.isValue,
      Matrix.cons_val_two, Matrix.tail_cons]
  · linear_combination (2 * xi) * h4
  · linear_combination (2 * eta) * h4

/-- On the reference square the Quad8 Jacobian is the identity at every
evaluation point (the serendipity shape functions reproduce linear maps). -/
theorem quad8_ref_J (xi eta : QS 15) :
    (reshape2 Xref_quad8)ᵀ * Quad8.dN_dxi xi eta =
      (Matrix.of ![![1, 0], ![0, 1]] : Matrix (Fin 2) (Fin 2) (QS 15)) := by
  have h4 : (4 : QS 15) * (4 : QS 15)⁻¹ = 1 := by decide
  have h2 : (2 : QS 15) * (2 : QS 15)⁻¹ = 1 := by decide
  have hX : (reshape2 Xref_quad8)ᵀ =
      (Matrix.of ![![-1, 1, 1, -1, 0, 1, 0, -1], ![-1, -1, 1, 1, -1, 0, 1, 0]] :
        Matrix (Fin 2) (Fin 8) (QS 15)) := by decide
  rw [hX]
  apply Matrix.ext
  intro r t
  rw [Matrix.mul_apply]
  fin_cases r <;> fin_cases t <;>
    simp only [Quad8.dN_dxi, Fin.sum_univ_succ, Fin.sum_univ_zero, Matrix.of_apply,
      Matrix.cons_val', Matrix.cons_val_zero, Matrix.cons_val_one, Matrix.cons_val_succ,
      Matrix.head_cons, Matrix.head_fin_const, Matrix.empty_val', Matrix.cons_val_fin_one,
      QS_div_eq, Fin.zero_eta, Fin.mk_one, Fin.reduceFinMk, Fin.isValue,
      Matrix.cons_val_two, Matrix.tail_cons]
  · linear_combination eta ^ 2 * h4 + (1 - eta ^ 2) * h2
  · linear_combination (2 * eta * xi) * h4
  · linear_combination (2 * eta * xi) * h4
  · linear_combination xi ^ 2 * h4 + (1 - xi ^ 2) * h2

/-- The columns of `Hexa8.dN_dxi` sum to zero at every evaluation point. -/
theorem hexa8_dN_colsum (a bb c : QS 3) (t : Fin 3) :
    ∑ i, Hexa8.dN_dxi a bb c i t = 0 := by
  fin_cases t <;>
    · simp only [Hexa8.dN_dxi, Fin.sum_univ_succ, Fin.sum_univ_zero, Matrix.of_apply,
        Matrix.smul_apply, smul_eq_mul, Matrix.cons_val', Matrix.cons_val_zero,
        Matrix.cons_val_one, Matrix.cons_val_succ, Matrix.head_cons, Matrix.head_fin_const,
        Matrix.empty_val', Matrix.cons_val_fin_one, QS_div_eq, Fin.zero_eta, Fin.mk_one,
        Fin.reduceFinMk, Fin.isValue, Matrix.cons_val_two, Matrix.tail_cons]
      ring

/-- On the reference cube the Hexa8 Jacobian is the identity at every
evaluation point. -/
theorem hexa8_ref_J (a bb c : QS 3) :
    (reshape3 Xref_hexa8)ᵀ * Hexa8.dN_dxi a bb c =
      (Matrix.of ![![1, 0, 0], ![0, 1, 0], ![0, 0, 1]] : Matrix (Fin 3) (Fin 3) (QS 3)) := by
  have h8 : (8 : QS 3) * (8 : QS 3)⁻¹ = 1 := by decide
  have hX : (reshape3 Xref_hexa8)ᵀ =
      (Matrix.of ![![-1, 1, 1, -1, -1, 1, 1, -1],
                   ![-1, -1, 1, 1, -1, -1, 1, 1],
                   ![-1, -1, -1, -1, 1, 1, 1, 1]] : Matrix (Fin 3) (Fin 8) (QS 3)) := by decide
  rw [hX]
  apply Matrix.ext
  intro r t
  rw [Matrix.mul_apply]
  fin_cases r <;> fin_cases t <;>
    simp only [Hexa8.dN_dxi, Fin.sum_univ_succ, Fin.sum_univ_zero, Matrix.of_apply,
      Matrix.smul_apply, smul_eq_mul, Matrix.cons_val', Matrix.cons_val_zero,
      Matrix.cons_val_one, Matrix.cons_val_succ, Matrix.head_cons, Matrix.head_fin_const,
      Matrix.empty_val', Matrix.cons_val_fin_one, QS_div_eq, Fin.zero_eta, Fin.mk_one,
      Fin.reduceFinMk, Fin.isValue, Matrix.cons_val_two, Matrix.tail_cons]
  · linear_combination h8
  · ring
  · ring
  · ring
  · linear_combination h8
  · ring
  · ring
  · ring
  · linear_combination h8

/-- The columns of `Hexa20.dN_dxi` sum to zero at every evaluation point. -/
theorem hexa20_dN_colsum (a bb c : QS 15) (t : Fin 3) :
    ∑ i, Hexa20.dN_dxi a bb c i t = 0 := by
  fin_cases t <;>
    · simp only [Hexa20.dN_dxi, Fin.sum_univ_succ, Fin.sum_univ_zero, Matrix.of_apply,
        Matrix.smul_apply, smul_eq_mul, Matrix.cons_val', Matrix.cons_val_zero,
        Matrix.cons_val_one, Matrix.cons_val_succ, Matrix.head_cons, Matrix.head_fin_const,
        Matrix.empty_val', Matrix.cons_val_fin_one, QS_div_eq, Fin.zero_eta, Fin.mk_one,
        Fin.reduceFinMk, Fin.isValue, Matrix.cons_val_two, Matrix.tail_cons]
      ring

/-- On the reference cube the Hexa20 Jacobian is the identity at every
evaluation point. -/
theorem hexa20_ref_J (a bb c : QS 15) :
    (reshape3 Xref_hexa20)ᵀ * Hexa20.dN_dxi a bb c =
      (Matrix.of ![![1, 0, 0], ![0, 1, 0], ![0, 0, 1]] : Matrix (Fin 3) (Fin 3) (QS 15)) := by
  have h8 : (8 : QS 15) * (8 : QS 15)⁻¹ = 1 := by decide
  have hX : (reshape3 Xref_hexa20)ᵀ =
      (Matrix.of ![![-1, 1, 1, -1, -1, 1, 1, -1, 0, 1, 0, -1, 0, 1, 0, -1, -1, 1, 1, -1],
                   ![-1, -1, 1, 1, -1, -1, 1, 1, -1, 0, 1, 0, -1, 0, 1, 0, -1, -1, 1, 1],
                   ![-1, -1, -1, -1, 1, 1, 1, 1, -1, -1, -1, -1, 1, 1, 1, 1, 0, 0, 0, 0]] :
        Matrix (Fin 3) (Fin 20) (QS 15)) := by decide
  rw [hX]
  apply Matrix.ext
  intro r t
  rw [Matrix.mul_apply]
  fin_cases r <;> fin_cases t <;>
    simp only [Hexa20.dN_dxi, Fin.sum_univ_succ, Fin.sum_univ_zero, Matrix.of_apply,
      Matrix.smul_apply, smul_eq_mul, Matrix.cons_val', Matrix.cons_val_zero,
      Matrix.cons_val_one, Matrix.cons_val_succ, Matrix.head_cons, Matrix.head_fin_const,
      Matrix.empty_val', Matrix.cons_val_fin_one, QS_div_eq, Fin.zero_eta, Fin.mk_one,
      Fin.reduceFinMk, Fin.isValue, Matrix.cons_val_two, Matrix.tail_cons]
  · linear_combination h8
  · ring
  · ring
  · ring
  · linear_combination h8
  · ring
  · ring
  · ring
  · linear_combination h8

end RefJacobianLemmas

section ElementLemmas

variable {F : Type} [CommRing F] [Inv F] [Div F] [DecidableEq F]

/-- Column sums of a scalar multiple vanish when those of the matrix do. -/
theorem colsum_smul {n m : ℕ} (a : F) (M : Matrix (Fin n) (Fin m) F)
    (h : ∀ j, ∑ i, M i j = 0) (j : Fin m) : ∑ i, (a • M) i j = 0 := by
  have : ∑ i, (a • M) i j = a * ∑ i, M i j := by
    rw [Finset.mul_sum]
    exact Finset.sum_congr rfl fun i _ => by simp [Matrix.smul_apply]
  rw [this, h, mul_zero]

/-- Tri3 at zero displacement: identity `F`, zero strain, zero force. -/
theorem Tri3_zero_u (mat : Material2D F) (X : Fin 6 → F)
    (h0v : (mat.S_Sv_and_C_2d 0).2.1 = 0) :
    (Tri3.compute_tensors mat X 0).f = 0 ∧
      (∀ M ∈ (Tri3.compute_tensors mat X 0).Fgs, M = 1) ∧
      (∀ M ∈ (Tri3.compute_tensors mat X 0).Egs, M = 0) := by
  simp only [Tri3.compute_tensors, reshape2_zero, List.mem_singleton]
  exact ⟨(tl_gauss_2d_zero_u mat _ _ h0v).2.2,
    fun M hM => hM ▸ (tl_gauss_2d_zero_u mat _ _ h0v).1,
    fun M hM => hM ▸ (tl_gauss_2d_zero_u mat _ _ h0v).2.1⟩

/-- Tri3 stiffness is symmetric for a symmetric material. -/
theorem Tri3_K_symm (mat : Material2D F) (X u : Fin 6 → F)
    (hS : ∀ E, ((mat.S_Sv_and_C_2d E).1)ᵀ = (mat.S_Sv_and_C_2d E).1)
    (hC : ∀ E, ((mat.S_Sv_and_C_2d E).2.2)ᵀ = (mat.S_Sv_and_C_2d E).2.2) :
    ((Tri3.compute_tensors mat X u).K)ᵀ = (Tri3.compute_tensors mat X u).K := by
  simp only [Tri3.compute_tensors]
  exact tl_gauss_2d_Kc_symm mat _ _ _ hS hC

/-- Tri3 is objective under rigid-body translation (the whole tensor output
is unchanged). -/
theorem Tri3_translation (mat : Material2D F) (X u : Fin 6 → F) (c : Fin 2 → F) :
    Tri3.compute_tensors mat X (translate2 (n := 3) u c) = Tri3.compute_tensors mat X u := by
  simp only [Tri3.compute_tensors]
  rw [reshape2_translate, tl_gauss_2d_translate]
  intro j
  refine colsum_smul _ _ (fun j2 => ?_) j
  fin_cases j2 <;>
    simp [Fin.sum_univ_three, Matrix.of_apply, Matrix.cons_val', Matrix.cons_val_zero,
      Matrix.cons_val_one, Matrix.head_cons]

/-- Quad4 at zero displacement: identity `F`, zero strain, zero force at
every Gauss point. -/
theorem Quad4_zero_u (mat : Material2D (QS 3)) (X : Fin 8 → QS 3)
    (h0v : (mat.S_Sv_and_C_2d 0).2.1 = 0) :
    (Quad4.compute_tensors mat X 0).f = 0 ∧
      (∀ M ∈ (Quad4.compute_tensors mat X 0).Fgs, M = 1) ∧
      (∀ M ∈ (Quad4.compute_tensors mat X 0).Egs, M = 0) := by
  unfold Quad4.compute_tensors
  refine foldl_keeps
    (fun (acc : TOut 2 8 (QS 3)) =>
      acc.f = 0 ∧ (∀ M ∈ acc.Fgs, M = 1) ∧ (∀ M ∈ acc.Egs, M = 0))
    _ _ _ ⟨rfl, by simp, by simp⟩ ?_
  rintro acc gp hgp ⟨hf, hF, hE⟩
  simp only [Quad4.step, reshape2_zero]
  obtain ⟨h1, h2, h3⟩ :=
    tl_gauss_2d_zero_u mat (Quad4.gp_data X gp).2 ((Quad4.gp_data X gp).1 * mat.thickness) h0v
  refine ⟨?_, ?_, ?_⟩
  · rw [h3, smul_zero, hf, add_zero]
  · intro M hM
    rcases List.mem_append.1 hM with h | h
    · exact hF M h
    · rw [List.mem_singleton] at h
      rw [h, h1]
  · intro M hM
    rcases List.mem_append.1 hM with h | h
    · exact hE M h
    · rw [List.mem_singleton] at h
      rw [h, h2]

/-- Quad4 stiffness is symmetric for a symmetric material. -/
theorem Quad4_K_symm (mat : Material2D (QS 3)) (X u : Fin 8 → QS 3)
    (hS : ∀ E, ((mat.S_Sv_and_C_2d E).1)ᵀ = (mat.S_Sv_and_C_2d E).1)
    (hC : ∀ E, ((mat.S_Sv_and_C_2d E).2.2)ᵀ = (mat.S_Sv_and_C_2d E).2.2) :
    ((Quad4.compute_tensors mat X u).K)ᵀ = (Quad4.compute_tensors mat X u).K := by
  unfold Quad4.compute_tensors
  refine foldl_keeps (fun (acc : TOut 2 8 (QS 3)) => (acc.K)ᵀ = acc.K) _ _ _ (by simp) ?_
  intro acc gp hgp hK
  simp only [Quad4.step]
  rw [Matrix.transpose_add, Matrix.transpose_smul, tl_gauss_2d_Kc_symm mat _ _ _ hS hC, hK]

/-- Quad4 is objective under rigid-body translation. -/
theorem Quad4_translation (mat : Material2D (QS 3)) (X u : Fin 8 → QS 3) (c : Fin 2 → QS 3) :
    Quad4.compute_tensors mat X (translate2 (n := 4) u c) = Quad4.compute_tensors mat X u := by
  unfold Quad4.compute_tensors
  refine foldl_congr_mem _ _ _ _ ?_
  intro acc gp hgp
  simp only [Quad4.step]
  rw [reshape2_translate, tl_gauss_2d_translate]
  intro j
  have hdN : ∀ gp2 ∈ Quad4.gauss_points, ∀ t, ∑ i, Quad4.dN_dxi gp2.1 gp2.2.1 i t = 0 :=
    fun gp2 _ t => quad4_dN_colsum gp2.1 gp2.2.1 t
  show ∑ i, (Quad4.gp_data X gp).2 i j = 0
  simp only [Quad4.gp_data]
  exact colsum_prod _ _ (hdN gp hgp) j

/-- Column sums of a product vanish when those of the left factor are a
constant `s` and those of the right factor vanish. -/
theorem colsum_prod_const {n k m : ℕ} (A : Matrix (Fin n) (Fin k) F)
    (B : Matrix (Fin k) (Fin m) F) (s : F) (hA : ∀ t, ∑ i, A i t = s)
    (hB : ∀ j, ∑ t, B t j = 0) (j : Fin m) : ∑ i, (A * B) i j = 0 := by
  simp only [Matrix.mul_apply]
  rw [Finset.sum_comm]
  have : ∀ t : Fin k, ∑ i, A i t * B t j = s * B t j := fun t => by
    rw [← Finset.sum_mul, hA]
  rw [Finset.sum_congr rfl fun t _ => this t, ← Finset.mul_sum, hB, mul_zero]

/-- Tri6 at zero displacement: identity `F`, zero strain, zero force at
every Gauss point. -/
theorem Tri6_zero_u (mat : Material2D F) (X : Fin 12 → F)
    (h0v : (mat.S_Sv_and_C_2d 0).2.1 = 0) :
    (Tri6.compute_tensors mat X 0).f = 0 ∧
      (∀ M ∈ (Tri6.compute_tensors mat X 0).Fgs, M = 1) ∧
      (∀ M ∈ (Tri6.compute_tensors mat X 0).Egs, M = 0) := by
  unfold Tri6.compute_tensors
  refine foldl_keeps
    (fun (acc : TOut 2 12 F) =>
      acc.f = 0 ∧ (∀ M ∈ acc.Fgs, M = 1) ∧ (∀ M ∈ acc.Egs, M = 0))
    _ _ _ ⟨rfl, by simp, by simp⟩ ?_
  rintro acc gp hgp ⟨hf, hF, hE⟩
  simp only [Tri6.step, reshape2_zero]
  obtain ⟨h1, h2, h3⟩ :=
    tl_gauss_2d_zero_u mat (Tri6.gp_data X gp).2 ((Tri6.gp_data X gp).1 / 2 * mat.thickness) h0v
  refine ⟨?_, ?_, ?_⟩
  · rw [h3, smul_zero, hf, add_zero]
  · intro M hM
    rcases List.mem_append.1 hM with h | h
    · exact hF M h
    · rw [List.mem_singleton] at h
      rw [h, h1]
  · intro M hM
    rcases List.mem_append.1 hM with h | h
    · exact hE M h
    · rw [List.mem_singleton] at h
      rw [h, h2]

/-- Tri6 stiffness is symmetric for a symmetric material. -/
theorem Tri6_K_symm (mat : Material2D F) (X u : Fin 12 → F)
    (hS : ∀ E, ((mat.S_Sv_and_C_2d E).1)ᵀ = (mat.S_Sv_and_C_2d E).1)
    (hC : ∀ E, ((mat.S_Sv_and_C_2d E).2.2)ᵀ = (mat.S_Sv_and_C_2d E).2.2) :
    ((Tri6.compute_tensors mat X u).K)ᵀ = (Tri6.compute_tensors mat X u).K := by
  unfold Tri6.compute_tensors
  refine foldl_keeps (fun (acc : TOut 2 12 F) => (acc.K)ᵀ = acc.K) _ _ _ (by simp) ?_
  intro acc gp hgp hK
  simp only [Tri6.step]
  rw [Matrix.transpose_add, Matrix.transpose_smul, tl_gauss_2d_Kc_symm mat _ _ _ hS hC, hK]

/-- Tri6 is objective under rigid-body translation. -/
theorem Tri6_translation (mat : Material2D ℚ) (X u : Fin 12 → ℚ) (c : Fin 2 → ℚ) :
    Tri6.compute_tensors mat X (translate2 (n := 6) u c) = Tri6.compute_tensors mat X u := by
  unfold Tri6.compute_tensors
  refine foldl_congr_mem _ _ _ _ ?_
  intro acc gp hgp
  simp only [Tri6.step]
  rw [reshape2_translate, tl_gauss_2d_translate]
  intro j
  have hA : ∀ gp2 ∈ Tri6.gauss_points (F := ℚ), ∀ t,
      ∑ i, Tri6.dN_dL gp2.1 gp2.2.1 gp2.2.2.1 i t = 3 := by decide
  show ∑ i, (Tri6.gp_data X gp).2 i j = 0
  simp only [Tri6.gp_data]
  refine colsum_prod_const _ _ 3 (hA gp hgp) (fun j2 => colsum_smul _ _ (fun j3 => ?_) j2) j
  fin_cases j3 <;>
    simp [Fin.sum_univ_three, Matrix.of_apply, Matrix.cons_val', Matrix.cons_val_zero,
      Matrix.cons_val_one, Matrix.head_cons] <;>
    ring

/-- Quad8 at zero displacement: identity `F`, zero strain, zero force at
every Gauss point. -/
theorem Quad8_zero_u (mat : Material2D (QS 15)) (X : Fin 16 → QS 15)
    (h0v : (mat.S_Sv_and_C_2d 0).2.1 = 0) :
    (Quad8.compute_tensors mat X 0).f = 0 ∧
      (∀ M ∈ (Quad8.compute_tensors mat X 0).Fgs, M = 1) ∧
      (∀ M ∈ (Quad8.compute_tensors mat X 0).Egs, M = 0) := by
  unfold Quad8.compute_tensors
  refine foldl_keeps
    (fun (acc : TOut 2 16 (QS 15)) =>
      acc.f = 0 ∧ (∀ M ∈ acc.Fgs, M = 1) ∧ (∀ M ∈ acc.Egs, M = 0))
    _ _ _ ⟨rfl, by simp, by simp⟩ ?_
  rintro acc gp hgp ⟨hf, hF, hE⟩
  simp only [Quad8.step, reshape2_zero]
  obtain ⟨h1, h2, h3⟩ :=
    tl_gauss_2d_zero_u mat (Quad8.gp_data X gp).2 ((Quad8.gp_data X gp).1 * mat.thickness) h0v
  refine ⟨?_, ?_, ?_⟩
  · rw [h3, smul_zero, hf, add_zero]
  · intro M hM
    rcases List.mem_append.1 hM with h | h
    · exact hF M h
    · rw [List.mem_singleton] at h
      rw [h, h1]
  · intro M hM
    rcases List.mem_append.1 hM with h | h
    · exact hE M h
    · rw [List.mem_singleton] at h
      rw [h, h2]

/-- Quad8 stiffness is symmetric for a symmetric material. -/
theorem Quad8_K_symm (mat : Material2D (QS 15)) (X u : Fin 16 → QS 15)
    (hS : ∀ E, ((mat.S_Sv_and_C_2d E).1)ᵀ = (mat.S_Sv_and_C_2d E).1)
    (hC : ∀ E, ((mat.S_Sv_and_C_2d E).2.2)ᵀ = (mat.S_Sv_and_C_2d E).2.2) :
    ((Quad8.compute_tensors mat X u).K)ᵀ = (Quad8.compute_tensors mat X u).K := by
  unfold Quad8.compute_tensors
  refine foldl_keeps (fun (acc : TOut 2 16 (QS 15)) => (acc.K)ᵀ = acc.K) _ _ _ (by simp) ?_
  intro acc gp hgp hK
  simp only [Quad8.step]
  rw [Matrix.transpose_add, Matrix.transpose_smul, tl_gauss_2d_Kc_symm mat _ _ _ hS hC, hK]

/-- Quad8 is objective under rigid-body translation. -/
theorem Quad8_translation (mat : Material2D (QS 15)) (X u : Fin 16 → QS 15) (c : Fin 2 → QS 15) :
    Quad8.compute_tensors mat X (translate2 (n := 8) u c) = Quad8.compute_tensors mat X u := by
  unfold Quad8.compute_tensors
  refine foldl_congr_mem _ _ _ _ ?_
  intro acc gp hgp
  simp only [Quad8.step]
  rw [reshape2_translate, tl_gauss_2d_translate]
  intro j
  have hdN : ∀ gp2 ∈ Quad8.gauss_points, ∀ t, ∑ i, Quad8.dN_dxi gp2.1 gp2.2.1 i t = 0 :=
    fun gp2 _ t => quad8_dN_colsum gp2.1 gp2.2.1 t
  show ∑ i, (Quad8.gp_data X gp).2 i j = 0
  simp only [Quad8.gp_data]
  exact colsum_prod _ _ (hdN gp hgp) j

/-- Tet4 at zero displacement: identity `F`, zero strain, zero force. -/
theorem Tet4_zero_u (mat : Material3D F) (X : Fin 12 → F)
    (h0v : (mat.S_Sv_and_C 0).2.1 = 0) :
    (Tet4.compute_tensors mat X 0).f = 0 ∧
      (∀ M ∈ (Tet4.compute_tensors mat X 0).Fgs, M = 1) ∧
      (∀ M ∈ (Tet4.compute_tensors mat X 0).Egs, M = 0) := by
  simp only [Tet4.compute_tensors, reshape3_zero, List.mem_singleton]
  exact ⟨(tl_gauss_3d_zero_u mat _ _ h0v).2.2,
    fun M hM => hM ▸ (tl_gauss_3d_zero_u mat _ _ h0v).1,
    fun M hM => hM ▸ (tl_gauss_3d_zero_u mat _ _ h0v).2.1⟩

/-- Tet4 stiffness is symmetric for a symmetric material. -/
theorem Tet4_K_symm (mat : Material3D F) (X u : Fin 12 → F)
    (hS : ∀ E, ((mat.S_Sv_and_C E).1)ᵀ = (mat.S_Sv_and_C E).1)
    (hC : ∀ E, ((mat.S_Sv_and_C E).2.2)ᵀ = (mat.S_Sv_and_C E).2.2) :
    ((Tet4.compute_tensors mat X u).K)ᵀ = (Tet4.compute_tensors mat X u).K := by
  simp only [Tet4.compute_tensors]
  exact tl_gauss_3d_Kc_symm mat _ _ _ hS hC

/-- Tet4 is objective under rigid-body translation. -/
theorem Tet4_translation (mat : Material3D F) (X u : Fin 12 → F) (c : Fin 3 → F) :
    Tet4.compute_tensors mat X (translate3 (n := 4) u c) = Tet4.compute_tensors mat X u := by
  simp only [Tet4.compute_tensors]
  rw [reshape3_translate, tl_gauss_3d_translate]
  intro j
  simp only [Tet4.B0_tilde]
  refine colsum_smul _ _ (fun j2 => ?_) j
  fin_cases j2 <;>
    simp [Fin.sum_univ_four, Matrix.of_apply, Matrix.cons_val', Matrix.cons_val_zero,
      Matrix.cons_val_one, Matrix.head_cons] <;>
    ring

/-- Sum of the four `a`-cofactors of the Tet10 Jacobian vanishes. -/
theorem cof_sum_a (Jy1 Jy2 Jy3 Jy4 Jz1 Jz2 Jz3 Jz4 : F) :
    (-Jy2*Jz3 + Jy2*Jz4 + Jy3*Jz2 - Jy3*Jz4 - Jy4*Jz2 + Jy4*Jz3)
      + (Jy1*Jz3 - Jy1*Jz4 - Jy3*Jz1 + Jy3*Jz4 + Jy4*Jz1 - Jy4*Jz3)
      + (-Jy1*Jz2 + Jy1*Jz4 + Jy2*Jz1 - Jy2*Jz4 - Jy4*Jz1 + Jy4*Jz2)
      + (Jy1*Jz2 - Jy1*Jz3 - Jy2*Jz1 + Jy2*Jz3 + Jy3*Jz1 - Jy3*Jz2) = 0 := by
  ring

/-- Sum of the four `b`-cofactors of the Tet10 Jacobian vanishes. -/
theorem cof_sum_b (Jx1 Jx2 Jx3 Jx4 Jz1 Jz2 Jz3 Jz4 : F) :
    (Jx2*Jz3 - Jx2*Jz4 - Jx3*Jz2 + Jx3*Jz4 + Jx4*Jz2 - Jx4*Jz3)
      + (-Jx1*Jz3 + Jx1*Jz4 + Jx3*Jz1 - Jx3*Jz4 - Jx4*Jz1 + Jx4*Jz3)
      + (Jx1*Jz2 - Jx1*Jz4 - Jx2*Jz1 + Jx2*Jz4 + Jx4*Jz1 - Jx4*Jz2)
      + (-Jx1*Jz2 + Jx1*Jz3 + Jx2*Jz1 - Jx2*Jz3 - Jx3*Jz1 + Jx3*Jz2) = 0 := by
  ring

/-- Sum of the four `c`-cofactors of the Tet10 Jacobian vanishes. -/
theorem cof_sum_c (Jx1 Jx2 Jx3 Jx4 Jy1 Jy2 Jy3 Jy4 : F) :
    (-Jx2*Jy3 + Jx2*Jy4 + Jx3*Jy2 - Jx3*Jy4 - Jx4*Jy2 + Jx4*Jy3)
      + (Jx1*Jy3 - Jx1*Jy4 - Jx3*Jy1 + Jx3*Jy4 + Jx4*Jy1 - Jx4*Jy3)
      + (-Jx1*Jy2 + Jx1*Jy4 + Jx2*Jy1 - Jx2*Jy4 - Jx4*Jy1 + Jx4*Jy2)
      + (Jx1*Jy2 - Jx1*Jy3 - Jx2*Jy1 + Jx2*Jy3 + Jx3*Jy1 - Jx3*Jy2) = 0 := by
  ring

/-- Column sums of the Tet10 `B0_tilde` numerator matrix vanish: the shape
function derivatives sum to `(4·ΣL - 1)`-weighted cofactor sums. -/
theorem tet10_lit_colsum (L1 L2 L3 L4 a1 a2 a3 a4 b1 b2 b3 b4 c1 c2 c3 c4 : F)
    (hL : L1 + L2 + L3 + L4 = 1) (ha : a1 + a2 + a3 + a4 = 0)
    (hb : b1 + b2 + b3 + b4 = 0) (hc : c1 + c2 + c3 + c4 = 0) (j : Fin 3) :
    ∑ i, (Matrix.of ![![a1*(4*L1 - 1), b1*(4*L1 - 1), c1*(4*L1 - 1)],
        ![a2*(4*L2 - 1), b2*(4*L2 - 1), c2*(4*L2 - 1)],
        ![a3*(4*L3 - 1), b3*(4*L3 - 1), c3*(4*L3 - 1)],
        ![a4*(4*L4 - 1), b4*(4*L4 - 1), c4*(4*L4 - 1)],
        ![4*L1*a2 + 4*L2*a1, 4*L1*b2 + 4*L2*b1, 4*L1*c2 + 4*L2*c1],
        ![4*L2*a3 + 4*L3*a2, 4*L2*b3 + 4*L3*b2, 4*L2*c3 + 4*L3*c2],
        ![4*L1*a3 + 4*L3*a1, 4*L1*b3 + 4*L3*b1, 4*L1*c3 + 4*L3*c1],
        ![4*L1*a4 + 4*L4*a1, 4*L1*b4 + 4*L4*b1, 4*L1*c4 + 4*L4*c1],
        ![4*L2*a4 + 4*L4*a2, 4*L2*b4 + 4*L4*b2, 4*L2*c4 + 4*L4*c2],
        ![4*L3*a4 + 4*L4*a3, 4*L3*b4 + 4*L4*b3, 4*L3*c4 + 4*L4*c3]] :
      Matrix (Fin 10) (Fin 3) F) i j = 0 := by
  fin_cases j
  · simp [Fin.sum_univ_succ, Matrix.of_apply, Matrix.cons_val', Matrix.cons_val_zero,
      Matrix.cons_val_one, Matrix.head_cons]
    linear_combination (4 * (a1 + a2 + a3 + a4)) * hL + 3 * ha
  · simp [Fin.sum_univ_succ, Matrix.of_apply, Matrix.cons_val', Matrix.cons_val_zero,
      Matrix.cons_val_one, Matrix.head_cons]
    linear_combination (4 * (b1 + b2 + b3 + b4)) * hL + 3 * hb
  · simp [Fin.sum_univ_succ, Matrix.of_apply, Matrix.cons_val', Matrix.cons_val_zero,
      Matrix.cons_val_one, Matrix.head_cons]
    linear_combination (4 * (c1 + c2 + c3 + c4)) * hL + 3 * hc

/-- Tet10 at zero displacement: identity `F`, zero strain, zero force at
every Gauss point. -/
theorem Tet10_zero_u (mat : Material3D (QS 5)) (X : Fin 30 → QS 5)
    (h0v : (mat.S_Sv_and_C 0).2.1 = 0) :
    (Tet10.compute_tensors mat X 0).f = 0 ∧
      (∀ M ∈ (Tet10.compute_tensors mat X 0).Fgs, M = 1) ∧
      (∀ M ∈ (Tet10.compute_tensors mat X 0).Egs, M = 0) := by
  unfold Tet10.compute_tensors
  refine foldl_keeps
    (fun (acc : TOut 3 30 (QS 5)) =>
      acc.f = 0 ∧ (∀ M ∈ acc.Fgs, M = 1) ∧ (∀ M ∈ acc.Egs, M = 0))
    _ _ _ ⟨rfl, by simp, by simp⟩ ?_
  rintro acc gp hgp ⟨hf, hF, hE⟩
  simp only [Tet10.step, reshape3_zero]
  obtain ⟨h1, h2, h3⟩ :=
    tl_gauss_3d_zero_u mat (Tet10.gp_data X gp).2 ((Tet10.gp_data X gp).1 / 6) h0v
  refine ⟨?_, ?_, ?_⟩
  · rw [h3, smul_zero, hf, add_zero]
  · intro M hM
    rcases List.mem_append.1 hM with h | h
    · exact hF M h
    · rw [List.mem_singleton] at h
      rw [h, h1]
  · intro M hM
    rcases List.mem_append.1 hM with h | h
    · exact hE M h
    · rw [List.mem_singleton] at h
      rw [h, h2]

/-- Tet10 stiffness is symmetric for a symmetric material. -/
theorem Tet10_K_symm (mat : Material3D (QS 5)) (X u : Fin 30 → QS 5)
    (hS : ∀ E, ((mat.S_Sv_and_C E).1)ᵀ = (mat.S_Sv_and_C E).1)
    (hC : ∀ E, ((mat.S_Sv_and_C E).2.2)ᵀ = (mat.S_Sv_and_C E).2.2) :
    ((Tet10.compute_tensors mat X u).K)ᵀ = (Tet10.compute_tensors mat X u).K := by
  unfold Tet10.compute_tensors
  refine foldl_keeps (fun (acc : TOut 3 30 (QS 5)) => (acc.K)ᵀ = acc.K) _ _ _ (by simp) ?_
  intro acc gp hgp hK
  simp only [Tet10.step]
  rw [Matrix.transpose_add, Matrix.transpose_smul, tl_gauss_3d_Kc_symm mat _ _ _ hS hC, hK]

/-- Tet10 is objective under rigid-body translation. -/
theorem Tet10_translation (mat : Material3D (QS 5)) (X u : Fin 30 → QS 5) (c : Fin 3 → QS 5) :
    Tet10.compute_tensors mat X (translate3 (n := 10) u c) = Tet10.compute_tensors mat X u := by
  unfold Tet10.compute_tensors
  refine foldl_congr_mem _ _ _ _ ?_
  intro acc gp hgp
  simp only [Tet10.step]
  rw [reshape3_translate, tl_gauss_3d_translate]
  intro j
  have hLs : ∀ gp2 ∈ Tet10.gauss_points, gp2.1 + gp2.2.1 + gp2.2.2.1 + gp2.2.2.2.1 = 1 := by
    decide
  show ∑ i, (Tet10.gp_data X gp).2 i j = 0
  simp only [Tet10.gp_data]
  refine colsum_smul _ _ (fun j2 => ?_) j
  exact tet10_lit_colsum _ _ _ _ _ _ _ _ _ _ _ _ _ _ _ _ (hLs gp hgp)
    (cof_sum_a _ _ _ _ _ _ _ _) (cof_sum_b _ _ _ _ _ _ _ _) (cof_sum_c _ _ _ _ _ _ _ _) j2

/-- Hexa8 at zero displacement: identity `F`, zero strain, zero force at
every Gauss point. -/
theorem Hexa8_zero_u (mat : Material3D (QS 3)) (X : Fin 24 → QS 3)
    (h0v : (mat.S_Sv_and_C 0).2.1 = 0) :
    (Hexa8.compute_tensors mat X 0).f = 0 ∧
      (∀ M ∈ (Hexa8.compute_tensors mat X 0).Fgs, M = 1) ∧
      (∀ M ∈ (Hexa8.compute_tensors mat X 0).Egs, M = 0) := by
  unfold Hexa8.compute_tensors
  refine foldl_keeps
    (fun (acc : TOut 3 24 (QS 3)) =>
      acc.f = 0 ∧ (∀ M ∈ acc.Fgs, M = 1) ∧ (∀ M ∈ acc.Egs, M = 0))
    _ _ _ ⟨rfl, by simp, by simp⟩ ?_
  rintro acc gp hgp ⟨hf, hF, hE⟩
  simp only [Hexa8.step, reshape3_zero]
  obtain ⟨h1, h2, h3⟩ :=
    tl_gauss_3d_zero_u mat (Hexa8.gp_data X gp).2 (Hexa8.gp_data X gp).1 h0v
  refine ⟨?_, ?_, ?_⟩
  · rw [h3, smul_zero, hf, add_zero]
  · intro M hM
    rcases List.mem_append.1 hM with h | h
    · exact hF M h
    · rw [List.mem_singleton] at h
      rw [h, h1]
  · intro M hM
    rcases List.mem_append.1 hM with h | h
    · exact hE M h
    · rw [List.mem_singleton] at h
      rw [h, h2]

/-- Hexa8 stiffness is symmetric for a symmetric material. -/
theorem Hexa8_K_symm (mat : Material3D (QS 3)) (X u : Fin 24 → QS 3)
    (hS : ∀ E, ((mat.S_Sv_and_C E).1)ᵀ = (mat.S_Sv_and_C E).1)
    (hC : ∀ E, ((mat.S_Sv_and_C E).2.2)ᵀ = (mat.S_Sv_and_C E).2.2) :
    ((Hexa8.compute_tensors mat X u).K)ᵀ = (Hexa8.compute_tensors mat X u).K := by
  unfold Hexa8.compute_tensors
  refine foldl_keeps (fun (acc : TOut 3 24 (QS 3)) => (acc.K)ᵀ = acc.K) _ _ _ (by simp) ?_
  intro acc gp hgp hK
  simp only [Hexa8.step]
  rw [Matrix.transpose_add, Matrix.transpose_smul, tl_gauss_3d_Kc_symm mat _ _ _ hS hC, hK]

/-- Hexa8 is objective under rigid-body translation. -/
theorem Hexa8_translation (mat : Material3D (QS 3)) (X u : Fin 24 → QS 3) (c : Fin 3 → QS 3) :
    Hexa8.compute_tensors mat X (translate3 (n := 8) u c) = Hexa8.compute_tensors mat X u := by
  unfold Hexa8.compute_tensors
  refine foldl_congr_mem _ _ _ _ ?_
  intro acc gp hgp
  simp only [Hexa8.step]
  rw [reshape3_translate, tl_gauss_3d_translate]
  intro j
  have hdN : ∀ gp2 ∈ Hexa8.gauss_points, ∀ t,
      ∑ i, Hexa8.dN_dxi gp2.1 gp2.2.1 gp2.2.2.1 i t = 0 :=
    fun gp2 _ t => hexa8_dN_colsum gp2.1 gp2.2.1 gp2.2.2.1 t
  show ∑ i, (Hexa8.gp_data X gp).2 i j = 0
  simp only [Hexa8.gp_data]
  exact colsum_prod _ _ (hdN gp hgp) j

/-- Hexa20 at zero displacement: identity `F`, zero strain, zero force at
every Gauss point. -/
theorem Hexa20_zero_u (mat : Material3D (QS 15)) (X : Fin 60 → QS 15)
    (h0v : (mat.S_Sv_and_C 0).2.1 = 0) :
    (Hexa20.compute_tensors mat X 0).f = 0 ∧
      (∀ M ∈ (Hexa20.compute_tensors mat X 0).Fgs, M = 1) ∧
      (∀ M ∈ (Hexa20.compute_tensors mat X 0).Egs, M = 0) := by
  unfold Hexa20.compute_tensors
  refine foldl_keeps
    (fun (acc : TOut 3 60 (QS 15)) =>
      acc.f = 0 ∧ (∀ M ∈ acc.Fgs, M = 1) ∧ (∀ M ∈ acc.Egs, M = 0))
    _ _ _ ⟨rfl, by simp, by simp⟩ ?_
  rintro acc gp hgp ⟨hf, hF, hE⟩
  simp only [Hexa20.step, reshape3_zero]
  obtain ⟨h1, h2, h3⟩ :=
    tl_gauss_3d_zero_u mat (Hexa20.gp_data X gp).2 (Hexa20.gp_data X gp).1 h0v
  refine ⟨?_, ?_, ?_⟩
  · rw [h3, smul_zero, hf, add_zero]
  · intro M hM
    rcases List.mem_append.1 hM with h | h
    · exact hF M h
    · rw [List.mem_singleton] at h
      rw [h, h1]
  · intro M hM
    rcases List.mem_append.1 hM with h | h
    · exact hE M h
    · rw [List.mem_singleton] at h
      rw [h, h2]

/-- Hexa20 stiffness is symmetric for a symmetric material. -/
theorem Hexa20_K_symm (mat : Material3D (QS 15)) (X u : Fin 60 → QS 15)
    (hS : ∀ E, ((mat.S_Sv_and_C E).1)ᵀ = (mat.S_Sv_and_C E).1)
    (hC : ∀ E, ((mat.S_Sv_and_C E).2.2)ᵀ = (mat.S_Sv_and_C E).2.2) :
    ((Hexa20.compute_tensors mat X u).K)ᵀ = (Hexa20.compute_tensors mat X u).K := by
  unfold Hexa20.compute_tensors
  refine foldl_keeps (fun (acc : TOut 3 60 (QS 15)) => (acc.K)ᵀ = acc.K) _ _ _ (by simp) ?_
  intro acc gp hgp hK
  simp only [Hexa20.step]
  rw [Matrix.transpose_add, Matrix.transpose_smul, tl_gauss_3d_Kc_symm mat _ _ _ hS hC, hK]

/-- Hexa20 is objective under rigid-body translation. -/
theorem Hexa20_translation (mat : Material3D (QS 15)) (X u : Fin 60 → QS 15) (c : Fin 3 → QS 15) :
    Hexa20.compute_tensors mat X (translate3 (n := 20) u c) = Hexa20.compute_tensors mat X u := by
  unfold Hexa20.compute_tensors
  refine foldl_congr_mem _ _ _ _ ?_
  intro acc gp hgp
  simp only [Hexa20.step]
  rw [reshape3_translate, tl_gauss_3d_translate]
  intro j
  have hdN : ∀ gp2 ∈ Hexa20.gauss_points, ∀ t,
      ∑ i, Hexa20.dN_dxi gp2.1 gp2.2.1 gp2.2.2.1 i t = 0 :=
    fun gp2 _ t => hexa20_dN_colsum gp2.1 gp2.2.1 gp2.2.2.1 t
  show ∑ i, (Hexa20.gp_data X gp).2 i j = 0
  simp only [Hexa20.gp_data]
  exact colsum_prod _ _ (hdN gp hgp) j

/-- The Tri3 reference configuration has a non-zero Jacobian determinant. -/
theorem Xref_tri3_det : Tri3.detX Xref_tri3 ≠ 0 := by decide

/-- The Tri6 reference configuration has non-zero Jacobian determinants. -/
theorem Xref_tri6_det : ∀ dv ∈ Tri6.dets Xref_tri6, dv ≠ 0 := by decide

/-- The Quad4 reference configuration has non-zero Jacobian determinants. -/
theorem Xref_quad4_det : ∀ dv ∈ Quad4.dets Xref_quad4, dv ≠ 0 := by
  intro dv hdv
  rw [Quad4.dets] at hdv
  obtain ⟨gp, hgp, rfl⟩ := List.mem_map.1 hdv
  show (Quad4.gp_data Xref_quad4 gp).1 ≠ 0
  simp only [Quad4.gp_data]
  rw [quad4_ref_J]
  decide

/-- The Quad8 reference configuration has non-zero Jacobian determinants. -/
theorem Xref_quad8_det : ∀ dv ∈ Quad8.dets Xref_quad8, dv ≠ 0 := by
  intro dv hdv
  rw [Quad8.dets] at hdv
  obtain ⟨gp, hgp, rfl⟩ := List.mem_map.1 hdv
  show (Quad8.gp_data Xref_quad8 gp).1 ≠ 0
  simp only [Quad8.gp_data]
  rw [quad8_ref_J]
  decide

/-- The Tet4 reference configuration has a non-zero Jacobian determinant. -/
theorem Xref_tet4_det : Tet4.detX Xref_tet4 ≠ 0 := by decide

/-- The Tet10 reference configuration has non-zero Jacobian determinants. -/
theorem Xref_tet10_det : ∀ dv ∈ Tet10.dets Xref_tet10, dv ≠ 0 := by decide

/-- The Hexa8 reference configuration has non-zero Jacobian determinants. -/
theorem Xref_hexa8_det : ∀ dv ∈ Hexa8.dets Xref_hexa8, dv ≠ 0 := by
  intro dv hdv
  rw [Hexa8.dets] at hdv
  obtain ⟨gp, hgp, rfl⟩ := List.mem_map.1 hdv
  show (Hexa8.gp_data Xref_hexa8 gp).1 ≠ 0
  simp only [Hexa8.gp_data]
  rw [hexa8_ref_J]
  decide

/-- The Hexa20 reference configuration has non-zero Jacobian determinants. -/
theorem Xref_hexa20_det : ∀ dv ∈ Hexa20.dets Xref_hexa20, dv ≠ 0 := by
  intro dv hdv
  rw [Hexa20.dets] at hdv
  obtain ⟨gp, hgp, rfl⟩ := List.mem_map.1 hdv
  show (Hexa20.gp_data Xref_hexa20 gp).1 ≠ 0
  simp only [Hexa20.gp_data]
  rw [hexa20_ref_J]
  decide

end ElementLemmas

section ClaimC3

/-- C3: For every plane/solid element (Tri3, Tri6, Quad4, Quad8, Tet4,
Tet10, Hexa8, Hexa20), every reference coordinate vector with non-zero
Jacobian determinant at the quadrature points, and every material whose
constitutive law maps the zero Green-Lagrange strain to the zero stress
tensor and the zero Voigt stress, the tensor computation at zero nodal
displacement yields a deformation gradient equal to the identity and a
zero Green-Lagrange strain at every Gauss point, and a zero internal
force vector. -/
theorem C3_zero_displacement_reference_state :
    (∀ (mat : Material2D ℚ) (X : Fin 6 → ℚ), Tri3.detX X ≠ 0 →
      (mat.S_Sv_and_C_2d 0).1 = 0 → (mat.S_Sv_and_C_2d 0).2.1 = 0 →
      (Tri3.compute_tensors mat X 0).f = 0 ∧
        (∀ M ∈ (Tri3.compute_tensors mat X 0).Fgs, M = 1) ∧
        (∀ M ∈ (Tri3.compute_tensors mat X 0).Egs, M = 0)) ∧
    (∀ (mat : Material2D ℚ) (X : Fin 12 → ℚ), (∀ dv ∈ Tri6.dets X, dv ≠ 0) →
      (mat.S_Sv_and_C_2d 0).1 = 0 → (mat.S_Sv_and_C_2d 0).2.1 = 0 →
      (Tri6.compute_tensors mat X 0).f = 0 ∧
        (∀ M ∈ (Tri6.compute_tensors mat X 0).Fgs, M = 1) ∧
        (∀ M ∈ (Tri6.compute_tensors mat X 0).Egs, M = 0)) ∧
    (∀ (mat : Material2D (QS 3)) (X : Fin 8 → QS 3), (∀ dv ∈ Quad4.dets X, dv ≠ 0) →
      (mat.S_Sv_and_C_2d 0).1 = 0 → (mat.S_Sv_and_C_2d 0).2.1 = 0 →
      (Quad4.compute_tensors mat X 0).f = 0 ∧
        (∀ M ∈ (Quad4.compute_tensors mat X 0).Fgs, M = 1) ∧
        (∀ M ∈ (Quad4.compute_tensors mat X 0).Egs, M = 0)) ∧
    (∀ (mat : Material2D (QS 15)) (X : Fin 16 → QS 15), (∀ dv ∈ Quad8.dets X, dv ≠ 0) →
      (mat.S_Sv_and_C_2d 0).1 = 0 → (mat.S_Sv_and_C_2d 0).2.1 = 0 →
      (Quad8.compute_tensors mat X 0).f = 0 ∧
        (∀ M ∈ (Quad8.compute_tensors mat X 0).Fgs, M = 1) ∧
        (∀ M ∈ (Quad8.compute_tensors mat X 0).Egs, M = 0)) ∧
    (∀ (mat : Material3D ℚ) (X : Fin 12 → ℚ), Tet4.detX X ≠ 0 →
      (mat.S_Sv_and_C 0).1 = 0 → (mat.S_Sv_and_C 0).2.1 = 0 →
      (Tet4.compute_tensors mat X 0).f = 0 ∧
        (∀ M ∈ (Tet4.compute_tensors mat X 0).Fgs, M = 1) ∧
        (∀ M ∈ (Tet4.compute_tensors mat X 0).Egs, M = 0)) ∧
    (∀ (mat : Material3D (QS 5)) (X : Fin 30 → QS 5), (∀ dv ∈ Tet10.dets X, dv ≠ 0) →
      (mat.S_Sv_and_C 0).1 = 0 → (mat.S_Sv_and_C 0).2.1 = 0 →
      (Tet10.compute_tensors mat X 0).f = 0 ∧
        (∀ M ∈ (Tet10.compute_tensors mat X 0).Fgs, M = 1) ∧
        (∀ M ∈ (Tet10.compute_tensors mat X 0).Egs, M = 0)) ∧
    (∀ (mat : Material3D (QS 3)) (X : Fin 24 → QS 3), (∀ dv ∈ Hexa8.dets X, dv ≠ 0) →
      (mat.S_Sv_and_C 0).1 = 0 → (mat.S_Sv_and_C 0).2.1 = 0 →
      (Hexa8.compute_tensors mat X 0).f = 0 ∧
        (∀ M ∈ (Hexa8.compute_tensors mat X 0).Fgs, M = 1) ∧
        (∀ M ∈ (Hexa8.compute_tensors mat X 0).Egs, M = 0)) ∧
    (∀ (mat : Material3D (QS 15)) (X : Fin 60 → QS 15), (∀ dv ∈ Hexa20.dets X, dv ≠ 0) →
      (mat.S_Sv_and_C 0).1 = 0 → (mat.S_Sv_and_C 0).2.1 = 0 →
      (Hexa20.compute_tensors mat X 0).f = 0 ∧
        (∀ M ∈ (Hexa20.compute_tensors mat X 0).Fgs, M = 1) ∧
        (∀ M ∈ (Hexa20.compute_tensors mat X 0).Egs, M = 0)) :=
  ⟨fun mat X _ _ h0v => Tri3_zero_u mat X h0v,
   fun mat X _ _ h0v => Tri6_zero_u mat X h0v,
   fun mat X _ _ h0v => Quad4_zero_u mat X h0v,
   fun mat X _ _ h0v => Quad8_zero_u mat X h0v,
   fun mat X _ _ h0v => Tet4_zero_u mat X h0v,
   fun mat X _ _ h0v => Tet10_zero_u mat X h0v,
   fun mat X _ _ h0v => Hexa8_zero_u mat X h0v,
   fun mat X _ _ h0v => Hexa20_zero_u mat X h0v⟩

/-- Witness for C3: concrete reference configurations (unit triangle,
quadratic triangle with midside nodes, reference square/cube, unit
tetrahedra) with the zero material; all Jacobians are non-degenerate and
the conclusions follow from `C3_zero_displacement_reference_state`. -/
theorem C3_zero_displacement_reference_state_witness :
    (Tri3.detX Xref_tri3 ≠ 0 ∧
      (Tri3.compute_tensors (zmat2 ℚ) Xref_tri3 0).f = 0) ∧
    ((∀ dv ∈ Tri6.dets Xref_tri6, dv ≠ 0) ∧
      (Tri6.compute_tensors (zmat2 ℚ) Xref_tri6 0).f = 0) ∧
    ((∀ dv ∈ Quad4.dets Xref_quad4, dv ≠ 0) ∧
      (Quad4.compute_tensors (zmat2 (QS 3)) Xref_quad4 0).f = 0) ∧
    ((∀ dv ∈ Quad8.dets Xref_quad8, dv ≠ 0) ∧
      (Quad8.compute_tensors (zmat2 (QS 15)) Xref_quad8 0).f = 0) ∧
    (Tet4.detX Xref_tet4 ≠ 0 ∧
      (Tet4.compute_tensors (zmat3 ℚ) Xref_tet4 0).f = 0) ∧
    ((∀ dv ∈ Tet10.dets Xref_tet10, dv ≠ 0) ∧
      (Tet10.compute_tensors (zmat3 (QS 5)) Xref_tet10 0).f = 0) ∧
    ((∀ dv ∈ Hexa8.dets Xref_hexa8, dv ≠ 0) ∧
      (Hexa8.compute_tensors (zmat3 (QS 3)) Xref_hexa8 0).f = 0) ∧
    ((∀ dv ∈ Hexa20.dets Xref_hexa20, dv ≠ 0) ∧
      (Hexa20.compute_tensors (zmat3 (QS 15)) Xref_hexa20 0).f = 0) :=
  ⟨⟨Xref_tri3_det, (C3_zero_displacement_reference_state.1 _ _ Xref_tri3_det rfl rfl).1⟩,
   ⟨Xref_tri6_det, (C3_zero_displacement_reference_state.2.1 _ _ Xref_tri6_det rfl rfl).1⟩,
   ⟨Xref_quad4_det, (C3_zero_displacement_reference_state.2.2.1 _ _ Xref_quad4_det rfl rfl).1⟩,
   ⟨Xref_quad8_det, (C3_zero_displacement_reference_state.2.2.2.1 _ _ Xref_quad8_det rfl rfl).1⟩,
   ⟨Xref_tet4_det,
     (C3_zero_displacement_reference_state.2.2.2.2.1 _ _ Xref_tet4_det rfl rfl).1⟩,
   ⟨Xref_tet10_det,
     (C3_zero_displacement_reference_state.2.2.2.2.2.1 _ _ Xref_tet10_det rfl rfl).1⟩,
   ⟨Xref_hexa8_det,
     (C3_zero_displacement_reference_state.2.2.2.2.2.2.1 _ _ Xref_hexa8_det rfl rfl).1⟩,
   ⟨Xref_hexa20_det,
     (C3_zero_displacement_reference_state.2.2.2.2.2.2.2 _ _ Xref_hexa20_det rfl rfl).1⟩⟩

end ClaimC3

section ClaimC4

/-- Whenever the bar evaluation succeeds, the returned stiffness and mass
matrices are exactly symmetric (by the explicit `0.5·(A + Aᵀ)` step). -/
theorem Bar2Dlumped_km_symm (b : Bar2Dlumped) (X u : Fin 4 → ℚ) (t : ℚ) :
    match Bar2Dlumped.k_and_m_int b X u t with
    | .ok r => (r.2.1)ᵀ = r.2.1 ∧ (r.2.2)ᵀ = r.2.2
    | .error _ => True := by
  unfold Bar2Dlumped.k_and_m_int
  cases b.e_modul with
  | none => trivial
  | some e =>
    cases b.crosssec with
    | none => trivial
    | some a =>
      cases b.rho with
      | none => trivial
      | some rho =>
        refine ⟨?_, ?_⟩ <;>
          rw [Matrix.transpose_smul, Matrix.transpose_add, Matrix.transpose_transpose, add_comm]

/-- C4: For every plane/solid element, every nodal state with non-zero
Jacobian determinant(s), and every material returning a symmetric stress
tensor and a symmetric tangent modulus, the computed tangential stiffness
matrix is exactly symmetric; for `Bar2Dlumped`, the explicit
symmetrization `0.5·(A + Aᵀ)` makes the returned stiffness and mass
matrices symmetric whenever the evaluation succeeds. -/
theorem C4_stiffness_symmetric :
    (∀ (mat : Material2D ℚ) (X u : Fin 6 → ℚ), Tri3.detX X ≠ 0 →
      (∀ E, ((mat.S_Sv_and_C_2d E).1)ᵀ = (mat.S_Sv_and_C_2d E).1) →
      (∀ E, ((mat.S_Sv_and_C_2d E).2.2)ᵀ = (mat.S_Sv_and_C_2d E).2.2) →
      ((Tri3.compute_tensors mat X u).K)ᵀ = (Tri3.compute_tensors mat X u).K) ∧
    (∀ (mat : Material2D ℚ) (X u : Fin 12 → ℚ), (∀ dv ∈ Tri6.dets X, dv ≠ 0) →
      (∀ E, ((mat.S_Sv_and_C_2d E).1)ᵀ = (mat.S_Sv_and_C_2d E).1) →
      (∀ E, ((mat.S_Sv_and_C_2d E).2.2)ᵀ = (mat.S_Sv_and_C_2d E).2.2) →
      ((Tri6.compute_tensors mat X u).K)ᵀ = (Tri6.compute_tensors mat X u).K) ∧
    (∀ (mat : Material2D (QS 3)) (X u : Fin 8 → QS 3), (∀ dv ∈ Quad4.dets X, dv ≠ 0) →
      (∀ E, ((mat.S_Sv_and_C_2d E).1)ᵀ = (mat.S_Sv_and_C_2d E).1) →
      (∀ E, ((mat.S_Sv_and_C_2d E).2.2)ᵀ = (mat.S_Sv_and_C_2d E).2.2) →
      ((Quad4.compute_tensors mat X u).K)ᵀ = (Quad4.compute_tensors mat X u).K) ∧
    (∀ (mat : Material2D (QS 15)) (X u : Fin 16 → QS 15), (∀ dv ∈ Quad8.dets X, dv ≠ 0) →
      (∀ E, ((mat.S_Sv_and_C_2d E).1)ᵀ = (mat.S_Sv_and_C_2d E).1) →
      (∀ E, ((mat.S_Sv_and_C_2d E).2.2)ᵀ = (mat.S_Sv_and_C_2d E).2.2) →
      ((Quad8.compute_tensors mat X u).K)ᵀ = (Quad8.compute_tensors mat X u).K) ∧
    (∀ (mat : Material3D ℚ) (X u : Fin 12 → ℚ), Tet4.detX X ≠ 0 →
      (∀ E, ((mat.S_Sv_and_C E).1)ᵀ = (mat.S_Sv_and_C E).1) →
      (∀ E, ((mat.S_Sv_and_C E).2.2)ᵀ = (mat.S_Sv_and_C E).2.2) →
      ((Tet4.compute_tensors mat X u).K)ᵀ = (Tet4.compute_tensors mat X u).K) ∧
    (∀ (mat : Material3D (QS 5)) (X u : Fin 30 → QS 5), (∀ dv ∈ Tet10.dets X, dv ≠ 0) →
      (∀ E, ((mat.S_Sv_and_C E).1)ᵀ = (mat.S_Sv_and_C E).1) →
      (∀ E, ((mat.S_Sv_and_C E).2.2)ᵀ = (mat.S_Sv_and_C E).2.2) →
      ((Tet10.compute_tensors mat X u).K)ᵀ = (Tet10.compute_tensors mat X u).K) ∧
    (∀ (mat : Material3D (QS 3)) (X u : Fin 24 → QS 3), (∀ dv ∈ Hexa8.dets X, dv ≠ 0) →
      (∀ E, ((mat.S_Sv_and_C E).1)ᵀ = (mat.S_Sv_and_C E).1) →
      (∀ E, ((mat.S_Sv_and_C E).2.2)ᵀ = (mat.S_Sv_and_C E).2.2) →
      ((Hexa8.compute_tensors mat X u).K)ᵀ = (Hexa8.compute_tensors mat X u).K) ∧
    (∀ (mat : Material3D (QS 15)) (X u : Fin 60 → QS 15), (∀ dv ∈ Hexa20.dets X, dv ≠ 0) →
      (∀ E, ((mat.S_Sv_and_C E).1)ᵀ = (mat.S_Sv_and_C E).1) →
      (∀ E, ((mat.S_Sv_and_C E).2.2)ᵀ = (mat.S_Sv_and_C E).2.2) →
      ((Hexa20.compute_tensors mat X u).K)ᵀ = (Hexa20.compute_tensors mat X u).K) ∧
    (∀ (b : Bar2Dlumped) (X u : Fin 4 → ℚ) (t : ℚ),
      match Bar2Dlumped.k_and_m_int b X u t with
      | .ok r => (r.2.1)ᵀ = r.2.1 ∧ (r.2.2)ᵀ = r.2.2
      | .error _ => True) :=
  ⟨fun mat X u _ hS hC => Tri3_K_symm mat X u hS hC,
   fun mat X u _ hS hC => Tri6_K_symm mat X u hS hC,
   fun mat X u _ hS hC => Quad4_K_symm mat X u hS hC,
   fun mat X u _ hS hC => Quad8_K_symm mat X u hS hC,
   fun mat X u _ hS hC => Tet4_K_symm mat X u hS hC,
   fun mat X u _ hS hC => Tet10_K_symm mat X u hS hC,
   fun mat X u _ hS hC => Hexa8_K_symm mat X u hS hC,
   fun mat X u _ hS hC => Hexa20_K_symm mat X u hS hC,
   fun b X u t => Bar2Dlumped_km_symm b X u t⟩

/-- Witness for C4: the reference configurations with the zero material
(symmetric stress and modulus), and a set-up bar on a length-5 segment. -/
theorem C4_stiffness_symmetric_witness :
    (Tri3.detX Xref_tri3 ≠ 0 ∧
      ((Tri3.compute_tensors (zmat2 ℚ) Xref_tri3 0).K)ᵀ =
        (Tri3.compute_tensors (zmat2 ℚ) Xref_tri3 0).K) ∧
    ((∀ dv ∈ Tri6.dets Xref_tri6, dv ≠ 0) ∧
      ((Tri6.compute_tensors (zmat2 ℚ) Xref_tri6 0).K)ᵀ =
        (Tri6.compute_tensors (zmat2 ℚ) Xref_tri6 0).K) ∧
    ((∀ dv ∈ Quad4.dets Xref_quad4, dv ≠ 0) ∧
      ((Quad4.compute_tensors (zmat2 (QS 3)) Xref_quad4 0).K)ᵀ =
        (Quad4.compute_tensors (zmat2 (QS 3)) Xref_quad4 0).K) ∧
    ((∀ dv ∈ Quad8.dets Xref_quad8, dv ≠ 0) ∧
      ((Quad8.compute_tensors (zmat2 (QS 15)) Xref_quad8 0).K)ᵀ =
        (Quad8.compute_tensors (zmat2 (QS 15)) Xref_quad8 0).K) ∧
    (Tet4.detX Xref_tet4 ≠ 0 ∧
      ((Tet4.compute_tensors (zmat3 ℚ) Xref_tet4 0).K)ᵀ =
        (Tet4.compute_tensors (zmat3 ℚ) Xref_tet4 0).K) ∧
    ((∀ dv ∈ Tet10.dets Xref_tet10, dv ≠ 0) ∧
      ((Tet10.compute_tensors (zmat3 (QS 5)) Xref_tet10 0).K)ᵀ =
        (Tet10.compute_tensors (zmat3 (QS 5)) Xref_tet10 0).K) ∧
    ((∀ dv ∈ Hexa8.dets Xref_hexa8, dv ≠ 0) ∧
      ((Hexa8.compute_tensors (zmat3 (QS 3)) Xref_hexa8 0).K)ᵀ =
        (Hexa8.compute_tensors (zmat3 (QS 3)) Xref_hexa8 0).K) ∧
    ((∀ dv ∈ Hexa20.dets Xref_hexa20, dv ≠ 0) ∧
      ((Hexa20.compute_tensors (zmat3 (QS 15)) Xref_hexa20 0).K)ᵀ =
        (Hexa20.compute_tensors (zmat3 (QS 15)) Xref_hexa20 0).K) ∧
    (match Bar2Dlumped.k_and_m_int ((Bar2Dlumped.init ⟨2, 3, 5⟩).foo) ![0, 0, 3, 4] 0 0 with
      | .ok r => (r.2.1)ᵀ = r.2.1 ∧ (r.2.2)ᵀ = r.2.2
      | .error _ => True) :=
  ⟨⟨Xref_tri3_det, C4_stiffness_symmetric.1 _ _ 0 Xref_tri3_det
      (fun E => rfl) (fun E => rfl)⟩,
   ⟨Xref_tri6_det, C4_stiffness_symmetric.2.1 _ _ 0 Xref_tri6_det
      (fun E => rfl) (fun E => rfl)⟩,
   ⟨Xref_quad4_det, C4_stiffness_symmetric.2.2.1 _ _ 0 Xref_quad4_det
      (fun E => rfl) (fun E => rfl)⟩,
   ⟨Xref_quad8_det, C4_stiffness_symmetric.2.2.2.1 _ _ 0 Xref_quad8_det
      (fun E => rfl) (fun E => rfl)⟩,
   ⟨Xref_tet4_det, C4_stiffness_symmetric.2.2.2.2.1 _ _ 0 Xref_tet4_det
      (fun E => rfl) (fun E => rfl)⟩,
   ⟨Xref_tet10_det, C4_stiffness_symmetric.2.2.2.2.2.1 _ _ 0 Xref_tet10_det
      (fun E => rfl) (fun E => rfl)⟩,
   ⟨Xref_hexa8_det, C4_stiffness_symmetric.2.2.2.2.2.2.1 _ _ 0 Xref_hexa8_det
      (fun E => rfl) (fun E => rfl)⟩,
   ⟨Xref_hexa20_det, C4_stiffness_symmetric.2.2.2.2.2.2.2.1 _ _ 0 Xref_hexa20_det
      (fun E => rfl) (fun E => rfl)⟩,
   C4_stiffness_symmetric.2.2.2.2.2.2.2.2 _ ![0, 0, 3, 4] 0 0⟩

end ClaimC4

section ClaimC5

/-- C5: For every plane/solid element, every reference configuration with
non-zero Jacobian determinant(s), every displacement `u` and every
constant translation `c` added to all nodes, the Green-Lagrange strains
at the Gauss points and the internal force vector are unchanged
(objectivity under rigid-body translation). -/
theorem C5_translation_objectivity :
    (∀ (mat : Material2D ℚ) (X u : Fin 6 → ℚ) (c : Fin 2 → ℚ), Tri3.detX X ≠ 0 →
      (Tri3.compute_tensors mat X (translate2 (n := 3) u c)).Egs =
        (Tri3.compute_tensors mat X u).Egs ∧
      (Tri3.compute_tensors mat X (translate2 (n := 3) u c)).f =
        (Tri3.compute_tensors mat X u).f) ∧
    (∀ (mat : Material2D ℚ) (X u : Fin 12 → ℚ) (c : Fin 2 → ℚ),
      (∀ dv ∈ Tri6.dets X, dv ≠ 0) →
      (Tri6.compute_tensors mat X (translate2 (n := 6) u c)).Egs =
        (Tri6.compute_tensors mat X u).Egs ∧
      (Tri6.compute_tensors mat X (translate2 (n := 6) u c)).f =
        (Tri6.compute_tensors mat X u).f) ∧
    (∀ (mat : Material2D (QS 3)) (X u : Fin 8 → QS 3) (c : Fin 2 → QS 3),
      (∀ dv ∈ Quad4.dets X, dv ≠ 0) →
      (Quad4.compute_tensors mat X (translate2 (n := 4) u c)).Egs =
        (Quad4.compute_tensors mat X u).Egs ∧
      (Quad4.compute_tensors mat X (translate2 (n := 4) u c)).f =
        (Quad4.compute_tensors mat X u).f) ∧
    (∀ (mat : Material2D (QS 15)) (X u : Fin 16 → QS 15) (c : Fin 2 → QS 15),
      (∀ dv ∈ Quad8.dets X, dv ≠ 0) →
      (Quad8.compute_tensors mat X (translate2 (n := 8) u c)).Egs =
        (Quad8.compute_tensors mat X u).Egs ∧
      (Quad8.compute_tensors mat X (translate2 (n := 8) u c)).f =
        (Quad8.compute_tensors mat X u).f) ∧
    (∀ (mat : Material3D ℚ) (X u : Fin 12 → ℚ) (c : Fin 3 → ℚ), Tet4.detX X ≠ 0 →
      (Tet4.compute_tensors mat X (translate3 (n := 4) u c)).Egs =
        (Tet4.compute_tensors mat X u).Egs ∧
      (Tet4.compute_tensors mat X (translate3 (n := 4) u c)).f =
        (Tet4.compute_tensors mat X u).f) ∧
    (∀ (mat : Material3D (QS 5)) (X u : Fin 30 → QS 5) (c : Fin 3 → QS 5),
      (∀ dv ∈ Tet10.dets X, dv ≠ 0) →
      (Tet10.compute_tensors mat X (translate3 (n := 10) u c)).Egs =
        (Tet10.compute_tensors mat X u).Egs ∧
      (Tet10.compute_tensors mat X (translate3 (n := 10) u c)).f =
        (Tet10.compute_tensors mat X u).f) ∧
    (∀ (mat : Material3D (QS 3)) (X u : Fin 24 → QS 3) (c : Fin 3 → QS 3),
      (∀ dv ∈ Hexa8.dets X, dv ≠ 0) →
      (Hexa8.compute_tensors mat X (translate3 (n := 8) u c)).Egs =
        (Hexa8.compute_tensors mat X u).Egs ∧
      (Hexa8.compute_tensors mat X (translate3 (n := 8) u c)).f =
        (Hexa8.compute_tensors mat X u).f) ∧
    (∀ (mat : Material3D (QS 15)) (X u : Fin 60 → QS 15) (c : Fin 3 → QS 15),
      (∀ dv ∈ Hexa20.dets X, dv ≠ 0) →
      (Hexa20.compute_tensors mat X (translate3 (n := 20) u c)).Egs =
        (Hexa20.compute_tensors mat X u).Egs ∧
      (Hexa20.compute_tensors mat X (translate3 (n := 20) u c)).f =
        (Hexa20.compute_tensors mat X u).f) :=
  ⟨fun mat X u c _ => ⟨congrArg TOut.Egs (Tri3_translation mat X u c),
      congrArg TOut.f (Tri3_translation mat X u c)⟩,
   fun mat X u c _ => ⟨congrArg TOut.Egs (Tri6_translation mat X u c),
      congrArg TOut.f (Tri6_translation mat X u c)⟩,
   fun mat X u c _ => ⟨congrArg TOut.Egs (Quad4_translation mat X u c),
      congrArg TOut.f (Quad4_translation mat X u c)⟩,
   fun mat X u c _ => ⟨congrArg TOut.Egs (Quad8_translation mat X u c),
      congrArg TOut.f (Quad8_translation mat X u c)⟩,
   fun mat X u c _ => ⟨congrArg TOut.Egs (Tet4_translation mat X u c),
      congrArg TOut.f (Tet4_translation mat X u c)⟩,
   fun mat X u c _ => ⟨congrArg TOut.Egs (Tet10_translation mat X u c),
      congrArg TOut.f (Tet10_translation mat X u c)⟩,
   fun mat X u c _ => ⟨congrArg TOut.Egs (Hexa8_translation mat X u c),
      congrArg TOut.f (Hexa8_translation mat X u c)⟩,
   fun mat X u c _ => ⟨congrArg TOut.Egs (Hexa20_translation mat X u c),
      congrArg TOut.f (Hexa20_translation mat X u c)⟩⟩

/-- Witness for C5: the reference configurations, zero material, zero
displacement and the all-ones translation. -/
theorem C5_translation_objectivity_witness :
    (Tri3.detX Xref_tri3 ≠ 0 ∧
      (Tri3.compute_tensors (zmat2 ℚ) Xref_tri3 (translate2 (n := 3) 0 1)).f =
        (Tri3.compute_tensors (zmat2 ℚ) Xref_tri3 0).f) ∧
    ((∀ dv ∈ Tri6.dets Xref_tri6, dv ≠ 0) ∧
      (Tri6.compute_tensors (zmat2 ℚ) Xref_tri6 (translate2 (n := 6) 0 1)).f =
        (Tri6.compute_tensors (zmat2 ℚ) Xref_tri6 0).f) ∧
    ((∀ dv ∈ Quad4.dets Xref_quad4, dv ≠ 0) ∧
      (Quad4.compute_tensors (zmat2 (QS 3)) Xref_quad4 (translate2 (n := 4) 0 1)).f =
        (Quad4.compute_tensors (zmat2 (QS 3)) Xref_quad4 0).f) ∧
    ((∀ dv ∈ Quad8.dets Xref_quad8, dv ≠ 0) ∧
      (Quad8.compute_tensors (zmat2 (QS 15)) Xref_quad8 (translate2 (n := 8) 0 1)).f =
        (Quad8.compute_tensors (zmat2 (QS 15)) Xref_quad8 0).f) ∧
    (Tet4.detX Xref_tet4 ≠ 0 ∧
      (Tet4.compute_tensors (zmat3 ℚ) Xref_tet4 (translate3 (n := 4) 0 1)).f =
        (Tet4.compute_tensors (zmat3 ℚ) Xref_tet4 0).f) ∧
    ((∀ dv ∈ Tet10.dets Xref_tet10, dv ≠ 0) ∧
      (Tet10.compute_tensors (zmat3 (QS 5)) Xref_tet10 (translate3 (n := 10) 0 1)).f =
        (Tet10.compute_tensors (zmat3 (QS 5)) Xref_tet10 0).f) ∧
    ((∀ dv ∈ Hexa8.dets Xref_hexa8, dv ≠ 0) ∧
      (Hexa8.compute_tensors (zmat3 (QS 3)) Xref_hexa8 (translate3 (n := 8) 0 1)).f =
        (Hexa8.compute_tensors (zmat3 (QS 3)) Xref_hexa8 0).f) ∧
    ((∀ dv ∈ Hexa20.dets Xref_hexa20, dv ≠ 0) ∧
      (Hexa20.compute_tensors (zmat3 (QS 15)) Xref_hexa20 (translate3 (n := 20) 0 1)).f =
        (Hexa20.compute_tensors (zmat3 (QS 15)) Xref_hexa20 0).f) :=
  ⟨⟨Xref_tri3_det, (C5_translation_objectivity.1 _ _ 0 1 Xref_tri3_det).2⟩,
   ⟨Xref_tri6_det, (C5_translation_objectivity.2.1 _ _ 0 1 Xref_tri6_det).2⟩,
   ⟨Xref_quad4_det, (C5_translation_objectivity.2.2.1 _ _ 0 1 Xref_quad4_det).2⟩,
   ⟨Xref_quad8_det, (C5_translation_objectivity.2.2.2.1 _ _ 0 1 Xref_quad8_det).2⟩,
   ⟨Xref_tet4_det, (C5_translation_objectivity.2.2.2.2.1 _ _ 0 1 Xref_tet4_det).2⟩,
   ⟨Xref_tet10_det, (C5_translation_objectivity.2.2.2.2.2.1 _ _ 0 1 Xref_tet10_det).2⟩,
   ⟨Xref_hexa8_det, (C5_translation_objectivity.2.2.2.2.2.2.1 _ _ 0 1 Xref_hexa8_det).2⟩,
   ⟨Xref_hexa20_det, (C5_translation_objectivity.2.2.2.2.2.2.2 _ _ 0 1 Xref_hexa20_det).2⟩⟩

end ClaimC5

section ClaimC6

/-- Dof index bound for the scattered matrix. -/
theorem mul_add_lt {n ndim i k : ℕ} (hi : i < n) (hk : k < ndim) : ndim * i + k < n * ndim :=
  calc ndim * i + k < ndim * (i + 1) := by rw [Nat.mul_succ]; omega
  _ ≤ ndim * n := Nat.mul_le_mul_left _ hi
  _ = n * ndim := Nat.mul_comm _ _

/-- C6: `scatter_matrix(Mat, ndim)` of an `n×n` matrix is the
`(n·ndim)×(n·ndim)` matrix (the size is enforced by its type) whose entry
at row `ndim·i+k`, column `ndim·j+l` (`k, l < ndim`) equals `Mat[i,j]`
when `k = l` and `0` otherwise: each `(i,j)` block is `Mat[i,j]` times the
`ndim×ndim` identity. -/
theorem C6_scatter_matrix_blocks {n : ℕ} (Mat : Matrix (Fin n) (Fin n) ℚ) (ndim : ℕ)
    (i j k l : ℕ) (hi : i < n) (hj : j < n) (hk : k < ndim) (hl : l < ndim) :
    scatter_matrix Mat ndim ⟨ndim * i + k, mul_add_lt hi hk⟩ ⟨ndim * j + l, mul_add_lt hj hl⟩ =
      if k = l then Mat ⟨i, hi⟩ ⟨j, hj⟩ else 0 := by
  have hnd : 0 < ndim := by omega
  have hmod1 : (ndim * i + k) % ndim = k := by
    rw [Nat.mul_add_mod]
    exact Nat.mod_eq_of_lt hk
  have hmod2 : (ndim * j + l) % ndim = l := by
    rw [Nat.mul_add_mod]
    exact Nat.mod_eq_of_lt hl
  have hdiv1 : (ndim * i + k) / ndim = i := by
    rw [Nat.mul_add_div hnd, Nat.div_eq_of_lt hk, Nat.add_zero]
  have hdiv2 : (ndim * j + l) / ndim = j := by
    rw [Nat.mul_add_div hnd, Nat.div_eq_of_lt hl, Nat.add_zero]
  simp only [scatter_matrix, Matrix.of_apply, hmod1, hmod2]
  by_cases hkl : k = l
  · rw [if_pos hkl, if_pos hkl]
    congr 1 <;> exact Fin.ext (by simp [hdiv1, hdiv2])
  · rw [if_neg hkl, if_neg hkl]

/-- Witness for C6: a concrete 2×2 matrix scattered with `ndim = 3`,
checked at an on-diagonal and an off-diagonal block entry. -/
theorem C6_scatter_matrix_blocks_witness :
    ((0 : ℕ) < 2 ∧ (1 : ℕ) < 2 ∧ (2 : ℕ) < 3 ∧ (1 : ℕ) < 3) ∧
    scatter_matrix (Matrix.of ![![(1 : ℚ), 2], ![3, 4]]) 3
        ⟨3 * 0 + 2, mul_add_lt (by omega) (by omega)⟩
        ⟨3 * 1 + 2, mul_add_lt (by omega) (by omega)⟩ =
      (if (2 : ℕ) = 2 then Matrix.of ![![(1 : ℚ), 2], ![3, 4]] ⟨0, by omega⟩ ⟨1, by omega⟩ else 0) ∧
    scatter_matrix (Matrix.of ![![(1 : ℚ), 2], ![3, 4]]) 3
        ⟨3 * 0 + 2, mul_add_lt (by omega) (by omega)⟩
        ⟨3 * 1 + 1, mul_add_lt (by omega) (by omega)⟩ =
      (if (2 : ℕ) = 1 then Matrix.of ![![(1 : ℚ), 2], ![3, 4]] ⟨0, by omega⟩ ⟨1, by omega⟩ else 0) :=
  ⟨⟨by omega, by omega, by omega, by omega⟩,
   C6_scatter_matrix_blocks _ 3 0 1 2 2 (by omega) (by omega) (by omega) (by omega),
   C6_scatter_matrix_blocks _ 3 0 1 2 1 (by omega) (by omega) (by omega) (by omega)⟩

end ClaimC6

section ClaimC10

/-- C10: Every stiffness/force/mass evaluation of a freshly constructed
`Bar2Dlumped` fails with the attribute error on `e_modul` (the first of
the parameters that only `foo` assigns from the material); after one call
to `foo`, every evaluation succeeds, in particular for every `X` with
non-zero length between the two nodes. -/
theorem C10_bar_foo_required :
    (∀ (m : BarMaterial) (X u : Fin 4 → ℚ) (t : ℚ),
      Bar2Dlumped.k_and_f_int (Bar2Dlumped.init m) X u t = .error "AttributeError: e_modul" ∧
      Bar2Dlumped.k_int (Bar2Dlumped.init m) X u t = .error "AttributeError: e_modul" ∧
      Bar2Dlumped.f_int (Bar2Dlumped.init m) X u t = .error "AttributeError: e_modul" ∧
      Bar2Dlumped.m_int (Bar2Dlumped.init m) X u t = .error "AttributeError: e_modul") ∧
    (∀ (m : BarMaterial) (X u : Fin 4 → ℚ) (t : ℚ),
      (X 2 - X 0) ^ 2 + (X 3 - X 1) ^ 2 ≠ 0 →
      (Bar2Dlumped.k_and_f_int ((Bar2Dlumped.init m).foo) X u t).isOk = true ∧
      (Bar2Dlumped.k_int ((Bar2Dlumped.init m).foo) X u t).isOk = true ∧
      (Bar2Dlumped.f_int ((Bar2Dlumped.init m).foo) X u t).isOk = true ∧
      (Bar2Dlumped.m_int ((Bar2Dlumped.init m).foo) X u t).isOk = true) :=
  ⟨fun _ _ _ _ => ⟨rfl, rfl, rfl, rfl⟩,
   fun _ _ _ _ _ => ⟨rfl, rfl, rfl, rfl⟩⟩

/-- Witness for C10: a bar from `(0,0)` to `(3,4)` (squared length 25). -/
theorem C10_bar_foo_required_witness :
    ((![0, 0, 3, 4] : Fin 4 → ℚ) 2 - ![0, 0, 3, 4] 0) ^ 2 +
        ((![0, 0, 3, 4] : Fin 4 → ℚ) 3 - ![0, 0, 3, 4] 1) ^ 2 ≠ 0 ∧
    (Bar2Dlumped.k_and_f_int (Bar2Dlumped.init ⟨2, 3, 5⟩) ![0, 0, 3, 4] 0 0 =
      .error "AttributeError: e_modul") ∧
    (Bar2Dlumped.m_int ((Bar2Dlumped.init ⟨2, 3, 5⟩).foo) ![0, 0, 3, 4] 0 0).isOk = true :=
  ⟨by decide,
   (C10_bar_foo_required.1 ⟨2, 3, 5⟩ ![0, 0, 3, 4] 0 0).1,
   (C10_bar_foo_required.2 ⟨2, 3, 5⟩ ![0, 0, 3, 4] 0 0 (by decide)).2.2.2⟩

end ClaimC10

section ClaimC7

/-- C7: The `ECSWSystem` operator accessors `K_and_f`, `K`, `f_int` fail
(with the `ValueError` of the source, the spec's InvalidConfiguration)
exactly when the configured assembly strategy is neither `"direct"` nor
`"indirect"`; with `"direct"` they dispatch to the direct hyper-reduced
assembly, with `"indirect"` to the no-inplace one, and an absent `u`
defaults to the zero vector of generalized-coordinate size. -/
theorem C7_operator_dispatch {κ φ : Type}
    (hyper hyper_no_inplace :
      List (List ℚ) → Option (List ℕ) → Option (List ℚ) → List ℚ → ℚ → κ × φ) :
    (∀ (sys : ECSWSystem) (u : Option (List ℚ)) (t : ℚ),
      ((∃ e, ECSWSystem.K_and_f hyper hyper_no_inplace sys u t = .error e) ↔
        sys.assembly_type ≠ "direct" ∧ sys.assembly_type ≠ "indirect") ∧
      ((∃ e, ECSWSystem.K hyper hyper_no_inplace sys u t = .error e) ↔
        sys.assembly_type ≠ "direct" ∧ sys.assembly_type ≠ "indirect") ∧
      ((∃ e, ECSWSystem.f_int hyper hyper_no_inplace sys u t = .error e) ↔
        sys.assembly_type ≠ "direct" ∧ sys.assembly_type ≠ "indirect")) ∧
    (∀ (sys : ECSWSystem) (v : List ℚ) (t : ℚ), sys.assembly_type = "direct" →
      ECSWSystem.K_and_f hyper hyper_no_inplace sys (some v) t =
        .ok (hyper sys.V_unconstr sys.weight_idx sys.weights v t) ∧
      ECSWSystem.K hyper hyper_no_inplace sys (some v) t =
        .ok (hyper sys.V_unconstr sys.weight_idx sys.weights v t).1 ∧
      ECSWSystem.f_int hyper hyper_no_inplace sys (some v) t =
        .ok (hyper sys.V_unconstr sys.weight_idx sys.weights v t).2) ∧
    (∀ (sys : ECSWSystem) (v : List ℚ) (t : ℚ), sys.assembly_type = "indirect" →
      ECSWSystem.K_and_f hyper hyper_no_inplace sys (some v) t =
        .ok (hyper_no_inplace sys.V_unconstr sys.weight_idx sys.weights v t) ∧
      ECSWSystem.K hyper hyper_no_inplace sys (some v) t =
        .ok (hyper_no_inplace sys.V_unconstr sys.weight_idx sys.weights v t).1 ∧
      ECSWSystem.f_int hyper hyper_no_inplace sys (some v) t =
        .ok (hyper_no_inplace sys.V_unconstr sys.weight_idx sys.weights v t).2) ∧
    (∀ (sys : ECSWSystem) (t : ℚ),
      ECSWSystem.K_and_f hyper hyper_no_inplace sys none t =
        ECSWSystem.K_and_f hyper hyper_no_inplace sys
          (some (List.replicate sys.V_cols 0)) t ∧
      ECSWSystem.K hyper hyper_no_inplace sys none t =
        ECSWSystem.K hyper hyper_no_inplace sys (some (List.replicate sys.V_cols 0)) t ∧
      ECSWSystem.f_int hyper hyper_no_inplace sys none t =
        ECSWSystem.f_int hyper hyper_no_inplace sys
          (some (List.replicate sys.V_cols 0)) t) := by
  refine ⟨fun sys u t => ⟨?_, ?_, ?_⟩, fun sys v t h => ⟨?_, ?_, ?_⟩,
    fun sys v t h => ⟨?_, ?_, ?_⟩, fun sys t => ⟨rfl, rfl, rfl⟩⟩
  · unfold ECSWSystem.K_and_f
    by_cases h1 : sys.assembly_type = "direct"
    · simp [h1]
    · by_cases h2 : sys.assembly_type = "indirect" <;> simp [h1, h2]
  · unfold ECSWSystem.K
    by_cases h1 : sys.assembly_type = "direct"
    · simp [h1]
    · by_cases h2 : sys.assembly_type = "indirect" <;> simp [h1, h2]
  · unfold ECSWSystem.f_int
    by_cases h1 : sys.assembly_type = "direct"
    · simp [h1]
    · by_cases h2 : sys.assembly_type = "indirect" <;> simp [h1, h2]
  · unfold ECSWSystem.K_and_f
    simp [h]
  · unfold ECSWSystem.K
    simp [h]
  · unfold ECSWSystem.f_int
    simp [h]
  · unfold ECSWSystem.K_and_f
    simp [h]
  · unfold ECSWSystem.K
    simp [h]
  · unfold ECSWSystem.f_int
    simp [h]

/-- Witness for C7: concrete systems with each of the three strategy
strings and constant assembly engines. -/
theorem C7_operator_dispatch_witness :
    ((⟨2, [], none, none, "typo"⟩ : ECSWSystem).assembly_type ≠ "direct" ∧
      (⟨2, [], none, none, "typo"⟩ : ECSWSystem).assembly_type ≠ "indirect") ∧
    (∃ e, ECSWSystem.K_and_f (fun _ _ _ _ _ => ((0 : ℚ), (0 : ℚ)))
      (fun _ _ _ _ _ => ((0 : ℚ), (0 : ℚ)))
      (⟨2, [], none, none, "typo"⟩ : ECSWSystem) none 0 = .error e) ∧
    (⟨2, [], none, none, "direct"⟩ : ECSWSystem).assembly_type = "direct" ∧
    ECSWSystem.K_and_f (fun _ _ _ _ _ => ((1 : ℚ), (2 : ℚ)))
        (fun _ _ _ _ _ => ((3 : ℚ), (4 : ℚ)))
        (⟨2, [], none, none, "direct"⟩ : ECSWSystem) (some [0, 0]) 0 = .ok (1, 2) :=
  ⟨⟨by decide, by decide⟩,
   ((C7_operator_dispatch (fun _ _ _ _ _ => ((0 : ℚ), (0 : ℚ)))
      (fun _ _ _ _ _ => ((0 : ℚ), (0 : ℚ)))).1 ⟨2, [], none, none, "typo"⟩ none 0).1.2
     ⟨by decide, by decide⟩,
   rfl,
   ((C7_operator_dispatch (fun _ _ _ _ _ => ((1 : ℚ), (2 : ℚ)))
      (fun _ _ _ _ _ => ((3 : ℚ), (4 : ℚ)))).2.1 ⟨2, [], none, none, "direct"⟩ [0, 0] 0
     rfl).1⟩

end ClaimC7

section ListHelpers

variable {α : Type}

/-- Reading back an in-range update. -/
theorem set_getD_self (l : List α) (i : ℕ) (x d : α) (h : i < l.length) :
    (l.set i x).getD i d = x := by
  induction l generalizing i with
  | nil => simp at h
  | cons a as ih =>
    cases i with
    | zero => rfl
    | succ i2 =>
      simp only [List.set, List.getD, List.length_cons] at *
      exact ih i2 (by omega)

/-- Updates do not affect other positions. -/
theorem set_getD_ne (l : List α) (i j : ℕ) (x d : α) (h : j ≠ i) :
    (l.set i x).getD j d = l.getD j d := by
  induction l generalizing i j with
  | nil => rfl
  | cons a as ih =>
    cases i with
    | zero =>
      cases j with
      | zero => exact absurd rfl h
      | succ j2 => rfl
    | succ i2 =>
      cases j with
      | zero => rfl
      | succ j2 =>
        simp only [List.set, List.getD]
        exact ih i2 j2 (by omega)

/-- Reading the left part of an append. -/
theorem append_getD_left (l1 l2 : List α) (i : ℕ) (d : α) (h : i < l1.length) :
    (l1 ++ l2).getD i d = l1.getD i d := by
  induction l1 generalizing i with
  | nil => simp at h
  | cons a as ih =>
    cases i with
    | zero => rfl
    | succ i2 =>
      simp only [List.cons_append, List.getD, List.length_cons] at *
      exact ih i2 (by omega)

/-- Reading the appended element. -/
theorem append_getD_len (l1 : List α) (x d : α) :
    (l1 ++ [x]).getD l1.length d = x := by
  induction l1 with
  | nil => rfl
  | cons a as ih => exact ih

end ListHelpers

section ClaimC8

/-- C8: `reduce_mechanical_system_ecsw` with `overwrite=False` leaves the
original system untouched (the transformation happens on a fresh deep
copy); with `overwrite=True`, the reference it returns is the argument
itself and that object's class is changed to the hyper-reduced variant.
In both cases the returned system has class `ECSWSystem`, `V` a copy of
the given basis, `V_unconstr` its unconstrained expansion, weights and
weight indices reset to unset, output cache and cached constrained mass
matrix cleared, a pre-existing Rayleigh damping matrix replaced by
`Vᵀ·D·V`, and the requested assembly strategy recorded. -/
theorem C8_reduce_ecsw_frame :
    (∀ (store : List MSys) (mref : ℕ) (V : List (List ℚ)) (assembly : String),
      mref < store.length →
      (reduce_mechanical_system_ecsw store mref V false assembly).1.getD mref default =
        store.getD mref default ∧
      (reduce_mechanical_system_ecsw store mref V false assembly).2 = store.length) ∧
    (∀ (store : List MSys) (mref : ℕ) (V : List (List ℚ)) (assembly : String),
      mref < store.length →
      (reduce_mechanical_system_ecsw store mref V true assembly).2 = mref ∧
      ((reduce_mechanical_system_ecsw store mref V true assembly).1.getD mref default).cls =
        SysClass.ECSWClass) ∧
    (∀ (store : List MSys) (mref : ℕ) (V : List (List ℚ)) (overwrite : Bool)
      (assembly : String), mref < store.length →
      ((reduce_mechanical_system_ecsw store mref V overwrite assembly).1.getD
          (reduce_mechanical_system_ecsw store mref V overwrite assembly).2 default =
        { store.getD mref default with
          cls := SysClass.ECSWClass
          V := V
          V_unconstr := (store.getD mref default).unconstrain_vec V
          weights := none
          weight_idx := none
          u_red_output := []
          M_constr := none
          D_constr := (store.getD mref default).D_constr.map
            (fun D => lMatMul (lMatMul (lMatT V) D) V)
          assembly_type := assembly })) := by
  refine ⟨fun store mref V assembly h => ⟨?_, rfl⟩, fun store mref V assembly h => ⟨rfl, ?_⟩,
    fun store mref V overwrite assembly h => ?_⟩
  · show ((store ++ [store.getD mref default]).set store.length _).getD mref default = _
    rw [set_getD_ne _ _ _ _ _ (by omega), append_getD_left _ _ _ _ h]
  · show (((store.set mref _).getD mref default)).cls = _
    rw [set_getD_self _ _ _ _ (by simpa using h)]
  · cases overwrite with
    | false =>
      simp only [reduce_mechanical_system_ecsw,
        if_neg (show ¬(false = true) from by decide)]
      rw [set_getD_self _ _ _ _ (by simp), append_getD_len]
    | true =>
      simp only [reduce_mechanical_system_ecsw, eq_self_iff_true, if_true]
      rw [set_getD_self _ _ _ _ h]

/-- Witness for C8: a one-object store holding a mechanical system with a
damping matrix, reduced without overwrite. -/
theorem C8_reduce_ecsw_frame_witness :
    (0 : ℕ) < 1 ∧
    (reduce_mechanical_system_ecsw
        [⟨SysClass.MechanicalSystem, [], [], none, none, [], none, some [[2]], "direct", id⟩]
        0 [[1]] false "indirect").1.getD 0 default =
      [(⟨SysClass.MechanicalSystem, [], [], none, none, [], none, some [[2]], "direct", id⟩ :
        MSys)].getD 0 default ∧
    (reduce_mechanical_system_ecsw
        [⟨SysClass.MechanicalSystem, [], [], none, none, [], none, some [[2]], "direct", id⟩]
        0 [[1]] false "indirect").2 = 1 :=
  ⟨by omega,
   (C8_reduce_ecsw_frame.1 _ 0 [[1]] "indirect" (by simp)).1,
   (C8_reduce_ecsw_frame.1 _ 0 [[1]] "indirect" (by simp)).2⟩

end ClaimC8

section ClaimC9

/-- Updating along a list of indices leaves the length unchanged. -/
theorem assignAt_length (is : List ℕ) (ws xs : List ℚ) :
    (assignAt is ws xs).length = xs.length := by
  induction is generalizing xs ws with
  | nil => rfl
  | cons i is2 ih =>
    cases ws with
    | nil => rfl
    | cons w ws2 =>
      show (assignAt is2 ws2 (xs.set i w)).length = xs.length
      rw [ih, List.length_set]

/-- Positions outside the index list keep their value. -/
theorem assignAt_not_mem (is : List ℕ) (ws xs : List ℚ) (p : ℕ) (hp : p ∉ is) :
    (assignAt is ws xs).getD p 0 = xs.getD p 0 := by
  induction is generalizing xs ws with
  | nil => rfl
  | cons i is2 ih =>
    cases ws with
    | nil => rfl
    | cons w ws2 =>
      show (assignAt is2 ws2 (xs.set i w)).getD p 0 = xs.getD p 0
      rw [ih _ _ (fun hm => hp (List.mem_cons_of_mem _ hm)),
        set_getD_ne _ _ _ _ _ (fun he => hp (by rw [he]; exact List.mem_cons_self _ _))]

/-- With distinct in-range indices, position `is[k]` receives `ws[k]`. -/
theorem assignAt_at (is : List ℕ) (ws xs : List ℚ) (k : ℕ) (hnd : is.Nodup)
    (hin : ∀ i ∈ is, i < xs.length) (hk : k < is.length) (hlen : ws.length = is.length) :
    (assignAt is ws xs).getD (is.getD k 0) 0 = ws.getD k 0 := by
  induction is generalizing xs ws k with
  | nil => simp only [List.length_nil] at hk; omega
  | cons i is2 ih =>
    cases ws with
    | nil => simp only [List.length_nil, List.length_cons] at hlen; omega
    | cons w ws2 =>
      cases k with
      | zero =>
        show (assignAt is2 ws2 (xs.set i w)).getD i 0 = w
        rw [assignAt_not_mem _ _ _ _ (List.nodup_cons.1 hnd).1,
          set_getD_self _ _ _ _ (hin i (List.mem_cons_self _ _))]
      | succ k2 =>
        show (assignAt is2 ws2 (xs.set i w)).getD (is2.getD k2 0) 0 = ws2.getD k2 0
        refine ih _ _ k2 (List.nodup_cons.1 hnd).2 ?_
          (by simp only [List.length_cons] at hk; omega)
          (by simp only [List.length_cons] at hlen; omega)
        intro i2 h2
        rw [List.length_set]
        exact hin i2 (List.mem_cons_of_mem _ h2)

/-- Entries of the zero vector are zero. -/
theorem replicate_getD (n p : ℕ) : (List.replicate n (0 : ℚ)).getD p 0 = 0 := by
  induction n generalizing p with
  | zero => rfl
  | succ n2 ih =>
    cases p with
    | zero => rfl
    | succ p2 => exact ih p2

/-- C9: `ECSWSystem.export_paraview` does not touch the caller's field
list; the list passed to the inherited export is the caller's list (or
`[]` for `None`) with exactly one extra field appended: the vector of
length `no_of_elements` that is zero except at the stored weight indices,
where it carries the stored weights, tagged `ParaView`, attribute type
`"Scalar"`, center `"Cell"`, name `"weights_hyper_red"`, one component. -/
theorem C9_export_paraview_weight_field :
    ∀ (n : ℕ) (widx : List ℕ) (w : List ℚ) (fstore : List (List ExportField))
      (fref : Option ℕ),
      (export_paraview n widx w fstore fref).1 = fstore ∧
      (export_paraview n widx w fstore fref).2 =
        (match fref with
          | none => []
          | some r => fstore.getD r []) ++
          [(xiFull n widx w, ⟨true, "Scalar", "Cell", "weights_hyper_red", 1⟩)] ∧
      (xiFull n widx w).length = n ∧
      (widx.Nodup → (∀ i ∈ widx, i < n) → w.length = widx.length →
        (∀ p, p < n → p ∉ widx → (xiFull n widx w).getD p 0 = 0) ∧
        (∀ k, k < widx.length → (xiFull n widx w).getD (widx.getD k 0) 0 = w.getD k 0)) := by
  intro n widx w fstore fref
  refine ⟨rfl, rfl, ?_, fun hnd hin hlen => ⟨?_, ?_⟩⟩
  · rw [xiFull, assignAt_length, List.length_replicate]
  · intro p _ hp
    rw [xiFull, assignAt_not_mem _ _ _ _ hp, replicate_getD]
  · intro k hk
    exact assignAt_at _ _ _ _ hnd (fun i hi => by simpa using hin i hi) hk hlen

/-- Witness for C9: four elements, weights `5, 7` stored at indices
`2, 0`, one pre-existing caller field list in the store. -/
theorem C9_export_paraview_weight_field_witness :
    (([2, 0] : List ℕ).Nodup ∧ (∀ i ∈ ([2, 0] : List ℕ), i < 4) ∧
      ([5, 7] : List ℚ).length = ([2, 0] : List ℕ).length) ∧
    (export_paraview 4 [2, 0] [5, 7] [[([1], ⟨false, "a", "b", "c", 0⟩)]] (some 0)).1 =
      [[([1], ⟨false, "a", "b", "c", 0⟩)]] ∧
    (xiFull 4 [2, 0] [5, 7]).getD 2 0 = 5 ∧
    (xiFull 4 [2, 0] [5, 7]).getD 0 0 = 7 ∧
    (xiFull 4 [2, 0] [5, 7]).getD 1 0 = 0 :=
  ⟨⟨by decide, by decide, by decide⟩,
   (C9_export_paraview_weight_field 4 [2, 0] [5, 7] [[([1], ⟨false, "a", "b", "c", 0⟩)]]
     (some 0)).1,
   ((C9_export_paraview_weight_field 4 [2, 0] [5, 7] [[([1], ⟨false, "a", "b", "c", 0⟩)]]
     (some 0)).2.2.2 (by decide) (by decide) (by decide)).2 0 (by decide),
   ((C9_export_paraview_weight_field 4 [2, 0] [5, 7] [[([1], ⟨false, "a", "b", "c", 0⟩)]]
     (some 0)).2.2.2 (by decide) (by decide) (by decide)).2 1 (by decide),
   ((C9_export_paraview_weight_field 4 [2, 0] [5, 7] [[([1], ⟨false, "a", "b", "c", 0⟩)]]
     (some 0)).2.2.2 (by decide) (by decide) (by decide)).1 1 (by decide) (by decide)⟩

end ClaimC9


section NNLSListHelpers

variable {α β γ : Type}

theorem set_oob (l : List α) (i : ℕ) (x : α) (h : l.length ≤ i) : l.set i x = l := by
  induction l generalizing i with
  | nil => rfl
  | cons a as ih =>
    cases i with
    | zero => simp at h
    | succ i2 =>
      simp only [List.set, List.cons.injEq, true_and]
      exact ih i2 (by simpa using h)

theorem getD_oob (l : List α) (i : ℕ) (d : α) (h : l.length ≤ i) : l.getD i d = d := by
  induction l generalizing i with
  | nil => rfl
  | cons a as ih =>
    cases i with
    | zero => simp at h
    | succ i2 => exact ih i2 (by simpa using h)

theorem getD_mem_of_lt (l : List α) (i : ℕ) (d : α) (h : i < l.length) : l.getD i d ∈ l := by
  induction l generalizing i with
  | nil => simp at h
  | cons a as ih =>
    cases i with
    | zero => exact List.mem_cons_self _ _
    | succ i2 => exact List.mem_cons_of_mem _ (ih i2 (by simpa using h))

theorem zipWith_getD (f : α → β → γ) (as : List α) (bs : List β) (i : ℕ)
    (da : α) (db : β) (dc : γ) (ha : i < as.length) (hb : i < bs.length) :
    (List.zipWith f as bs).getD i dc = f (as.getD i da) (bs.getD i db) := by
  induction as generalizing bs i with
  | nil => simp at ha
  | cons a as2 ih =>
    cases bs with
    | nil => simp at hb
    | cons b bs2 =>
      cases i with
      | zero => rfl
      | succ i2 => exact ih bs2 i2 (by simpa using ha) (by simpa using hb)

theorem map_getD (f : α → β) (l : List α) (i : ℕ) (da : α) (db : β)
    (h : i < l.length) : (l.map f).getD i db = f (l.getD i da) := by
  induction l generalizing i with
  | nil => simp at h
  | cons a as ih =>
    cases i with
    | zero => rfl
    | succ i2 => exact ih i2 (by simpa using h)

theorem mem_of_forall_getD (xs : List ℚ) (h : ∀ i, 0 ≤ xs.getD i 0) :
    ∀ w ∈ xs, 0 ≤ w := by
  intro w hw
  obtain ⟨i, hi, rfl⟩ := List.mem_iff_getElem.1 hw
  have := h i
  rwa [List.getD_eq_getElem _ _ hi] at this

end NNLSListHelpers


section NNLSLemmas

theorem foldl_min_le_init (ys : List ℚ) (y : ℚ) : ys.foldl min y ≤ y := by
  induction ys generalizing y with
  | nil => exact le_refl y
  | cons z zs ih => exact le_trans (ih (min y z)) (min_le_left y z)

theorem foldl_min_le_mem (ys : List ℚ) (y : ℚ) : ∀ x ∈ ys, ys.foldl min y ≤ x := by
  induction ys generalizing y with
  | nil => intro x hx; simp at hx
  | cons z zs ih =>
    intro x hx
    rcases List.mem_cons.1 hx with rfl | hx2
    · exact le_trans (foldl_min_le_init zs (min y x)) (min_le_right y x)
    · exact ih (min y z) x hx2

theorem minQ_le (xs : List ℚ) (mn : ℚ) (h : minQ xs = some mn) : ∀ x ∈ xs, mn ≤ x := by
  cases xs with
  | nil => simp [minQ] at h
  | cons y ys =>
    simp only [minQ, Option.some.injEq] at h
    intro x hx
    rcases List.mem_cons.1 hx with rfl | hx2
    · exact h ▸ foldl_min_le_init ys x
    · exact h ▸ foldl_min_le_mem ys y x hx2

theorem scatterActive_length (a : List Bool) (s : List ℚ) :
    (scatterActive a s).length = a.length := by
  induction a generalizing s with
  | nil => rfl
  | cons bb rest ih =>
    cases bb with
    | false => simp only [scatterActive, List.length_cons, ih]
    | true =>
      cases s with
      | nil => simp only [scatterActive, List.length_cons, ih]
      | cons v vs => simp only [scatterActive, List.length_cons, ih]

theorem scatterActive_off (a : List Bool) (s : List ℚ) (i : ℕ)
    (h : a.getD i false = false) : (scatterActive a s).getD i 0 = 0 := by
  induction a generalizing s i with
  | nil => rfl
  | cons bb rest ih =>
    cases bb with
    | false =>
      cases i with
      | zero => rfl
      | succ i2 => exact ih s i2 (by simpa using h)
    | true =>
      cases i with
      | zero => simp at h
      | succ i2 =>
        cases s with
        | nil => exact ih [] i2 (by simpa using h)
        | cons v vs => exact ih vs i2 (by simpa using h)

theorem maskSelect_cons (bb : Bool) (rest : List Bool) (x : ℚ) (xs : List ℚ) :
    maskSelect (bb :: rest) (x :: xs) =
      if bb then x :: maskSelect rest xs else maskSelect rest xs := by
  cases bb <;> simp [maskSelect, List.filter_cons]

theorem maskSelect_mem (a : List Bool) (xs : List ℚ) (w : ℚ)
    (hw : w ∈ maskSelect a xs) : w ∈ xs := by
  simp only [maskSelect, List.mem_map, List.mem_filter] at hw
  obtain ⟨p, ⟨hp, _⟩, rfl⟩ := hw
  exact (List.of_mem_zip hp).2

theorem mem_maskSelect_getD (a : List Bool) (xs : List ℚ) (i : ℕ)
    (hi : i < a.length) (hx : i < xs.length) (h : a.getD i false = true) :
    xs.getD i 0 ∈ maskSelect a xs := by
  induction a generalizing xs i with
  | nil => simp at hi
  | cons bb rest ih =>
    cases xs with
    | nil => simp at hx
    | cons x xs2 =>
      rw [maskSelect_cons]
      cases i with
      | zero =>
        simp only [List.getD_cons_zero] at h ⊢
        rw [h]
        exact List.mem_cons_self _ _
      | succ i2 =>
        have hm := ih xs2 i2 (by simpa using hi) (by simpa using hx) (by simpa using h)
        cases bb with
        | false => simpa using hm
        | true => simpa using List.mem_cons_of_mem x hm

end NNLSLemmas

section NNLSLemmas2

theorem mem_maskIdxFrom (bs : List Bool) : ∀ (s i : ℕ), i ∈ maskIdxFrom s bs →
    s ≤ i ∧ i - s < bs.length ∧ bs.getD (i - s) false = true := by
  induction bs with
  | nil => intro s i hi; simp [maskIdxFrom] at hi
  | cons bb rest ih =>
    intro s i hi
    rw [maskIdxFrom] at hi
    by_cases hb : bb = true
    · rw [if_pos hb] at hi
      rcases List.mem_cons.1 hi with rfl | hi2
      · exact ⟨le_refl i, by simp, by simp [hb]⟩
      · obtain ⟨h1, h2, h3⟩ := ih (s + 1) i hi2
        refine ⟨by omega, by simp only [List.length_cons]; omega, ?_⟩
        have hk : i - s = (i - (s + 1)) + 1 := by omega
        rw [hk, List.getD_cons_succ]
        exact h3
    · rw [if_neg hb] at hi
      obtain ⟨h1, h2, h3⟩ := ih (s + 1) i hi
      refine ⟨by omega, by simp only [List.length_cons]; omega, ?_⟩
      have hk : i - s = (i - (s + 1)) + 1 := by omega
      rw [hk, List.getD_cons_succ]
      exact h3

theorem mem_maskIdxFrom_of (bs : List Bool) : ∀ (s k : ℕ), k < bs.length →
    bs.getD k false = true → (s + k) ∈ maskIdxFrom s bs := by
  induction bs with
  | nil => intro s k hk; simp at hk
  | cons bb rest ih =>
    intro s k hk hv
    rw [maskIdxFrom]
    cases k with
    | zero =>
      simp only [List.getD_cons_zero] at hv
      rw [if_pos hv, Nat.add_zero]
      exact List.mem_cons_self _ _
    | succ k2 =>
      have hm := ih (s + 1) k2 (by simpa using hk) (by simpa using hv)
      have he : s + (k2 + 1) = (s + 1) + k2 := by omega
      rw [he]
      by_cases hb : bb = true
      · rw [if_pos hb]; exact List.mem_cons_of_mem _ hm
      · rw [if_neg hb]; exact hm

theorem argminAux_spec (xs : List ℚ) : ∀ (i bi : ℕ) (bv : ℚ),
    (argminAux xs i bi bv = bi ∧ ∀ x ∈ xs, bv ≤ x) ∨
    (∃ k, k < xs.length ∧ argminAux xs i bi bv = i + k ∧ xs.getD k 0 ≤ bv ∧
      ∀ x ∈ xs, xs.getD k 0 ≤ x) := by
  induction xs with
  | nil => intro i bi bv; left; exact ⟨rfl, by simp⟩
  | cons x xs2 ih =>
    intro i bi bv
    rw [argminAux]
    by_cases hx : x < bv
    · rw [if_pos hx]
      rcases ih (i + 1) i x with ⟨h1, h2⟩ | ⟨k, hk, h1, h2, h3⟩
      · right
        refine ⟨0, by simp, by rw [h1]; omega, ?_, ?_⟩
        · simpa using le_of_lt hx
        · intro y hy
          rcases List.mem_cons.1 hy with rfl | hy2
          · simp
          · simpa using h2 y hy2
      · right
        refine ⟨k + 1, by simpa using hk, by rw [h1]; omega, ?_, ?_⟩
        · rw [List.getD_cons_succ]; exact le_of_lt (lt_of_le_of_lt h2 hx)
        · intro y hy
          rw [List.getD_cons_succ]
          rcases List.mem_cons.1 hy with rfl | hy2
          · exact h2
          · exact h3 y hy2
    · rw [if_neg hx]
      push_neg at hx
      rcases ih (i + 1) bi bv with ⟨h1, h2⟩ | ⟨k, hk, h1, h2, h3⟩
      · left
        refine ⟨h1, ?_⟩
        intro y hy
        rcases List.mem_cons.1 hy with rfl | hy2
        · exact hx
        · exact h2 y hy2
      · right
        refine ⟨k + 1, by simpa using hk, by rw [h1]; omega, ?_, ?_⟩
        · rw [List.getD_cons_succ]; exact h2
        · intro y hy
          rw [List.getD_cons_succ]
          rcases List.mem_cons.1 hy with rfl | hy2
          · exact h2.trans hx
          · exact h3 y hy2

theorem argminL_spec (xs : List ℚ) (pos : ℕ) (h : argminL xs = some pos) :
    pos < xs.length ∧ ∀ x ∈ xs, xs.getD pos 0 ≤ x := by
  cases xs with
  | nil => simp [argminL] at h
  | cons x xs2 =>
    simp only [argminL, Option.some.injEq] at h
    rcases argminAux_spec xs2 1 0 x with ⟨h1, h2⟩ | ⟨k, hk, h1, h2, h3⟩
    · rw [h1] at h
      subst h
      refine ⟨by simp, ?_⟩
      intro y hy
      rcases List.mem_cons.1 hy with rfl | hy2
      · simp
      · simpa using h2 y hy2
    · rw [h1] at h
      subst h
      have he : 1 + k = k + 1 := by omega
      refine ⟨by simp only [List.length_cons]; omega, ?_⟩
      intro y hy
      rw [he, List.getD_cons_succ]
      rcases List.mem_cons.1 hy with rfl | hy2
      · exact h2
      · exact h3 y hy2

end NNLSLemmas2

section NNLSLemmas3

theorem nonzeroIdxFrom_le (xs : List ℚ) : ∀ (s i : ℕ), i ∈ nonzeroIdxFrom s xs → s ≤ i := by
  induction xs with
  | nil => intro s i hi; simp [nonzeroIdxFrom] at hi
  | cons x xs2 ih =>
    intro s i hi
    rw [nonzeroIdxFrom] at hi
    by_cases hx : x ≠ 0
    · rw [if_pos hx] at hi
      rcases List.mem_cons.1 hi with rfl | hi2
      · exact le_refl i
      · exact le_trans (by omega) (ih (s + 1) i hi2)
    · rw [if_neg hx] at hi
      exact le_trans (by omega) (ih (s + 1) i hi)

theorem nonzeroIdxFrom_length_le (xs : List ℚ) : ∀ s, (nonzeroIdxFrom s xs).length ≤ xs.length := by
  induction xs with
  | nil => intro s; simp [nonzeroIdxFrom]
  | cons x xs2 ih =>
    intro s
    rw [nonzeroIdxFrom]
    by_cases hx : x ≠ 0
    · rw [if_pos hx]
      simp only [List.length_cons]
      exact Nat.succ_le_succ (ih (s + 1))
    · rw [if_neg hx]
      simp only [List.length_cons]
      exact le_trans (ih (s + 1)) (by omega)

theorem nonzeroIdxFrom_map_getD (xs : List ℚ) : ∀ s,
    (nonzeroIdxFrom s xs).map (fun i => xs.getD (i - s) 0) =
      xs.filter (fun x => decide (x ≠ 0)) := by
  induction xs with
  | nil => intro s; rfl
  | cons x xs2 ih =>
    intro s
    rw [nonzeroIdxFrom, List.filter_cons]
    have hcong : (nonzeroIdxFrom (s + 1) xs2).map (fun i => (x :: xs2).getD (i - s) 0) =
        (nonzeroIdxFrom (s + 1) xs2).map (fun i => xs2.getD (i - (s + 1)) 0) := by
      refine List.map_congr_left ?_
      intro i hi
      have hs := nonzeroIdxFrom_le xs2 (s + 1) i hi
      have hk : i - s = (i - (s + 1)) + 1 := by omega
      rw [hk, List.getD_cons_succ]
    by_cases hx : x ≠ 0
    · rw [if_pos hx, if_pos (by simpa using hx), List.map_cons]
      simp only [Nat.sub_self, List.getD_cons_zero]
      rw [hcong, ih (s + 1)]
    · rw [if_neg hx, if_neg (by simpa using hx)]
      rw [hcong, ih (s + 1)]

theorem nonzeroIndices_map_getD (xs : List ℚ) :
    (nonzeroIndices xs).map (fun i => xs.getD i 0) = xs.filter (fun x => decide (x ≠ 0)) := by
  have h := nonzeroIdxFrom_map_getD xs 0
  simp only [Nat.sub_zero] at h
  exact h

theorem maskSelect_filter (a : List Bool) : ∀ (xs : List ℚ),
    a.length = xs.length →
    (∀ i, a.getD i false = false → xs.getD i 0 = 0) →
    (maskSelect a xs).filter (fun x => decide (x ≠ 0)) =
      xs.filter (fun x => decide (x ≠ 0)) := by
  induction a with
  | nil =>
    intro xs hlen _
    cases xs with
    | nil => rfl
    | cons x xs2 => simp at hlen
  | cons bb rest ih =>
    intro xs hlen hinv
    cases xs with
    | nil => simp at hlen
    | cons x xs2 =>
      have hinv2 : ∀ i, rest.getD i false = false → xs2.getD i 0 = 0 := by
        intro i hi
        have := hinv (i + 1) (by simpa using hi)
        simpa using this
      rw [maskSelect_cons]
      cases bb with
      | true =>
        rw [if_pos rfl, List.filter_cons, List.filter_cons]
        by_cases hx : x ≠ 0
        · rw [if_pos (by simpa using hx), if_pos (by simpa using hx)]
          rw [ih xs2 (by simpa using hlen) hinv2]
        · rw [if_neg (by simpa using hx), if_neg (by simpa using hx)]
          exact ih xs2 (by simpa using hlen) hinv2
      | false =>
        have hx0 : x = 0 := by simpa using hinv 0 (by simp)
        rw [if_neg (by simp), List.filter_cons]
        rw [if_neg (by simp [hx0])]
        exact ih xs2 (by simpa using hlen) hinv2

theorem vsub_self_zero (x : List ℚ) : vsub x (List.replicate x.length 0) = x := by
  induction x with
  | nil => rfl
  | cons a as ih =>
    simp only [List.length_cons, List.replicate, vsub, List.zipWith_cons_cons, sub_zero]
    exact congrArg (a :: ·) ih

theorem selectCols_replicate_false (G : List (List ℚ)) : ∀ (n : ℕ),
    selectCols G (List.replicate n false) = [] := by
  induction G with
  | nil => intro n; rfl
  | cons g G2 ih =>
    intro n
    cases n with
    | zero => rfl
    | succ n2 =>
      simp only [selectCols, List.replicate, List.zip_cons_cons, List.filter_cons] at *
      exact ih n2

theorem gmulCols_nil (coeffs : List ℚ) (m : ℕ) : gmulCols [] coeffs m = List.replicate m 0 := rfl

end NNLSLemmas3

section InnerLoopInv

theorem inner_loop_inv (G : List (List ℚ)) (b : List ℚ) :
    ∀ (fuel : ℕ) (active : List Bool) (xi : List ℚ) (active2 : List Bool) (xi2 : List ℚ),
      xi.length = active.length →
      (∀ i, 0 ≤ xi.getD i 0) →
      (∀ i, active.getD i false = false → xi.getD i 0 = 0) →
      inner_loop G b fuel active xi = some (active2, xi2) →
      active2.length = active.length ∧ xi2.length = active.length ∧
        (∀ i, 0 ≤ xi2.getD i 0) ∧
        (∀ i, active2.getD i false = false → xi2.getD i 0 = 0) := by
  intro fuel
  induction fuel with
  | zero =>
    intro active xi active2 xi2 _ _ _ h
    simp [inner_loop] at h
  | succ f ih =>
    intro active xi active2 xi2 hlen hpos hoff h
    simp only [inner_loop] at h
    split at h
    next => exact absurd h (by simp)
    next sol hsol =>
      split at h
      next => exact absurd h (by simp)
      next mn hmn =>
        split at h
        next hmn0 =>
          simp only [Option.some.injEq, Prod.mk.injEq] at h
          obtain ⟨rfl, rfl⟩ := h
          refine ⟨rfl, scatterActive_length _ _, fun i => ?_,
            fun i hi => scatterActive_off _ _ _ hi⟩
          by_cases hi : i < active.length
          · cases hb : active.getD i false with
            | false => rw [scatterActive_off _ _ _ hb]
            | true =>
              have hmem := mem_maskSelect_getD active (scatterActive active sol) i hi
                (by rw [scatterActive_length]; exact hi) hb
              exact le_trans hmn0 (minQ_le _ _ hmn _ hmem)
          · rw [getD_oob _ _ _ (by rw [scatterActive_length]; omega)]
        next hmn0 =>
          split at h
          next => exact absurd h (by simp)
          next pos hargmin =>
            set zeta := scatterActive active sol with hzdef
            set mask := List.zipWith (fun z a => decide (z ≤ 0) && a) zeta active with hmdef
            set mvals := (maskIdx mask).map
              (fun i => xi.getD i 0 / (xi.getD i 0 - zeta.getD i 0)) with hvdef
            set cidx := (maskIdx mask).getD pos 0 with hcdef
            set alpha := mvals.getD pos 0 with hadef
            have hlz : zeta.length = active.length := scatterActive_length _ _
            have hlq : (List.zipWith (fun x z => x + alpha * (z - x)) xi zeta).length
                = active.length := by
              rw [List.length_zipWith, hlen, hlz, min_self]
            have hspec := argminL_spec _ _ hargmin
            have hposlen : pos < (maskIdx mask).length := by
              have := hspec.1
              rwa [hvdef, List.length_map] at this
            have hcmem : cidx ∈ maskIdx mask := getD_mem_of_lt _ _ _ hposlen
            have hcmask := mem_maskIdxFrom mask 0 cidx hcmem
            have hclen : cidx < mask.length := by
              have := hcmask.2.1
              omega
            have hcval : mask.getD cidx false = true := by
              have := hcmask.2.2
              simpa using this
            have hclen2 : cidx < active.length := by
              rw [hmdef, List.length_zipWith, hlz, min_self] at hclen
              exact hclen
            have hczle : zeta.getD cidx 0 ≤ 0 ∧ active.getD cidx false = true := by
              rw [hmdef] at hcval
              rw [zipWith_getD _ _ _ _ 0 false _ (by rw [hlz]; exact hclen2) hclen2] at hcval
              constructor
              · exact of_decide_eq_true (Bool.and_elim_left hcval)
              · exact Bool.and_elim_right hcval
            have haval : alpha = xi.getD cidx 0 / (xi.getD cidx 0 - zeta.getD cidx 0) := by
              rw [hadef, hvdef, map_getD _ _ _ 0 _ hposlen, hcdef]
            have hdnn : 0 ≤ xi.getD cidx 0 - zeta.getD cidx 0 := by
              have := hpos cidx
              have := hczle.1
              linarith
            have hann : 0 ≤ alpha := by
              rw [haval]
              exact div_nonneg (hpos cidx) hdnn
            have hale : alpha ≤ 1 := by
              by_cases hd : xi.getD cidx 0 - zeta.getD cidx 0 = 0
              · rw [haval, hd, div_zero]; norm_num
              · have hd2 : 0 < xi.getD cidx 0 - zeta.getD cidx 0 := lt_of_le_of_ne hdnn (Ne.symm hd)
                rw [haval, div_le_one hd2]
                have := hczle.1
                linarith
            have hamin : ∀ i, i < active.length → active.getD i false = true →
                zeta.getD i 0 ≤ 0 →
                alpha ≤ xi.getD i 0 / (xi.getD i 0 - zeta.getD i 0) := by
              intro i hilen hia hiz
              have hmaski : mask.getD i false = true := by
                rw [hmdef, zipWith_getD _ _ _ _ 0 false _ (by rw [hlz]; exact hilen) hilen]
                rw [hia, decide_eq_true hiz]
                rfl
              have hmlen : i < mask.length := by
                rw [hmdef, List.length_zipWith, hlz, min_self]
                exact hilen
              have hidx : i ∈ maskIdx mask := by
                have := mem_maskIdxFrom_of mask 0 i hmlen hmaski
                simpa using this
              have hmem2 : xi.getD i 0 / (xi.getD i 0 - zeta.getD i 0) ∈ mvals := by
                rw [hvdef]
                exact List.mem_map_of_mem _ hidx
              exact hspec.2 _ hmem2
            have hgq : ∀ i, i < active.length →
                (List.zipWith (fun x z => x + alpha * (z - x)) xi zeta).getD i 0
                  = xi.getD i 0 + alpha * (zeta.getD i 0 - xi.getD i 0) := by
              intro i hilen
              exact zipWith_getD _ _ _ _ 0 0 _ (by rw [hlen]; exact hilen)
                (by rw [hlz]; exact hilen)
            have hP2 : ∀ i, 0 ≤ (List.zipWith (fun x z => x + alpha * (z - x)) xi zeta).getD i 0 := by
              intro i
              by_cases hilen : i < active.length
              · rw [hgq i hilen]
                cases hb : active.getD i false with
                | false =>
                  rw [hoff i hb, scatterActive_off _ _ _ hb]
                  norm_num
                | true =>
                  by_cases hiz : zeta.getD i 0 ≤ 0
                  · have hai := hamin i hilen hb hiz
                    by_cases hd : xi.getD i 0 - zeta.getD i 0 = 0
                    · rw [show zeta.getD i 0 - xi.getD i 0 = 0 from by linarith, mul_zero,
                        add_zero]
                      exact hpos i
                    · have hd2 : 0 < xi.getD i 0 - zeta.getD i 0 := by
                        have := hpos i
                        rcases lt_or_eq_of_le (show 0 ≤ xi.getD i 0 - zeta.getD i 0 from by
                          linarith) with hlt | heq
                        · exact hlt
                        · exact absurd heq.symm hd
                      have h2 : alpha * (xi.getD i 0 - zeta.getD i 0)
                          ≤ xi.getD i 0 / (xi.getD i 0 - zeta.getD i 0)
                            * (xi.getD i 0 - zeta.getD i 0) :=
                        mul_le_mul_of_nonneg_right hai (le_of_lt hd2)
                      rw [div_mul_cancel₀ _ hd] at h2
                      linarith
                  · push_neg at hiz
                    have he : xi.getD i 0 + alpha * (zeta.getD i 0 - xi.getD i 0)
                        = (1 - alpha) * xi.getD i 0 + alpha * zeta.getD i 0 := by ring
                    rw [he]
                    exact add_nonneg (mul_nonneg (by linarith) (hpos i))
                      (mul_nonneg hann (le_of_lt hiz))
              · rw [getD_oob _ _ _ (by rw [hlq]; omega)]
            have hP3 : ∀ i, (active.set cidx false).getD i false = false →
                (List.zipWith (fun x z => x + alpha * (z - x)) xi zeta).getD i 0 = 0 := by
              intro i hai
              by_cases hilen : i < active.length
              · rw [hgq i hilen]
                by_cases hic : i = cidx
                · subst hic
                  by_cases hd : xi.getD cidx 0 - zeta.getD cidx 0 = 0
                  · have hx0 : xi.getD cidx 0 = 0 := by
                      have h1 := hczle.1
                      have h2 := hpos cidx
                      linarith
                    rw [hx0, show zeta.getD cidx 0 = 0 from by linarith]
                    ring
                  · have key : xi.getD cidx 0 / (xi.getD cidx 0 - zeta.getD cidx 0)
                        * (xi.getD cidx 0 - zeta.getD cidx 0) = xi.getD cidx 0 :=
                      div_mul_cancel₀ _ hd
                    rw [haval]
                    linear_combination -key
                · rw [set_getD_ne _ _ _ _ _ hic] at hai
                  rw [hoff i hai, scatterActive_off _ _ _ hai]
                  ring
              · rw [getD_oob _ _ _ (by rw [hlq]; omega)]
            have hres := ih (active.set cidx false)
              (List.zipWith (fun x z => x + alpha * (z - x)) xi zeta) active2 xi2
              (by rw [hlq, List.length_set]) hP2 hP3 h
            refine ⟨?_, ?_, hres.2.2.1, hres.2.2.2⟩
            · rw [hres.1, List.length_set]
            · rw [hres.2.1, List.length_set]

end InnerLoopInv

section OuterLoopInv

theorem outer_loop_inv (G : List (List ℚ)) (b : List ℚ) (tau : ℚ) (cs : Bool) :
    ∀ (fuelO fuelI : ℕ) (r : List ℚ) (active : List Bool) (xi : List ℚ)
      (stats : List (ℕ × ℚ)) (active2 : List Bool) (xi2 : List ℚ)
      (stats2 : List (ℕ × ℚ)) (r2 : List ℚ),
      active.length = G.length →
      xi.length = active.length →
      (∀ i, 0 ≤ xi.getD i 0) →
      (∀ i, active.getD i false = false → xi.getD i 0 = 0) →
      r = vsub b (gmulCols (selectCols G active) (maskSelect active xi) b.length) →
      outer_loop G b tau cs fuelO fuelI r active xi stats = some (active2, xi2, stats2, r2) →
      active2.length = G.length ∧ xi2.length = G.length ∧
        (∀ i, 0 ≤ xi2.getD i 0) ∧
        (∀ i, active2.getD i false = false → xi2.getD i 0 = 0) ∧
        r2 = vsub b (gmulCols (selectCols G active2) (maskSelect active2 xi2) b.length) ∧
        normSq r2 ≤ tau ^ 2 * normSq b := by
  intro fuelO
  induction fuelO with
  | zero =>
    intro fuelI r active xi stats active2 xi2 stats2 r2 _ _ _ _ _ h
    simp [outer_loop] at h
  | succ f ih =>
    intro fuelI r active xi stats active2 xi2 stats2 r2 hag hxa hpos hoff hr h
    simp only [outer_loop] at h
    split at h
    next hguard =>
      simp only [Option.some.injEq, Prod.mk.injEq] at h
      obtain ⟨rfl, rfl, rfl, rfl⟩ := h
      exact ⟨hag, hxa.trans hag, hpos, hoff, hr, hguard⟩
    next hguard =>
      split at h
      next => exact absurd h (by simp)
      next idx hidx =>
        split at h
        next => exact absurd h (by simp)
        next activeI xiI hinner =>
          have hoffset : ∀ i, (active.set idx true).getD i false = false →
              xi.getD i 0 = 0 := by
            intro i hi
            by_cases hic : i = idx
            · subst hic
              by_cases hlt : i < active.length
              · rw [set_getD_self _ _ _ _ hlt] at hi
                exact absurd hi (by simp)
              · rw [set_oob _ _ _ (by omega)] at hi
                exact hoff i hi
            · rw [set_getD_ne _ _ _ _ _ hic] at hi
              exact hoff i hi
          have hres := inner_loop_inv G b fuelI (active.set idx true) xi activeI xiI
            (by rw [hxa, List.length_set]) hpos hoffset hinner
          exact ih fuelI _ activeI xiI _ active2 xi2 stats2 r2
            (by rw [hres.1, List.length_set]; exact hag)
            (hres.2.1.trans hres.1.symm)
            hres.2.2.1 hres.2.2.2 rfl h

end OuterLoopInv

section ClaimC1

/-- C1: whenever `sparse_nnls` returns (`b` of non-zero norm, tolerance
`tau ≥ 0`, under which the embedded squared-norm guard agrees with the
source's `‖r‖ > tau·‖b‖`), every returned weight is non-negative, the
number of returned support indices never exceeds the number of columns
(elements) of `G`, and the residual of the returned weights on the
returned active set satisfies `‖b − G_active·ξ_active‖² ≤ tau²·‖b‖²`,
i.e. `‖b − G_active·ξ_active‖ ≤ tau·‖b‖`. -/
theorem C1_sparse_nnls_postconditions (fuelO fuelI : ℕ) (G : List (List ℚ))
    (b : List ℚ) (tau : ℚ) (conv_stats : Bool) (inds : List ℕ) (ws : List ℚ)
    (stats : List (ℕ × ℚ)) (htau : 0 ≤ tau) (hb : normSq b ≠ 0)
    (h : sparse_nnls fuelO fuelI G b tau conv_stats = some (inds, ws, stats)) :
    (∀ w ∈ ws, 0 ≤ w) ∧ inds.length ≤ G.length ∧
      ∃ active : List Bool,
        normSq (vsub b (gmulCols (selectCols G active) ws b.length))
          ≤ tau ^ 2 * normSq b := by
  simp only [sparse_nnls] at h
  split at h
  next => exact absurd h (by simp)
  next active xi stats3 r hout =>
    simp only [Option.some.injEq, Prod.mk.injEq] at h
    obtain ⟨rfl, rfl, rfl⟩ := h
    have hres := outer_loop_inv G b tau conv_stats fuelO fuelI b
      (List.replicate G.length false) (List.replicate G.length 0) [] active xi stats3 r
      (by simp) (by simp)
      (fun i => by rw [replicate_getD])
      (fun i _ => by rw [replicate_getD])
      (by rw [selectCols_replicate_false, gmulCols_nil, vsub_self_zero])
      hout
    refine ⟨?_, ?_, active, ?_⟩
    · intro w hw
      exact mem_of_forall_getD xi hres.2.2.1 w (maskSelect_mem _ _ _ hw)
    · exact le_trans (nonzeroIdxFrom_length_le xi 0) (le_of_eq hres.2.1)
    · rw [← hres.2.2.2.2.1]
      exact hres.2.2.2.2.2

/-- Witness for C1: a diagonal 2×2 system solved exactly at `tau = 0`. -/
theorem C1_sparse_nnls_postconditions_witness :
    ((0 : ℚ) ≤ 0 ∧ normSq [1, 1] ≠ 0 ∧
      sparse_nnls 10 10 [[1, 0], [0, 2]] [1, 1] 0 false
        = some ([0, 1], [1, 1/2], [])) ∧
    ((∀ w ∈ ([1, 1/2] : List ℚ), 0 ≤ w) ∧
      ([0, 1] : List ℕ).length ≤ ([[1, 0], [0, 2]] : List (List ℚ)).length ∧
      ∃ active : List Bool,
        normSq (vsub [1, 1] (gmulCols (selectCols [[1, 0], [0, 2]] active) [1, 1/2]
          ([1, 1] : List ℚ).length)) ≤ (0 : ℚ) ^ 2 * normSq [1, 1]) :=
  ⟨⟨le_refl 0, by decide, by decide⟩,
   C1_sparse_nnls_postconditions 10 10 [[1, 0], [0, 2]] [1, 1] 0 false
     [0, 1] [1, 1/2] [] (le_refl 0) (by decide) (by decide)⟩

end ClaimC1

section ClaimC2

/-- C2 counterexample: `sparse_nnls` can return an index array and a weight
array of different lengths — the weights are `xi[active_set]`, the indices
`np.where(xi)[0]`, and an active position can hold the weight 0 (the blend
step zeroes an entry whose constraint is tight while a later iteration
re-activates only part of the set).  On `G = [[1,0],[2,1]]ᵀ`,
`b = (0,1)`, `tau = 1/10`, the solver returns one index but two weights. -/
theorem C2_counterexample :
    ∃ (fuelO fuelI : ℕ) (G : List (List ℚ)) (b : List ℚ) (tau : ℚ)
      (inds : List ℕ) (ws : List ℚ) (stats : List (ℕ × ℚ)),
      sparse_nnls fuelO fuelI G b tau false = some (inds, ws, stats) ∧
        inds.length ≠ ws.length :=
  ⟨10, 10, [[1, 2], [0, 1]], [0, 1], 1/10, [1], [0, 1], [], by decide, by decide⟩

/-- C2 (amended): the returned indices are exactly the positions of the
non-zero entries of the final solution vector `xi`, and the returned
weights are the entries of `xi` on the final active set, in index order;
every non-zero position is active, so the weight array is at least as
long as the index array, and the non-zero returned weights are, in
order, exactly the values of `xi` at the returned indices.  (The
original claim's equal-length assertion fails: an active position can
hold weight zero, see the counterexample.) -/
theorem C2_index_weight_consistency (fuelO fuelI : ℕ) (G : List (List ℚ))
    (b : List ℚ) (tau : ℚ) (conv_stats : Bool) (inds : List ℕ) (ws : List ℚ)
    (stats : List (ℕ × ℚ))
    (h : sparse_nnls fuelO fuelI G b tau conv_stats = some (inds, ws, stats)) :
    ∃ (active : List Bool) (xi : List ℚ),
      inds = nonzeroIndices xi ∧ ws = maskSelect active xi ∧
      ws.filter (fun w => decide (w ≠ 0)) = inds.map (fun i => xi.getD i 0) ∧
      inds.length ≤ ws.length := by
  simp only [sparse_nnls] at h
  split at h
  next => exact absurd h (by simp)
  next active xi stats3 r hout =>
    simp only [Option.some.injEq, Prod.mk.injEq] at h
    obtain ⟨rfl, rfl, rfl⟩ := h
    have hres := outer_loop_inv G b tau conv_stats fuelO fuelI b
      (List.replicate G.length false) (List.replicate G.length 0) [] active xi stats3 r
      (by simp) (by simp)
      (fun i => by rw [replicate_getD])
      (fun i _ => by rw [replicate_getD])
      (by rw [selectCols_replicate_false, gmulCols_nil, vsub_self_zero])
      hout
    have hfil : (maskSelect active xi).filter (fun w => decide (w ≠ 0))
        = (nonzeroIndices xi).map (fun i => xi.getD i 0) := by
      rw [maskSelect_filter active xi (hres.1.trans hres.2.1.symm) hres.2.2.2.1,
        nonzeroIndices_map_getD]
    refine ⟨active, xi, rfl, rfl, hfil, ?_⟩
    have hlm : (nonzeroIndices xi).length
        = ((maskSelect active xi).filter (fun w => decide (w ≠ 0))).length := by
      rw [hfil, List.length_map]
    rw [hlm]
    exact List.length_filter_le _ _

/-- Witness for C2: the counterexample input; the single non-zero weight 1
is the value of `xi` at the single returned index. -/
theorem C2_index_weight_consistency_witness :
    sparse_nnls 10 10 [[1, 2], [0, 1]] [0, 1] (1/10) false
      = some ([1], [0, 1], []) ∧
    ∃ (active : List Bool) (xi : List ℚ),
      ([1] : List ℕ) = nonzeroIndices xi ∧ ([0, 1] : List ℚ) = maskSelect active xi ∧
      ([0, 1] : List ℚ).filter (fun w => decide (w ≠ 0))
        = ([1] : List ℕ).map (fun i => xi.getD i 0) ∧
      ([1] : List ℕ).length ≤ ([0, 1] : List ℚ).length :=
  ⟨by decide,
   C2_index_weight_consistency 10 10 [[1, 2], [0, 1]] [0, 1] (1/10) false
     [1] [0, 1] [] (by decide)⟩

end ClaimC2

end AMfe
